import Mathlib

/-!
# The reconnecting chat client of `static/js/websocket.js`

A shallow embedding of the class `ChatWebSocket`: its fields, its methods and the
four transport handlers, as pure functions over an explicit world state.

Modelling decisions (each is visible in the definitions below):

* JavaScript values are the finite trees of `JVal`; numbers that the client computes
  with (attempt counter, delays, close codes) are natural numbers.  The counter and
  the delays stay far below `2^53`, and `Math.min` of an overflowing power with the
  cap is the cap, so natural-number arithmetic agrees with the double arithmetic.
* A transport handle is an index into `World.handles`, the list of the ready states
  of all handles constructed so far.  `client.ws` holds such an index.
* Callbacks are identified by a number (function identity, as `indexOf` compares
  them); what a callback does when invoked is given by `Env.bodies`: a script of
  `on`/`off` calls on the same client, after which it returns or throws.  A call of
  the script that throws ends the callback there.
* The listener table is the association list of the own properties of the object
  `eventListeners`, from event names to arrays.  The object is created as `{}`, so a
  name it has no own property for reads as the member inherited from
  `Object.prototype` when there is one (`constructor`, `toString`, ...): `readSlot`.
* A method that can end with an exception is a function giving the state it leaves
  together with a predicate telling whether it throws (`Client.onThrows`,
  `Client.offThrows`, `emitThrows`); `handleMessage`, whose caller catches, returns
  `none` instead.
* `World.trace` is ghost state: the chronological list of observable actions.
* Platform functions (`JSON.stringify`, `JSON.parse`, `encodeURIComponent`, string
  conversion in template literals, the `WebSocket` constructor) are fields of `Env`.
-/

namespace ChatWS

/-- JavaScript values. -/
inductive JVal where
  | undefined : JVal
  | null : JVal
  | bool (b : Bool) : JVal
  | num (n : Int) : JVal
  | str (s : String) : JVal
  | arr (items : List JVal) : JVal
  | obj (fields : List (String × JVal)) : JVal

/-- Truthiness of a value, as tested by `!x` and `if (x)`. -/
def JVal.truthy : JVal → Bool
  | JVal.undefined => false
  | JVal.null => false
  | JVal.bool b => b
  | JVal.num n => n != 0
  | JVal.str s => s != ""
  | JVal.arr _ => true
  | JVal.obj _ => true

/-- Property read `v.key`: `undefined` when absent or when `v` is a primitive. -/
def JVal.getProp (v : JVal) (key : String) : JVal :=
  match v with
  | JVal.obj fields =>
    match fields.find? (fun kv => kv.1 == key) with
    | some kv => kv.2
    | none => JVal.undefined
  | _ => JVal.undefined

/-- The `readyState` of a transport handle. -/
inductive ReadyState where
  | CONNECTING | OPEN | CLOSING | CLOSED
  deriving DecidableEq, Repr

/-- One call made by a listener body on the client it is registered with. -/
inductive CbAction where
  | on (event : String) (callback : Nat)
  | off (event : String) (callback : Nat)
  deriving DecidableEq, Repr

/-- Whether a call unsubscribes a callback from `event`. -/
def CbAction.removesFrom (a : CbAction) (event : String) : Bool :=
  match a with
  | CbAction.off e _ => e == event
  | CbAction.on _ _ => false

/-- What a callback does when invoked: its calls, then a normal return or a throw. -/
structure CbBody where
  actions : List CbAction
  throws : Bool
  deriving DecidableEq, Repr

/-- The fields of a `ChatWebSocket` instance. -/
structure Client where
  ws : Option Nat
  isConnected : Bool
  reconnectAttempts : Nat
  maxReconnectAttempts : Nat
  reconnectDelay : Nat
  maxReconnectDelay : Nat
  heartbeatInterval : Option Nat
  messageQueue : List JVal
  eventListeners : List (String × List Nat)

/-- Observable actions, recorded in order. -/
inductive Obs where
  | emitted (event : String) (data : JVal)
  | invoked (callback : Nat) (data : JVal)
  | listenerError (callback : Nat)
  | wsNew (handle : Nat) (url : String)
  | wsSend (handle : Nat) (frame : String)
  | wsSendThrew (handle : Nat) (frame : String)
  | wsClose (handle : Nat) (code : Nat) (reason : String)
  | timeoutSet (delay : Nat)
  | intervalSet (id : Nat) (period : Nat)
  | intervalCleared (id : Nat)

/-- The client together with the browser state it acts on. -/
structure World where
  client : Client
  handles : List ReadyState
  timeouts : List Nat
  intervals : List Nat
  nextInterval : Nat
  trace : List Obs

/-- The page environment: the auth store as read by `getUserData` and `getAuthToken`,
the location, the platform functions, and the bodies of the callbacks. -/
structure Env where
  userData : JVal
  token : Option String
  https : Bool
  host : String
  toStr : JVal → String
  encodeURIComponent : String → Option String
  ctorThrows : String → Bool
  stringify : JVal → String
  sendThrows : String → Bool
  parse : String → Option JVal
  bodies : Nat → CbBody

/-- The constructor. -/
def Client.new : Client :=
  { ws := none
    isConnected := false
    reconnectAttempts := 0
    maxReconnectAttempts := 5
    reconnectDelay := 1000
    maxReconnectDelay := 30000
    heartbeatInterval := none
    messageQueue := []
    eventListeners := [] }

/-- A page with a freshly constructed client. -/
def World.new : World :=
  { client := Client.new
    handles := []
    timeouts := []
    intervals := []
    nextInterval := 1
    trace := [] }

/-- Append an observation to the trace. -/
def World.log (w : World) (o : Obs) : World :=
  { w with trace := w.trace ++ [o] }

/-! ## The listener table -/

/-- The names that every plain object inherits from `Object.prototype`.  The table is
created as `{}`, so reading one of these names from it yields the inherited member (a
function, or the prototype itself for `__proto__`) unless the table has an own property
of that name. -/
def inheritedNames : List String :=
  ["constructor", "toString", "toLocaleString", "valueOf", "hasOwnProperty", "isPrototypeOf",
    "propertyIsEnumerable", "__proto__", "__defineGetter__", "__defineSetter__",
    "__lookupGetter__", "__lookupSetter__"]

/-- The own property `event` of the table, if it has one.  Own properties are created
by `on` only, and their values are arrays. -/
def getListeners (table : List (String × List Nat)) (event : String) : Option (List Nat) :=
  match table with
  | [] => none
  | (k, v) :: rest => if k = event then some v else getListeners rest event

/-- What the expression `this.eventListeners[event]` evaluates to: `undefined`, an array
of callbacks, or an inherited member, which is truthy and has none of the array methods
`push`, `indexOf`, `splice`, `forEach`. -/
inductive Slot where
  | undefined
  | array (arr : List Nat)
  | inherited
  deriving DecidableEq, Repr

/-- The value of `this.eventListeners[event]`: the own property when there is one, else
the inherited member when the name is one of `inheritedNames`, else `undefined`. -/
def readSlot (table : List (String × List Nat)) (event : String) : Slot :=
  match getListeners table event with
  | some arr => Slot.array arr
  | none => if inheritedNames.contains event then Slot.inherited else Slot.undefined

/-- Whether calling an array method on the value of `this.eventListeners[event]` throws
`TypeError` (is not a function): it does when the value is an inherited member. -/
def tableThrows (table : List (String × List Nat)) (event : String) : Bool :=
  match readSlot table event with
  | Slot.inherited => true
  | _ => false

/-- Store `arr` under `event`, replacing the array already there. -/
def setListeners (table : List (String × List Nat)) (event : String) (arr : List Nat) :
    List (String × List Nat) :=
  match table with
  | [] => [(event, arr)]
  | (k, v) :: rest =>
    if k = event then (k, arr) :: rest else (k, v) :: setListeners rest event arr

/-- Whether `on(event, callback)` throws: the value under `event` is truthy, so no array
is stored, and `.push` of an inherited member is not a function. -/
def Client.onThrows (c : Client) (event : String) : Bool :=
  tableThrows c.eventListeners event

/-- The method `on(event, callback)`: the client it leaves.  For an inherited member it
leaves the client as it is, the call ending with the `TypeError` of `Client.onThrows`. -/
def Client.on (c : Client) (event : String) (callback : Nat) : Client :=
  match readSlot c.eventListeners event with
  | Slot.undefined => { c with eventListeners := setListeners c.eventListeners event [callback] }
  | Slot.array arr =>
    { c with eventListeners := setListeners c.eventListeners event (arr ++ [callback]) }
  | Slot.inherited => c

/-- Whether `off(event, callback)` throws: the value under `event` is truthy, and
`.indexOf` of an inherited member is not a function. -/
def Client.offThrows (c : Client) (event : String) : Bool :=
  tableThrows c.eventListeners event

/-- The method `off(event, callback)`: the client it leaves.  For an inherited member it
leaves the client as it is, the call ending with the `TypeError` of `Client.offThrows`. -/
def Client.off (c : Client) (event : String) (callback : Nat) : Client :=
  match readSlot c.eventListeners event with
  | Slot.undefined => c
  | Slot.array arr =>
    let index := arr.indexOf callback
    if index < arr.length then
      { c with eventListeners := setListeners c.eventListeners event (arr.eraseIdx index) }
    else c
  | Slot.inherited => c

/-- Run one call of a listener body. -/
def runAction (c : Client) : CbAction → Client
  | CbAction.on event callback => c.on event callback
  | CbAction.off event callback => c.off event callback

/-- Whether one call of a listener body throws. -/
def actionThrows (c : Client) : CbAction → Bool
  | CbAction.on event _ => c.onThrows event
  | CbAction.off event _ => c.offThrows event

/-- Run the calls of a listener body in order, up to the first one that throws: the
client they leave, and whether one threw. -/
def runActions (c : Client) : List CbAction → Client × Bool
  | [] => (c, false)
  | a :: rest => if actionThrows c a then (c, true) else runActions (runAction c a) rest

/-- The body of the arrow function passed to `forEach` in `emit`: call the callback
inside `try`, log in `catch`.  The callback throws when one of its calls does, or at its
end when its body says so. -/
def invoke (env : Env) (callback : Nat) (data : JVal) (w : World) : World :=
  let w1 := w.log (Obs.invoked callback data)
  let ran := runActions w1.client (env.bodies callback).actions
  let w2 := { w1 with client := ran.1 }
  if ran.2 || (env.bodies callback).throws then w2.log (Obs.listenerError callback) else w2

/-- The loop of `Array.prototype.forEach` over the array stored under `event`: the
length is read once, before the first call, and the element at index `k` is read
from the array as it is when the loop reaches `k`. -/
def forEachFrom (env : Env) (event : String) (data : JVal) : Nat → Nat → World → World
  | 0, _, w => w
  | remaining + 1, k, w =>
    match (getListeners w.client.eventListeners event).bind (fun arr => arr.get? k) with
    | none => forEachFrom env event data remaining (k + 1) w
    | some callback => forEachFrom env event data remaining (k + 1) (invoke env callback data w)

/-- Whether `emit(event, data)` throws: the value under `event` is truthy, and
`.forEach` of an inherited member is not a function.  A listener that throws does not
make `emit` throw: each is called inside its own `try`. -/
def emitThrows (event : String) (w : World) : Bool :=
  tableThrows w.client.eventListeners event

/-- The method `emit(event, data)`: the world it leaves.  For an inherited member no
listener is called, the call ending with the `TypeError` of `emitThrows`. -/
def emit (env : Env) (event : String) (data : JVal) (w : World) : World :=
  let w1 := w.log (Obs.emitted event data)
  match readSlot w1.client.eventListeners event with
  | Slot.undefined => w1
  | Slot.array arr => forEachFrom env event data arr.length 0 w1
  | Slot.inherited => w1

/-! ## Transport handles and timers -/

/-- The value of `this.ws.readyState`, when `this.ws` is a handle. -/
def World.wsState (w : World) : Option ReadyState :=
  w.client.ws.bind (fun h => w.handles.get? h)

/-- The test `this.ws && this.ws.readyState === WebSocket.OPEN`. -/
def World.wsOpen (w : World) : Bool :=
  w.wsState == some ReadyState.OPEN

/-- The effect of `close()` on a handle: a handle that is not yet closed or closing
starts closing. -/
def closeHandle (handles : List ReadyState) (h : Nat) : List ReadyState :=
  match handles.get? h with
  | some ReadyState.CONNECTING => handles.set h ReadyState.CLOSING
  | some ReadyState.OPEN => handles.set h ReadyState.CLOSING
  | _ => handles

/-- The statement `if (this.heartbeatInterval) { clearInterval(...); ... = null; }`. -/
def clearHeartbeat (w : World) : World :=
  match w.client.heartbeatInterval with
  | none => w
  | some id =>
    { w with
      intervals := w.intervals.filter (fun i => i != id)
      client := { w.client with heartbeatInterval := none }
      trace := w.trace ++ [Obs.intervalCleared id] }

/-- The record `{ message: text }` passed to the `error` listeners. -/
def errorData (text : String) : JVal :=
  JVal.obj [("message", JVal.str text)]

/-! ## The methods

Every call of `emit` in the methods and handlers below is for a name that no plain
object inherits, so that none of these calls throws and each method goes on with the
statement after the call. -/

/-- The method `connect()`; the first component is the value the promise resolves to. -/
def connect (env : Env) (w : World) : Bool × World :=
  if w.wsOpen then (true, w)
  else if !env.userData.truthy || !(env.token.getD "" != "") then
    (false, emit env "error" (errorData "No authentication data") w)
  else
    let protocol := if env.https then "wss:" else "ws:"
    match env.encodeURIComponent (env.token.getD "") with
    | none => (false, emit env "error" (errorData "Failed to connect to chat server") w)
    | some encoded =>
      let wsUrl := protocol ++ "//" ++ env.host ++ "/ws/" ++
        env.toStr (env.userData.getProp "login") ++ "?token=" ++ encoded
      if env.ctorThrows wsUrl then
        (false, emit env "error" (errorData "Failed to connect to chat server") w)
      else
        let h := w.handles.length
        (true,
          { w with
            handles := w.handles ++ [ReadyState.CONNECTING]
            client := { w.client with ws := some h }
            trace := w.trace ++ [Obs.wsNew h wsUrl] })

/-- The method `disconnect()`. -/
def disconnect (env : Env) (w : World) : World :=
  let w1 := { w with
    client := { w.client with reconnectAttempts := w.client.maxReconnectAttempts } }
  let w2 := clearHeartbeat w1
  let w3 :=
    match w2.client.ws with
    | none => w2
    | some h =>
      { w2 with
        handles := closeHandle w2.handles h
        client := { w2.client with ws := none }
        trace := w2.trace ++ [Obs.wsClose h 1000 "User disconnect"] }
  let w4 := { w3 with client := { w3.client with isConnected := false } }
  emit env "disconnected" JVal.undefined w4

/-- The string handed to `send`: the message itself when it is a string. -/
def messageStr (env : Env) (message : JVal) : String :=
  match message with
  | JVal.str s => s
  | other => env.stringify other

/-- The method `sendMessage(message)`. -/
def sendMessage (env : Env) (message : JVal) (w : World) : Bool × World :=
  if !w.client.isConnected || !w.wsOpen then
    let w1 := { w with
      client := { w.client with messageQueue := w.client.messageQueue ++ [message] } }
    (false, emit env "error" (errorData "Not connected to chat server") w1)
  else
    let frame := messageStr env message
    if env.sendThrows frame then
      (false, emit env "error" (errorData "Failed to send message")
        (w.log (Obs.wsSendThrew (w.client.ws.getD 0) frame)))
    else
      (true, w.log (Obs.wsSend (w.client.ws.getD 0) frame))

/-- The method `ping()`. -/
def ping (env : Env) (w : World) : Bool × World :=
  sendMessage env (JVal.obj [("type", JVal.str "ping")]) w

/-- The method `startHeartbeat()`: a new interval of 30000 ms is registered and its
id stored, whatever id was stored before. -/
def startHeartbeat (w : World) : World :=
  { w with
    intervals := w.intervals ++ [w.nextInterval]
    nextInterval := w.nextInterval + 1
    client := { w.client with heartbeatInterval := some w.nextInterval }
    trace := w.trace ++ [Obs.intervalSet w.nextInterval 30000] }

/-- One tick of a heartbeat interval: `if (this.isConnected) this.ping()`. -/
def heartbeatTick (env : Env) (w : World) : World :=
  if w.client.isConnected then (ping env w).2 else w

/-- The loop `while (this.messageQueue.length > 0) { shift; sendMessage }` of
`onOpen`, with a bound on the number of iterations: `none` when the bound is
reached with messages still queued. -/
def flushQueue (env : Env) : Nat → World → Option World
  | 0, w => if w.client.messageQueue.isEmpty then some w else none
  | fuel + 1, w =>
    match w.client.messageQueue with
    | [] => some w
    | message :: rest =>
      flushQueue env fuel
        (sendMessage env message { w with client := { w.client with messageQueue := rest } }).2

/-- The handler `onOpen(event)`. -/
def onOpen (env : Env) (fuel : Nat) (w : World) : Option World :=
  let w1 := { w with
    client := { w.client with isConnected := true, reconnectAttempts := 0, reconnectDelay := 1000 } }
  let w2 := startHeartbeat w1
  match flushQueue env fuel w2 with
  | none => none
  | some w3 => some (emit env "connected" JVal.undefined w3)

/-- The delay computed by `scheduleReconnect` from the already incremented counter. -/
def backoffDelay (c : Client) : Nat :=
  min (c.reconnectDelay * 2 ^ (c.reconnectAttempts - 1)) c.maxReconnectDelay

/-- The method `scheduleReconnect()`. -/
def scheduleReconnect (w : World) : World :=
  let c := { w.client with reconnectAttempts := w.client.reconnectAttempts + 1 }
  let delay := backoffDelay c
  { w with
    client := c
    timeouts := w.timeouts ++ [delay]
    trace := w.trace ++ [Obs.timeoutSet delay] }

/-- The arrow function that `scheduleReconnect` hands to `setTimeout`. -/
def reconnectTimer (env : Env) (w : World) : World :=
  if w.client.reconnectAttempts ≤ w.client.maxReconnectAttempts then
    (connect env
      (emit env "reconnecting"
        (JVal.obj [("attempt", JVal.num w.client.reconnectAttempts)]) w)).2
  else
    emit env "reconnectFailed" JVal.undefined w

/-- The handler `onClose(event)` for an event with the given code and reason. -/
def onClose (env : Env) (code : Nat) (reason : String) (w : World) : World :=
  let w1 := { w with client := { w.client with isConnected := false } }
  let w2 := clearHeartbeat w1
  let w3 := emit env "disconnected"
    (JVal.obj [("code", JVal.num code), ("reason", JVal.str reason)]) w2
  if code ≠ 1000 ∧ w3.client.reconnectAttempts < w3.client.maxReconnectAttempts then
    scheduleReconnect w3
  else w3

/-- The handler `onError(event)`. -/
def onError (env : Env) (w : World) : World :=
  emit env "error" (errorData "WebSocket connection error") w

/-- The local event name that `handleMessage` emits for a `type` tag; `none` for
`pong`, which is consumed. -/
def eventFor (messageType : JVal) : Option String :=
  match messageType with
  | JVal.str "welcome" => some "welcome"
  | JVal.str "user_message" => some "userMessage"
  | JVal.str "admin_message" => some "adminMessage"
  | JVal.str "admin_sent" => some "adminSent"
  | JVal.str "broadcast" => some "broadcast"
  | JVal.str "user_connected" => some "userConnected"
  | JVal.str "connected_users" => some "connectedUsers"
  | JVal.str "conversation_history" => some "conversationHistory"
  | JVal.str "conversations_list" => some "conversationsList"
  | JVal.str "offline_message" => some "offlineMessage"
  | JVal.str "offline_messages_summary" => some "offlineMessagesSummary"
  | JVal.str "pong" => none
  | JVal.str "error" => some "error"
  | _ => some "message"

/-- The method `handleMessage(data)`; `none` when reading `data.type` throws, which
it does for `null` and `undefined`. -/
def handleMessage (env : Env) (data : JVal) (w : World) : Option World :=
  match data with
  | JVal.null => none
  | JVal.undefined => none
  | _ =>
    match eventFor (data.getProp "type") with
    | none => some w
    | some event => some (emit env event data w)

/-- The handler `onMessage(event)` for a frame with the given data. -/
def onMessage (env : Env) (frame : String) (w : World) : World :=
  let fallback := emit env "message"
    (JVal.obj [("type", JVal.str "text"), ("content", JVal.str frame)]) w
  match env.parse frame with
  | none => fallback
  | some data =>
    match handleMessage env data w with
    | none => fallback
    | some w1 => w1

/-! ## Events of the page -/

/-- What can happen to the client: calls made by the page, events delivered by a
transport handle, and timers coming due. -/
inductive Event where
  | callConnect
  | callDisconnect
  | callSend (message : JVal)
  | callOn (event : String) (callback : Nat)
  | callOff (event : String) (callback : Nat)
  | wsOpened (handle : Nat)
  | wsMessage (handle : Nat) (frame : String)
  | wsClosed (handle : Nat) (code : Nat) (reason : String)
  | wsErrored (handle : Nat)
  | timeoutFired (index : Nat)
  | heartbeat (id : Nat)

/-- One event.  The browser sets the ready state of the handle before it calls the
handler, removes a timeout when it fires, and delivers events only from handles that
exist and timers that are pending; `none` when the event cannot happen in `w`, or when
the flush loop of `onOpen` does not finish within `fuel` iterations.  A call of `on` or
`off` by the page that throws leaves the world as it is, the exception going to the
page. -/
def step (env : Env) (fuel : Nat) (ev : Event) (w : World) : Option World :=
  match ev with
  | Event.callConnect => some (connect env w).2
  | Event.callDisconnect => some (disconnect env w)
  | Event.callSend message => some (sendMessage env message w).2
  | Event.callOn event callback => some { w with client := w.client.on event callback }
  | Event.callOff event callback => some { w with client := w.client.off event callback }
  | Event.wsOpened h =>
    if w.handles.get? h = some ReadyState.CONNECTING then
      onOpen env fuel { w with handles := w.handles.set h ReadyState.OPEN }
    else none
  | Event.wsMessage h frame =>
    if w.handles.get? h = some ReadyState.OPEN ∨ w.handles.get? h = some ReadyState.CLOSING then
      some (onMessage env frame w)
    else none
  | Event.wsClosed h code reason =>
    if h < w.handles.length ∧ w.handles.get? h ≠ some ReadyState.CLOSED then
      some (onClose env code reason { w with handles := w.handles.set h ReadyState.CLOSED })
    else none
  | Event.wsErrored h =>
    if h < w.handles.length ∧ w.handles.get? h ≠ some ReadyState.CLOSED then
      some (onError env w)
    else none
  | Event.timeoutFired i =>
    if i < w.timeouts.length then
      some (reconnectTimer env { w with timeouts := w.timeouts.eraseIdx i })
    else none
  | Event.heartbeat id =>
    if id ∈ w.intervals then some (heartbeatTick env w) else none

/-- A sequence of events, from left to right. -/
def run (env : Env) (fuel : Nat) : List Event → World → Option World
  | [], w => some w
  | ev :: rest, w =>
    match step env fuel ev w with
    | none => none
    | some w1 => run env fuel rest w1

/-! ## Reading the trace -/

/-- The emission recorded by an observation, if it is one. -/
def Obs.emission : Obs → Option (String × JVal)
  | Obs.emitted event data => some (event, data)
  | _ => none

/-- The emissions in a trace: event name and payload of each call of `emit`. -/
def emissions (tr : List Obs) : List (String × JVal) :=
  tr.filterMap Obs.emission

/-- The names of the events emitted in a trace. -/
def emittedNames (tr : List Obs) : List String :=
  (emissions tr).map Prod.fst

/-- The listener call recorded by an observation, if it is one. -/
def Obs.invocation : Obs → Option (Nat × JVal)
  | Obs.invoked callback data => some (callback, data)
  | _ => none

/-- The listener invocations in a trace: callback and argument of each call. -/
def invocations (tr : List Obs) : List (Nat × JVal) :=
  tr.filterMap Obs.invocation

/-- The frame handed to `send` by an observation, if it is a call of `send`. -/
def Obs.handed : Obs → Option String
  | Obs.wsSend _ frame => some frame
  | Obs.wsSendThrew _ frame => some frame
  | _ => none

/-- The frames handed to the `send` of a transport handle in a trace, whether or not
the call returned normally. -/
def handedToSend (tr : List Obs) : List String :=
  tr.filterMap Obs.handed

/-- The delay of the reconnect timer set by an observation, if it sets one. -/
def Obs.timer : Obs → Option Nat
  | Obs.timeoutSet delay => some delay
  | _ => none

/-- The delays of the reconnect timers set in a trace. -/
def timersSet (tr : List Obs) : List Nat :=
  tr.filterMap Obs.timer

/-- The handle constructed by an observation, if it constructs one. -/
def Obs.opened : Obs → Option Nat
  | Obs.wsNew h _ => some h
  | _ => none

/-- The transport handles constructed in a trace. -/
def handlesOpened (tr : List Obs) : List Nat :=
  tr.filterMap Obs.opened

/-- The call of `close` recorded by an observation, if it is one. -/
def Obs.closing : Obs → Option (Nat × Nat × String)
  | Obs.wsClose h code reason => some (h, code, reason)
  | _ => none

/-- The calls of `close` on transport handles in a trace: handle, code, reason. -/
def closeCalls (tr : List Obs) : List (Nat × Nat × String) :=
  tr.filterMap Obs.closing

/-- Observations made by `emit` while it runs the listeners. -/
def Obs.byListener : Obs → Bool
  | Obs.invoked _ _ => true
  | Obs.listenerError _ => true
  | _ => false

/-- The number of handles that are connecting or open. -/
def liveHandles (handles : List ReadyState) : Nat :=
  (handles.filter (fun s => s = ReadyState.CONNECTING ∨ s = ReadyState.OPEN)).length

/-- The world `w` after listeners ran: the listener table is `ls`, the trace has grown
by `tr`, every other field is as in `w`. -/
def World.listenersRan (w : World) (ls : List (String × List Nat)) (tr : List Obs) : World :=
  { w with client := { w.client with eventListeners := ls }, trace := w.trace ++ tr }

/-- A page environment for the examples: user `ann` with token `t` is stored, no
platform function throws, and callback `1` unsubscribes itself from `x`, callback `3`
subscribes callback `4` to `x`, callback `5` throws. -/
def Env.sample : Env :=
  { userData := JVal.obj [("login", JVal.str "ann")]
    token := some "t"
    https := false
    host := "localhost"
    toStr := fun v => match v with
      | JVal.str s => s
      | _ => "undefined"
    encodeURIComponent := fun s => some s
    ctorThrows := fun _ => false
    stringify := fun _ => "{}"
    sendThrows := fun _ => false
    parse := fun _ => none
    bodies := fun cb =>
      if cb = 1 then { actions := [CbAction.off "x" 1], throws := false }
      else if cb = 3 then { actions := [CbAction.on "x" 4], throws := false }
      else if cb = 5 then { actions := [], throws := true }
      else if cb = 6 then { actions := [CbAction.off "x" 2, CbAction.on "x" 6], throws := false }
      else { actions := [], throws := false } }

/-- The page after `connect()` and the open event of the handle it constructed. -/
def World.sampleOpen : World :=
  (run Env.sample 0 [Event.callConnect, Event.wsOpened 0] World.new).getD World.new

/-- Calls of `sendMessage` one after the other. -/
def sendAll (env : Env) (messages : List JVal) (w : World) : World :=
  messages.foldl (fun w1 message => (sendMessage env message w1).2) w

/-- Two messages sent before the first `connect()`, then `connect()`, at the moment the
browser has set the handle to OPEN and is about to call `onOpen`. -/
def World.sampleQueued : World :=
  { (connect Env.sample
        (sendAll Env.sample [JVal.str "a", JVal.obj [("type", JVal.str "ping")]] World.new)).2
    with handles := [ReadyState.OPEN] }

/-- The callback whose error an observation says was caught, if it is one. -/
def Obs.caught : Obs → Option Nat
  | Obs.listenerError callback => some callback
  | _ => none

/-- The callbacks whose errors were caught and logged by `emit` in a trace. -/
def caughtErrors (tr : List Obs) : List Nat :=
  tr.filterMap Obs.caught

/-- Five abnormal closes in a row from an open connection, each reconnect timer coming
due before the next close; the handles constructed by the reconnects never open. -/
def fiveAbnormalCloses : List Event :=
  [Event.callConnect, Event.wsOpened 0,
    Event.wsClosed 0 1006 "", Event.timeoutFired 0,
    Event.wsClosed 1 1006 "", Event.timeoutFired 0,
    Event.wsClosed 2 1006 "", Event.timeoutFired 0,
    Event.wsClosed 3 1006 "", Event.timeoutFired 0,
    Event.wsClosed 4 1006 ""]

/-- An abnormal close sets a reconnect timer, the page calls `disconnect()`, then the
timer comes due. -/
def disconnectWhileTimerPending : List Event :=
  [Event.callConnect, Event.wsOpened 0, Event.wsClosed 0 1006 "", Event.callDisconnect,
    Event.timeoutFired 0]

/-! ## Typed send helpers -/

/-- The method `sendUserMessage(content)`. -/
def sendUserMessage (env : Env) (content : JVal) (w : World) : Bool × World :=
  sendMessage env (JVal.obj [("type", JVal.str "user_to_admin"), ("message", content)]) w

/-- The method `sendAdminMessage(content, toUser)`. -/
def sendAdminMessage (env : Env) (content toUser : JVal) (w : World) : Bool × World :=
  sendMessage env
    (JVal.obj [("type", JVal.str "admin_to_user"), ("to_user", toUser), ("message", content)]) w

/-- The method `sendBroadcast(content)`. -/
def sendBroadcast (env : Env) (content : JVal) (w : World) : Bool × World :=
  sendMessage env (JVal.obj [("type", JVal.str "broadcast"), ("message", content)]) w

/-- A parameter with a default value: the default is taken when the argument is
`undefined`, which is also what an omitted argument is. -/
def defaultArg (arg fallback : JVal) : JVal :=
  match arg with
  | JVal.undefined => fallback
  | given => given

/-- The method `requestConversationHistory(withUser, limit = 50, offset = 0)`. -/
def requestConversationHistory (env : Env) (withUser limit offset : JVal) (w : World) :
    Bool × World :=
  sendMessage env
    (JVal.obj [("type", JVal.str "get_conversation_history"), ("with_user", withUser),
      ("limit", defaultArg limit (JVal.num 50)), ("offset", defaultArg offset (JVal.num 0))]) w

/-- The method `requestConversations()`. -/
def requestConversations (env : Env) (w : World) : Bool × World :=
  sendMessage env (JVal.obj [("type", JVal.str "get_conversations")]) w

/-- The method `markAsRead(senderId)`. -/
def markAsRead (env : Env) (senderId : JVal) (w : World) : Bool × World :=
  sendMessage env (JVal.obj [("type", JVal.str "mark_as_read"), ("sender_id", senderId)]) w

/-- The method `requestConnectedUsers()`. -/
def requestConnectedUsers (env : Env) (w : World) : Bool × World :=
  sendMessage env (JVal.obj [("type", JVal.str "get_connected_users")]) w

/-! ## Further readings and examples -/

/-- The frame accepted by the transport in an observation, if it is a call of `send`
that returned. -/
def Obs.sent : Obs → Option String
  | Obs.wsSend _ frame => some frame
  | _ => none

/-- The frames that a transport handle accepted in a trace. -/
def transmitted (tr : List Obs) : List String :=
  tr.filterMap Obs.sent

/-- The inbound dispatch table as the specification lists it: wire tag and local
event name. -/
def inboundTable : List (String × String) :=
  [("welcome", "welcome"), ("user_message", "userMessage"), ("admin_message", "adminMessage"),
    ("admin_sent", "adminSent"), ("broadcast", "broadcast"), ("user_connected", "userConnected"),
    ("connected_users", "connectedUsers"), ("conversation_history", "conversationHistory"),
    ("conversations_list", "conversationsList"), ("offline_message", "offlineMessage"),
    ("offline_messages_summary", "offlineMessagesSummary"), ("error", "error")]

/-- The event that the specification assigns to a `type` tag: the table entry, nothing
for `pong`, and `message` for every other tag, a string or not. -/
def tableEvent (messageType : JVal) : Option String :=
  match messageType with
  | JVal.str s => if s = "pong" then none else some ((inboundTable.lookup s).getD "message")
  | _ => some "message"

/-- Whether a decoded value is a record whose `type` is the string `pong`. -/
def JVal.isPong (d : JVal) : Bool :=
  match d with
  | JVal.obj fields =>
    match (JVal.obj fields).getProp "type" with
    | JVal.str s => s == "pong"
    | _ => false
  | _ => false

/-- Whether a frame decodes to a record with `type` `pong`. -/
def pongFrame (env : Env) (frame : String) : Bool :=
  match env.parse frame with
  | some d => d.isPong
  | none => false

/-- The worlds that a freshly constructed client can be in: after any sequence of
events, each in whatever page environment holds when it happens. -/
inductive Reachable : World → Prop where
  | fresh : Reachable World.new
  | next (env : Env) (fuel : Nat) (ev : Event) (w w1 : World) :
      Reachable w → step env fuel ev w = some w1 → Reachable w1

/-- The reconnect counter is within the budget of the constructor, and
`reconnectFailed` has not been emitted. -/
def WithinBudget (w : World) : Prop :=
  w.client.maxReconnectAttempts = 5 ∧ w.client.reconnectAttempts ≤ 5 ∧
    "reconnectFailed" ∉ emittedNames w.trace

/-- The world after the five abnormal closes of the examples. -/
def World.afterFiveCloses : World :=
  (run Env.sample 0 fiveAbnormalCloses World.new).getD World.new

/-- A message is sent before the connection exists, then `connect()` is called twice in
a row, so that the client holds the second handle while the first is still connecting. -/
def sendThenConnectTwice : List Event :=
  [Event.callSend (JVal.str "a"), Event.callConnect, Event.callConnect]

/-- The world after `sendThenConnectTwice`. -/
def World.secondConnect : World :=
  (run Env.sample 0 sendThenConnectTwice World.new).getD World.new

/-- The page environment of the examples after the auth store was emptied. -/
def Env.loggedOut : Env :=
  { Env.sample with userData := JVal.null, token := none }

end ChatWS

/-!
# The message caches of `static/js/chat.js` and `static/js/admin.js`

Only the in-memory history is modelled: rendering and `localStorage` are left out,
except that a render which throws is reported, because it decides whether the
statements after it run.  The fields of a record that the code compares or sorts by are
strings.  `Array.prototype.sort` is stable; it is modelled as an insertion sort with the
comparator of the source, a comparator result of `NaN` counting as zero.
-/

namespace History

/-- A record of a message history. -/
structure Message where
  content : String
  sender : String
  senderName : String
  timestamp : String
  type : String
  isOffline : Bool
  deriving DecidableEq, Repr

/-- A message of a `conversation_history` event as the server sends it. -/
structure ServerMessage where
  content : String
  sender_id : String
  timestamp : String
  deriving DecidableEq, Repr

/-- The stored profile of the user of the page. -/
structure Profile where
  login : String
  first_name : String
  last_name : String
  deriving DecidableEq, Repr

/-- The key by which the caches de-duplicate. -/
def triple (m : Message) : String × String × String :=
  (m.content, m.timestamp, m.sender)

/-- The test of the callbacks passed to `some` and `find`: strict equality of
content, timestamp and sender. -/
def sameTriple (a b : Message) : Bool :=
  a.content == b.content && a.timestamp == b.timestamp && a.sender == b.sender

/-- The invariant: no two records of a history share the triple. -/
def NoDuplicates (history : List Message) : Prop :=
  (history.map triple).Nodup

instance decidableNoDuplicates (history : List Message) : Decidable (NoDuplicates history) :=
  inferInstanceAs (Decidable ((history.map triple).Nodup))

/-- Whether the comparator `new Date(a.timestamp) - new Date(b.timestamp)` does not
put `a` after `b`; `dateValue` is the time value of `new Date(s)`, `none` for an
invalid date, which makes the difference `NaN`. -/
def notAfter (dateValue : String → Option Int) (a b : Message) : Bool :=
  match dateValue a.timestamp, dateValue b.timestamp with
  | some x, some y => decide (x ≤ y)
  | _, _ => true

/-- Insertion of a record into a sorted history, before the first record it is not
after. -/
def insertSorted (dateValue : String → Option Int) (x : Message) : List Message → List Message
  | [] => [x]
  | y :: rest =>
    if notAfter dateValue x y then x :: y :: rest
    else y :: insertSorted dateValue x rest

/-- The call `history.sort((a, b) => new Date(a.timestamp) - new Date(b.timestamp))`. -/
def sortByTime (dateValue : String → Option Int) : List Message → List Message
  | [] => []
  | x :: rest => insertSorted dateValue x (sortByTime dateValue rest)

/-- Push `message` unless a record with the same triple is in the history. -/
def pushIfNew (history : List Message) (message : Message) : List Message :=
  if history.any (fun existing => sameTriple existing message) then history
  else history ++ [message]

/-- A date parser for the examples: every timestamp is valid and its time value is its
length. -/
def lengthDate : String → Option Int :=
  fun s => some s.length

/-- Every timestamp of the history is a valid date. -/
def Parseable (dateValue : String → Option Int) (history : List Message) : Prop :=
  ∀ m ∈ history, ∃ x, dateValue m.timestamp = some x

/-- The relation of a record to a later one in an ordered history: both timestamps are
valid dates and the first is not later than the second. -/
def Before (dateValue : String → Option Int) (a b : Message) : Prop :=
  ∃ x y, dateValue a.timestamp = some x ∧ dateValue b.timestamp = some y ∧ x ≤ y

/-- The history is in non-decreasing order of time. -/
def InTimeOrder (dateValue : String → Option Int) (history : List Message) : Prop :=
  history.Pairwise (Before dateValue)

end History

namespace ChatView

open History

/-- The state of the user chat page that the history functions read and write. -/
structure Page where
  messageHistory : List Message
  hasContainer : Bool
  currentUser : Profile

/-- Whether `formatChatTime(timestamp)` throws: a timestamp without `+` and `Z` goes
through `toMoscowTime`, whose `toISOString()` throws on an invalid date. -/
def formatChatTimeThrows (dateValue : String → Option Int) (timestamp : String) : Bool :=
  !timestamp.toList.contains '+' && !timestamp.toList.contains 'Z' &&
    (dateValue timestamp).isNone

/-- The function `addMessageToUI(message, saveToStorage)`; the second component tells
whether it threw. -/
def addMessageToUI (dateValue : String → Option Int) (message : Message) (saveToStorage : Bool)
    (p : Page) : Page × Bool :=
  if !p.hasContainer then (p, false)
  else if formatChatTimeThrows dateValue message.timestamp then (p, true)
  else if saveToStorage then
    ({ p with messageHistory := p.messageHistory ++ [message] }, false)
  else (p, false)

/-- The function `addMessage(message)`. -/
def addMessage (dateValue : String → Option Int) (message : Message) (p : Page) : Page × Bool :=
  addMessageToUI dateValue message true p

/-- The record that `displayMessageHistory` builds from a server message. -/
def fromServer (currentUser : Profile) (msg : ServerMessage) : Message :=
  { content := msg.content
    sender := msg.sender_id
    senderName :=
      if msg.sender_id = currentUser.login then
        currentUser.first_name ++ " " ++ currentUser.last_name
      else "Администратор"
    timestamp := msg.timestamp
    type := if msg.sender_id = currentUser.login then "sent" else "received"
    isOffline := false }

/-- The function `displayMessageHistory(messages)`: the server messages are pushed as
they come, the records held before are pushed unless the history already has their
triple, the history is sorted and then rendered. -/
def displayMessageHistory (dateValue : String → Option Int) (messages : List ServerMessage)
    (p : Page) : Page × Bool :=
  if !p.hasContainer then (p, false)
  else
    let existingMessages := p.messageHistory
    let loaded := messages.map (fromServer p.currentUser)
    let merged := existingMessages.foldl pushIfNew loaded
    let sorted := sortByTime dateValue merged
    ({ p with messageHistory := sorted },
      sorted.any (fun m => formatChatTimeThrows dateValue m.timestamp))

/-- A date parser for the examples: every timestamp is valid and has time value 0. -/
def sampleDate : String → Option Int :=
  fun _ => some 0

/-- A page of the examples: user `ann`, the container present, no history. -/
def Page.sample : Page :=
  { messageHistory := []
    hasContainer := true
    currentUser := { login := "ann", first_name := "Ann", last_name := "Lee" } }

/-- An offline message as the `offlineMessage` listener builds it. -/
def Message.sample : Message :=
  { content := "hello"
    sender := "admin"
    senderName := "admin"
    timestamp := "2024-01-01T00:00:00Z"
    type := "received"
    isOffline := true }

end ChatView

namespace AdminView

open History

/-- The state of the admin page that the history functions read and write. -/
structure Page where
  conversationHistory : List (String × List Message)
  selectedUser : Option String
  currentAdmin : Profile
  connectedUsers : List (String × String)

/-- The value of `conversationHistory[userId]`. -/
def getHistory (table : List (String × List Message)) (userId : String) :
    Option (List Message) :=
  match table with
  | [] => none
  | (k, v) :: rest => if k = userId then some v else getHistory rest userId

/-- Store `history` under `userId`. -/
def setHistory (table : List (String × List Message)) (userId : String)
    (history : List Message) : List (String × List Message) :=
  match table with
  | [] => [(userId, history)]
  | (k, v) :: rest =>
    if k = userId then (k, history) :: rest else (k, v) :: setHistory rest userId history

/-- The history of a user, empty when there is none. -/
def Page.historyOf (p : Page) (userId : String) : List Message :=
  (getHistory p.conversationHistory userId).getD []

/-- The function `addMessageToChat(userId, message)`. -/
def addMessageToChat (userId : String) (message : Message) (p : Page) : Page :=
  let history := (getHistory p.conversationHistory userId).getD []
  { p with conversationHistory := setHistory p.conversationHistory userId (pushIfNew history message) }

/-- The record that `displayConversationHistory` builds from a server message. -/
def fromServer (p : Page) (msg : ServerMessage) : Message :=
  { content := msg.content
    sender := msg.sender_id
    senderName :=
      if msg.sender_id = p.currentAdmin.login then
        p.currentAdmin.first_name ++ " " ++ p.currentAdmin.last_name
      else
        match p.connectedUsers.find? (fun u => u.1 == msg.sender_id) with
        | some u => if u.2 = "" then msg.sender_id else u.2
        | none => msg.sender_id
    timestamp := msg.timestamp
    type := if msg.sender_id = p.currentAdmin.login then "sent" else "received"
    isOffline := false }

/-- The function `displayConversationHistory(userId, messages)`. -/
def displayConversationHistory (dateValue : String → Option Int) (userId : String)
    (messages : List ServerMessage) (p : Page) : Page :=
  let history := (getHistory p.conversationHistory userId).getD []
  let merged := (messages.map (fromServer p)).foldl pushIfNew history
  { p with
    conversationHistory :=
      setHistory p.conversationHistory userId (sortByTime dateValue merged) }

/-- An admin page of the examples: no history, nobody connected. -/
def Page.sample : Page :=
  { conversationHistory := []
    selectedUser := none
    currentAdmin := { login := "root", first_name := "Ro", last_name := "Ot" }
    connectedUsers := [] }

end AdminView

/-!
# The auth store of `static/js/auth.js`

`localStorage` holds the token and the user record as strings.  A request is modelled by
the response it gets; what the page shows is reduced to the outcome of the call.
-/

namespace Auth

open ChatWS

/-- The entries of `localStorage` that the auth functions use, and the location of the
page. -/
structure Store where
  authToken : Option String
  userData : Option String
  location : String
  deriving DecidableEq, Repr

/-- The test `!x` on a value read from `localStorage`: no entry, or an empty string. -/
def missing (value : Option String) : Bool :=
  match value with
  | none => true
  | some text => decide (text = "")

/-- The function `logout()`. -/
def logout (s : Store) : Store :=
  { s with authToken := none, userData := none, location := "/static/login.html" }

/-- The parts of a string between its dots. -/
def splitOnDot : List Char → List (List Char)
  | [] => [[]]
  | c :: rest =>
    if c = '.' then [] :: splitOnDot rest
    else
      match splitOnDot rest with
      | [] => [[c]]
      | part :: parts => (c :: part) :: parts

/-- The value of `token.split('.')`. -/
def tokenParts (token : String) : List String :=
  (splitOnDot token.toList).map String.mk

/-- The platform as `checkAuth` uses it: `JSON.parse(atob(part))`, `none` when either
throws; `Math.floor(Date.now() / 1000)`; and the conversion to a number that `<`
applies to a value that is not a number, `none` for `NaN`. -/
structure Platform where
  decodePayload : String → Option JVal
  now : Int
  toNumber : JVal → Option Int

/-- The comparison `value < currentTime`. -/
def lessThanNow (plat : Platform) (value : JVal) : Bool :=
  match value with
  | JVal.num n => decide (n < plat.now)
  | other =>
    match plat.toNumber other with
    | some n => decide (n < plat.now)
    | none => false

/-- The function `checkAuth()`: its result and the store it leaves. -/
def checkAuth (plat : Platform) (s : Store) : Bool × Store :=
  if missing s.authToken || missing s.userData then (false, s)
  else
    let tokenParts := tokenParts (s.authToken.getD "")
    if tokenParts.length ≠ 3 then (false, s)
    else
      match plat.decodePayload (tokenParts.getD 1 "") with
      | none => (false, logout s)
      | some JVal.null => (false, logout s)
      | some JVal.undefined => (false, logout s)
      | some payload =>
        if (payload.getProp "exp").truthy && lessThanNow plat (payload.getProp "exp") then
          (false, logout s)
        else (true, s)

/-- A response as the callers look at it: the status, and whether `response.json()`
succeeds. -/
structure Response where
  status : Nat
  jsonOk : Bool
  deriving DecidableEq, Repr

/-- The property `response.ok`. -/
def Response.ok (r : Response) : Bool :=
  decide (200 ≤ r.status) && decide (r.status ≤ 299)

/-- How `authenticatedFetch` ends. -/
inductive FetchResult where
  | threw
  | undefined
  | response (r : Response)
  deriving DecidableEq, Repr

/-- The function `authenticatedFetch(url, options)` for a request that gets the given
response, `none` when `fetch` rejects. -/
def authenticatedFetch (response : Option Response) (s : Store) : FetchResult × Store :=
  if missing s.authToken then (FetchResult.threw, s)
  else
    match response with
    | none => (FetchResult.threw, s)
    | some r =>
      if r.status = 401 ∨ r.status = 403 then (FetchResult.undefined, logout s)
      else (FetchResult.response r, s)

/-- A store of the examples: a token and a user record are stored. -/
def Store.sample : Store :=
  { authToken := some "h.exp5.s", userData := some "ann", location := "/static/chat.html" }

/-- A platform of the examples: the time is 1000; the payload `exp5` decodes to a
record with `exp` 5, `exp0` to one with `exp` 0, `exp2000` to one with `exp` 2000,
`noexp` to an empty record, and nothing else decodes. -/
def Platform.sample : Platform :=
  { decodePayload := fun part =>
      if part = "exp5" then some (JVal.obj [("exp", JVal.num 5)])
      else if part = "exp0" then some (JVal.obj [("exp", JVal.num 0)])
      else if part = "exp2000" then some (JVal.obj [("exp", JVal.num 2000)])
      else if part = "noexp" then some (JVal.obj [])
      else none
    now := 1000
    toNumber := fun _ => none }

end Auth

namespace AdminView

open Auth

/-- How a call of the admin page to the REST API ends for the user. -/
inductive CallOutcome where
  | skipped
  | failed
  | succeeded
  deriving DecidableEq, Repr

/-- The part that the bearer calls of the admin page share: the token is read, the
request is sent with it, and a response that is not `ok`, a body that does not decode
or a rejected request end in the `catch` block. -/
def bearerCall (response : Option Response) (s : Store) : CallOutcome × Store :=
  if missing s.authToken then (CallOutcome.failed, s)
  else
    match response with
    | none => (CallOutcome.failed, s)
    | some r =>
      if r.ok && r.jsonOk then (CallOutcome.succeeded, s) else (CallOutcome.failed, s)

/-- The function `unarchiveConversation(userId)`. -/
def unarchiveConversation (response : Option Response) (s : Store) : CallOutcome × Store :=
  bearerCall response s

/-- The function `archiveConversation()`. -/
def archiveConversation (selectedUser : Option String) (isCurrentlyArchived : Bool)
    (response : Option Response) (s : Store) : CallOutcome × Store :=
  if missing selectedUser then (CallOutcome.skipped, s)
  else if isCurrentlyArchived then unarchiveConversation response s
  else bearerCall response s

/-- The function `clearUserCache()`. -/
def clearUserCache (response : Option Response) (s : Store) : CallOutcome × Store :=
  bearerCall response s

/-- The function `showUserInfo(userId)`; it returns at once when the modal is not on the
page. -/
def showUserInfo (hasModal : Bool) (response : Option Response) (s : Store) :
    CallOutcome × Store :=
  if !hasModal then (CallOutcome.skipped, s)
  else
    if missing s.authToken then (CallOutcome.failed, s)
    else
      match response with
      | none => (CallOutcome.failed, s)
      | some r =>
        if !r.ok then (CallOutcome.failed, s)
        else if r.jsonOk then (CallOutcome.succeeded, s) else (CallOutcome.failed, s)

/-- The request for the archived conversations in `updateUsersList`: without a token
no request is sent, and a response that is not `ok` is ignored. -/
def fetchArchivedConversations (response : Option Response) (s : Store) :
    CallOutcome × Store :=
  if missing s.authToken then (CallOutcome.skipped, s)
  else
    match response with
    | none => (CallOutcome.failed, s)
    | some r =>
      if r.ok then
        if r.jsonOk then (CallOutcome.succeeded, s) else (CallOutcome.failed, s)
      else (CallOutcome.skipped, s)

/-- The unread badge of a user in the list: its text and whether it has the class
`hidden`. -/
structure Badge where
  textContent : String
  hidden : Bool
  deriving DecidableEq, Repr

/-- The platform as `updateUserUnreadCount` uses it: `parseInt`, `none` for `NaN`, and
the conversion of a number to the text of an element. -/
structure BadgePlatform where
  parseInt : String → Option Int
  numberText : Int → String

/-- The function `updateUserUnreadCount(userId, increment, reset)` on the badge that
the two queries find, `none` when one of them finds nothing. -/
def updateUserUnreadCount (plat : BadgePlatform) (badge : Option Badge) (increment : Int)
    (reset : Bool) : Option Badge :=
  match badge with
  | none => none
  | some b =>
    let parsed := (plat.parseInt b.textContent).getD 0
    let currentCount := if reset then 0 else parsed + increment
    if currentCount > 0 then
      some { textContent := plat.numberText currentCount, hidden := false }
    else some { b with hidden := true }

/-- The decimal digits at the start of a text, as a number. -/
def leadingDigits : List Char → Option Nat → Option Nat
  | [], acc => acc
  | c :: rest, acc =>
    if c.isDigit then leadingDigits rest (some (acc.getD 0 * 10 + (c.toNat - 48)))
    else acc

/-- A platform of the examples: decimal digits are parsed and printed. -/
def BadgePlatform.sample : BadgePlatform :=
  { parseInt := fun text => (leadingDigits text.toList none).map Int.ofNat
    numberText := fun n => toString n }

end AdminView

/-!
# The notification sink of `static/js/websocket.js`
-/

namespace Notify

/-- The fields of a `NotificationManager` that `show` reads. -/
structure Manager where
  soundEnabled : Bool
  permission : String
  deriving DecidableEq, Repr

/-- The page as `show` finds it: whether the document is hidden, whether the
`Notification` constructor throws, and whether an audio context can be made. -/
structure Page where
  hidden : Bool
  notificationThrows : Bool
  audioAvailable : Bool
  deriving DecidableEq, Repr

/-- What `show` does that the user can perceive. -/
inductive Effect where
  | systemNotification (title : String) (body : Option String)
  | toast (markup : String)
  | sound
  | soundWarning
  deriving DecidableEq, Repr

/-- The markup that `showVisualNotification(title, body)` assigns to `innerHTML`. -/
def toastMarkup (title : String) (body : Option String) : String :=
  "\n            <div class=\"notification-content\">\n                " ++
  "<div class=\"notification-title\">" ++ title ++ "</div>\n                " ++
  (match body with
    | none => ""
    | some text =>
      if text = "" then "" else "<div class=\"notification-body\">" ++ text ++ "</div>") ++
  "\n            </div>\n            " ++
  "<button class=\"notification-close\">&times;</button>\n        "

/-- The method `playNotificationSound()`: the tone, or the warning of the `catch`
block. -/
def playNotificationSound (page : Page) : Effect :=
  if page.audioAvailable then Effect.sound else Effect.soundWarning

/-- The method `show(title, options)` with `options.body = body`: what it did, and
whether it threw. -/
def Manager.show (m : Manager) (page : Page) (title : String) (body : Option String) :
    List Effect × Bool :=
  if m.permission = "granted" ∧ page.hidden = true ∧ page.notificationThrows = true then
    ([], true)
  else
    let system :=
      if m.permission = "granted" ∧ page.hidden = true then
        [Effect.systemNotification title body]
      else []
    let visual := [Effect.toast (toastMarkup title body)]
    let audio := if m.soundEnabled then [playNotificationSound page] else []
    (system ++ visual ++ audio, false)

/-- The text that the serialization of a text node puts for a character. -/
def escapeChar (c : Char) : List Char :=
  if c = '&' then "&amp;".toList
  else if c = '<' then "&lt;".toList
  else if c = '>' then "&gt;".toList
  else if c = Char.ofNat 160 then "&nbsp;".toList
  else [c]

/-- Escaping of a list of characters. -/
def escapeChars : List Char → List Char
  | [] => []
  | c :: rest => escapeChar c ++ escapeChars rest

/-- The function `escapeHtml(text)` of the views: the text is made the content of an
element and the markup of the element is read back. -/
def escapeHtml (text : String) : String :=
  String.mk (escapeChars text.toList)

/-- The bubble of a message as `addMessageToUI` of the chat page builds it. -/
def bubbleMarkup (content : String) : String :=
  "<div class=\"message-bubble\">\n            " ++ escapeHtml content ++ "\n        </div>"

/-- The title and the body that the `userMessage` listener of the admin page passes to
`show`: the name of the sender, or the id when there is no name, and the text. -/
def userMessageNotification (fromName sender message : String) : String × Option String :=
  ("Сообщение от " ++ (if fromName = "" then sender else fromName), some message)

end Notify

/-!
# The time formatter of `static/js/timezone.js`
-/

namespace Timezone

/-- The platform as the formatter uses it: the time value of `new Date(text)`, `none`
for an invalid date; `toISOString()` of a valid date; the time value of the date made
from the Moscow wall clock text of a date; and the two texts that are displayed. -/
structure Platform where
  dateValue : String → Option Int
  toISOString : Int → String
  moscowWallClock : Int → Option Int
  timeText : Option Int → String
  dateText : Option Int → String

/-- The constant `MOSCOW_OFFSET`, in minutes. -/
def MOSCOW_OFFSET : Int := 3 * 60

/-- The function `toMoscowTime(date)` for a date object; the outer `none` when
`toISOString()` throws, which it does for an invalid date. -/
def toMoscowTime (plat : Platform) (date : Option Int) : Option (Option Int) :=
  match date with
  | none => none
  | some t =>
    let iso := plat.toISOString t
    if iso.toList.contains 'T' && (iso.toList.contains '+' || iso.toList.contains 'Z') then
      some (plat.moscowWallClock t)
    else some (some (t + MOSCOW_OFFSET * 60000))

/-- The function `formatChatTime(timestamp)` for a string: the pair of texts, `none`
when it throws. -/
def formatChatTime (plat : Platform) (timestamp : String) : Option (String × String) :=
  let date := plat.dateValue timestamp
  if !timestamp.toList.contains '+' && !timestamp.toList.contains 'Z' then
    match toMoscowTime plat date with
    | none => none
    | some shifted => some (plat.timeText shifted, plat.dateText shifted)
  else some (plat.timeText date, plat.dateText date)

/-- A platform of the examples, a browser whose own zone is UTC: every timestamp is
the instant 0, the Moscow wall clock read as local time is three hours later, and the
texts print the time value. -/
def Platform.sample : Platform :=
  { dateValue := fun _ => some 0
    toISOString := fun _ => "1970-01-01T00:00:00.000Z"
    moscowWallClock := fun t => some (t + 10800000)
    timeText := fun d =>
      match d with
      | none => "Invalid Date"
      | some t => toString t
    dateText := fun d =>
      match d with
      | none => "Invalid Date"
      | some t => toString t }

end Timezone

/-! # Properties -/

namespace ChatWS

/-! ## The listener table -/

theorem getListeners_setListeners (table : List (String × List Nat)) (e e1 : String)
    (arr : List Nat) :
    getListeners (setListeners table e arr) e1 =
      if e = e1 then some arr else getListeners table e1 := by
  induction table with
  | nil =>
    simp [setListeners, getListeners]
  | cons kv rest ih =>
    obtain ⟨k, v⟩ := kv
    by_cases hk : k = e
    · subst hk
      by_cases h1 : k = e1 <;> simp [setListeners, getListeners, h1]
    · by_cases h1 : k = e1
      · subst h1
        have : ¬ e = k := fun h => hk h.symm
        simp [setListeners, getListeners, hk, this]
      · simp [setListeners, getListeners, hk, h1, ih]

/-- Reading a name that has an own property yields its array. -/
theorem readSlot_some (table : List (String × List Nat)) (event : String) (arr : List Nat)
    (h : getListeners table event = some arr) : readSlot table event = Slot.array arr := by
  simp [readSlot, h]

/-- Reading a name without an own property yields `undefined` unless it is inherited. -/
theorem readSlot_none (table : List (String × List Nat)) (event : String)
    (h : getListeners table event = none) (hname : event ∉ inheritedNames) :
    readSlot table event = Slot.undefined := by
  simp [readSlot, h, hname]

/-- Reading an inherited name without an own property yields the inherited member. -/
theorem readSlot_inherited (table : List (String × List Nat)) (event : String)
    (h : getListeners table event = none) (hname : event ∈ inheritedNames) :
    readSlot table event = Slot.inherited := by
  simp [readSlot, h, hname]

/-- The array methods throw exactly for an inherited name without an own property. -/
theorem tableThrows_iff (table : List (String × List Nat)) (event : String) :
    tableThrows table event = true ↔
      event ∈ inheritedNames ∧ getListeners table event = none := by
  cases h : getListeners table event with
  | some arr => simp [tableThrows, readSlot_some table event arr h]
  | none =>
    by_cases hname : event ∈ inheritedNames
    · simp [tableThrows, readSlot_inherited table event h hname, hname]
    · simp [tableThrows, readSlot_none table event h hname, hname]

theorem Client.on_frame (c : Client) (event : String) (callback : Nat) :
    ∃ ls, c.on event callback = { c with eventListeners := ls } := by
  unfold Client.on
  cases readSlot c.eventListeners event with
  | undefined => exact ⟨_, rfl⟩
  | array arr => exact ⟨_, rfl⟩
  | inherited => exact ⟨c.eventListeners, rfl⟩

theorem Client.off_frame (c : Client) (event : String) (callback : Nat) :
    ∃ ls, c.off event callback = { c with eventListeners := ls } := by
  unfold Client.off
  cases readSlot c.eventListeners event with
  | undefined => exact ⟨c.eventListeners, rfl⟩
  | inherited => exact ⟨c.eventListeners, rfl⟩
  | array arr =>
    by_cases h : arr.indexOf callback < arr.length
    · simp only [h, if_true]; exact ⟨_, rfl⟩
    · simp only [h, if_false]; exact ⟨c.eventListeners, rfl⟩

/-- A call of `on` or `off` changes no field but the listener table. -/
theorem runAction_frame (c : Client) (a : CbAction) :
    ∃ ls, runAction c a = { c with eventListeners := ls } := by
  match a with
  | CbAction.on event callback => exact Client.on_frame c event callback
  | CbAction.off event callback => exact Client.off_frame c event callback

theorem runActions_frame (actions : List CbAction) (c : Client) :
    ∃ ls, (runActions c actions).1 = { c with eventListeners := ls } := by
  induction actions generalizing c with
  | nil => exact ⟨c.eventListeners, rfl⟩
  | cons a rest ih =>
    by_cases ht : actionThrows c a = true
    · exact ⟨c.eventListeners, by simp [runActions, ht]⟩
    · obtain ⟨ls1, h1⟩ := runAction_frame c a
      obtain ⟨ls2, h2⟩ := ih (runAction c a)
      refine ⟨ls2, ?_⟩
      simp only [runActions, ht, Bool.false_eq_true, if_false]
      rw [h2, h1]

theorem listenersRan_twice (w : World) (ls1 ls2 : List (String × List Nat))
    (tr1 tr2 : List Obs) :
    (w.listenersRan ls1 tr1).listenersRan ls2 tr2 = w.listenersRan ls2 (tr1 ++ tr2) := by
  simp [World.listenersRan]

/-- Invoking a callback changes the listener table and extends the trace by listener
observations; nothing else. -/
theorem invoke_frame (env : Env) (callback : Nat) (data : JVal) (w : World) :
    ∃ ls tr, (∀ o ∈ tr, Obs.byListener o = true) ∧
      invoke env callback data w = w.listenersRan ls tr := by
  obtain ⟨ls, h⟩ := runActions_frame (env.bodies callback).actions w.client
  by_cases ht : ((runActions w.client (env.bodies callback).actions).2 ||
      (env.bodies callback).throws) = true
  · refine ⟨ls, [Obs.invoked callback data, Obs.listenerError callback], ?_, ?_⟩
    · intro o ho
      simp at ho
      rcases ho with rfl | rfl <;> rfl
    · simp only [invoke, World.log, ht, if_true, h, World.listenersRan, List.append_assoc,
        List.singleton_append]
  · refine ⟨ls, [Obs.invoked callback data], ?_, ?_⟩
    · intro o ho
      simp at ho
      subst ho; rfl
    · simp only [invoke, World.log, ht, Bool.false_eq_true, if_false, h, World.listenersRan]

theorem forEachFrom_frame (env : Env) (event : String) (data : JVal) (n k : Nat) (w : World) :
    ∃ ls tr, (∀ o ∈ tr, Obs.byListener o = true) ∧
      forEachFrom env event data n k w = w.listenersRan ls tr := by
  induction n generalizing k w with
  | zero => exact ⟨w.client.eventListeners, [], by simp, by simp [forEachFrom, World.listenersRan]⟩
  | succ n ih =>
    unfold forEachFrom
    cases (getListeners w.client.eventListeners event).bind (fun arr => arr.get? k) with
    | none => exact ih (k + 1) w
    | some callback =>
      obtain ⟨ls1, tr1, hb1, h1⟩ := invoke_frame env callback data w
      obtain ⟨ls2, tr2, hb2, h2⟩ := ih (k + 1) (invoke env callback data w)
      refine ⟨ls2, tr1 ++ tr2, ?_, ?_⟩
      · intro o ho
        rcases List.mem_append.mp ho with h | h
        · exact hb1 o h
        · exact hb2 o h
      · show forEachFrom env event data n (k + 1) (invoke env callback data w) = _
        rw [h2, h1, listenersRan_twice]

/-- An emission changes the listener table and extends the trace by its own record
followed by listener observations; nothing else. -/
theorem emit_frame (env : Env) (event : String) (data : JVal) (w : World) :
    ∃ ls tr, (∀ o ∈ tr, Obs.byListener o = true) ∧
      emit env event data w = w.listenersRan ls (Obs.emitted event data :: tr) := by
  have hlog : w.log (Obs.emitted event data) =
      w.listenersRan w.client.eventListeners [Obs.emitted event data] := rfl
  cases hg : readSlot w.client.eventListeners event with
  | undefined =>
    have he : emit env event data w = w.log (Obs.emitted event data) := by
      simp [emit, World.log, hg]
    exact ⟨w.client.eventListeners, [], by simp, by rw [he, hlog]⟩
  | inherited =>
    have he : emit env event data w = w.log (Obs.emitted event data) := by
      simp [emit, World.log, hg]
    exact ⟨w.client.eventListeners, [], by simp, by rw [he, hlog]⟩
  | array arr =>
    have he : emit env event data w =
        forEachFrom env event data arr.length 0 (w.log (Obs.emitted event data)) := by
      simp [emit, World.log, hg]
    obtain ⟨ls, tr, hb, h⟩ := forEachFrom_frame env event data arr.length 0
      (w.log (Obs.emitted event data))
    refine ⟨ls, tr, hb, ?_⟩
    rw [he, h, hlog, listenersRan_twice, List.singleton_append]

/-! ## Reading a trace that listeners extended -/

theorem emissions_append (a b : List Obs) : emissions (a ++ b) = emissions a ++ emissions b := by
  simp [emissions]

theorem handedToSend_append (a b : List Obs) :
    handedToSend (a ++ b) = handedToSend a ++ handedToSend b := by
  simp [handedToSend]

theorem timersSet_append (a b : List Obs) : timersSet (a ++ b) = timersSet a ++ timersSet b := by
  simp [timersSet]

theorem handlesOpened_append (a b : List Obs) :
    handlesOpened (a ++ b) = handlesOpened a ++ handlesOpened b := by
  simp [handlesOpened]

theorem closeCalls_append (a b : List Obs) : closeCalls (a ++ b) = closeCalls a ++ closeCalls b := by
  simp [closeCalls]

theorem invocations_append (a b : List Obs) :
    invocations (a ++ b) = invocations a ++ invocations b := by
  simp [invocations]

theorem byListener_readers (tr : List Obs) (h : ∀ o ∈ tr, Obs.byListener o = true) :
    emissions tr = [] ∧ handedToSend tr = [] ∧ timersSet tr = [] ∧ handlesOpened tr = [] ∧
      closeCalls tr = [] := by
  induction tr with
  | nil => simp [emissions, handedToSend, timersSet, handlesOpened, closeCalls]
  | cons o rest ih =>
    have ho := h o (List.mem_cons_self o rest)
    have hr := ih (fun x hx => h x (List.mem_cons_of_mem o hx))
    simp only [emissions, handedToSend, timersSet, handlesOpened, closeCalls] at hr ⊢
    cases o <;> simp_all [Obs.byListener, Obs.emission, Obs.handed, Obs.timer, Obs.opened,
      Obs.closing]

/-- What an emission adds to each reading of the trace. -/
theorem emit_trace (env : Env) (event : String) (data : JVal) (w : World) :
    emissions (emit env event data w).trace = emissions w.trace ++ [(event, data)] ∧
    handedToSend (emit env event data w).trace = handedToSend w.trace ∧
    timersSet (emit env event data w).trace = timersSet w.trace ∧
    handlesOpened (emit env event data w).trace = handlesOpened w.trace ∧
    closeCalls (emit env event data w).trace = closeCalls w.trace := by
  obtain ⟨ls, tr, hb, he⟩ := emit_frame env event data w
  obtain ⟨h1, h2, h3, h4, h5⟩ := byListener_readers tr hb
  have ht : (emit env event data w).trace = w.trace ++ ([Obs.emitted event data] ++ tr) := by
    rw [he]; rfl
  rw [ht]
  simp only [emissions_append, handedToSend_append, timersSet_append, handlesOpened_append,
    closeCalls_append, h1, h2, h3, h4, h5]
  simp [emissions, handedToSend, timersSet, handlesOpened, closeCalls, Obs.emission, Obs.handed,
    Obs.timer, Obs.opened, Obs.closing]

/-- What an emission leaves alone. -/
theorem emit_fields (env : Env) (event : String) (data : JVal) (w : World) :
    (emit env event data w).client.ws = w.client.ws ∧
    (emit env event data w).client.isConnected = w.client.isConnected ∧
    (emit env event data w).client.reconnectAttempts = w.client.reconnectAttempts ∧
    (emit env event data w).client.maxReconnectAttempts = w.client.maxReconnectAttempts ∧
    (emit env event data w).client.reconnectDelay = w.client.reconnectDelay ∧
    (emit env event data w).client.maxReconnectDelay = w.client.maxReconnectDelay ∧
    (emit env event data w).client.heartbeatInterval = w.client.heartbeatInterval ∧
    (emit env event data w).client.messageQueue = w.client.messageQueue ∧
    (emit env event data w).handles = w.handles ∧
    (emit env event data w).timeouts = w.timeouts ∧
    (emit env event data w).intervals = w.intervals ∧
    (emit env event data w).nextInterval = w.nextInterval := by
  obtain ⟨ls, tr, _, he⟩ := emit_frame env event data w
  rw [he]
  simp [World.listenersRan]

/-! ## Backoff -/

/-- C1: when `scheduleReconnect` runs with `reconnectAttempts = k - 1`, for any `k ≥ 1`,
with the base delay 1000 and the cap 30000 of the constructor, the counter becomes `k`
and the one timer it sets has the delay `min (1000 * 2^(k-1)) 30000`, which is 1000,
2000, 4000, 8000, 16000 for `k = 1..5` and 30000 for `k = 6`. -/
theorem scheduleReconnect_backoff (w : World) (k : Nat) (hk : 1 ≤ k)
    (hattempts : w.client.reconnectAttempts = k - 1)
    (hbase : w.client.reconnectDelay = 1000)
    (hcap : w.client.maxReconnectDelay = 30000) :
    (scheduleReconnect w).client.reconnectAttempts = k ∧
    (scheduleReconnect w).timeouts = w.timeouts ++ [min (1000 * 2 ^ (k - 1)) 30000] ∧
    timersSet (scheduleReconnect w).trace =
      timersSet w.trace ++ [min (1000 * 2 ^ (k - 1)) 30000] ∧
    (k ≤ 6 → min (1000 * 2 ^ (k - 1)) 30000 =
      [1000, 2000, 4000, 8000, 16000, 30000].getD (k - 1) 0) := by
  have hk1 : k - 1 + 1 = k := Nat.sub_add_cancel hk
  refine ⟨?_, ?_, ?_, ?_⟩
  · simp [scheduleReconnect, hattempts, hk1]
  · simp [scheduleReconnect, backoffDelay, hattempts, hbase, hcap]
  · simp [scheduleReconnect, backoffDelay, hattempts, hbase, hcap, timersSet_append, timersSet,
      Obs.timer]
  · intro h6
    have : k = 1 ∨ k = 2 ∨ k = 3 ∨ k = 4 ∨ k = 5 ∨ k = 6 := by omega
    rcases this with rfl | rfl | rfl | rfl | rfl | rfl <;> decide

/-- The sixth attempt, in the world left by five scheduled reconnects: the delay is
capped at 30000. -/
theorem scheduleReconnect_backoff_witness :
    (scheduleReconnect
        { World.new with client := { Client.new with reconnectAttempts := 5 } }).timeouts
      = [30000] :=
  (scheduleReconnect_backoff
    { World.new with client := { Client.new with reconnectAttempts := 5 } } 6
    (by decide) rfl rfl rfl).2.1

/-! ## Close and disconnect -/

theorem clearHeartbeat_fields (w : World) :
    (clearHeartbeat w).client.heartbeatInterval = none ∧
    (clearHeartbeat w).client.ws = w.client.ws ∧
    (clearHeartbeat w).client.isConnected = w.client.isConnected ∧
    (clearHeartbeat w).client.reconnectAttempts = w.client.reconnectAttempts ∧
    (clearHeartbeat w).client.maxReconnectAttempts = w.client.maxReconnectAttempts ∧
    (clearHeartbeat w).client.reconnectDelay = w.client.reconnectDelay ∧
    (clearHeartbeat w).client.maxReconnectDelay = w.client.maxReconnectDelay ∧
    (clearHeartbeat w).client.messageQueue = w.client.messageQueue ∧
    (clearHeartbeat w).client.eventListeners = w.client.eventListeners ∧
    (clearHeartbeat w).handles = w.handles ∧
    (clearHeartbeat w).timeouts = w.timeouts ∧
    (clearHeartbeat w).nextInterval = w.nextInterval ∧
    (clearHeartbeat w).intervals =
      (match w.client.heartbeatInterval with
        | none => w.intervals
        | some id => w.intervals.filter (fun i => i != id)) := by
  unfold clearHeartbeat
  cases h : w.client.heartbeatInterval <;> simp [h]

theorem clearHeartbeat_trace (w : World) :
    emissions (clearHeartbeat w).trace = emissions w.trace ∧
    handedToSend (clearHeartbeat w).trace = handedToSend w.trace ∧
    timersSet (clearHeartbeat w).trace = timersSet w.trace ∧
    handlesOpened (clearHeartbeat w).trace = handlesOpened w.trace ∧
    closeCalls (clearHeartbeat w).trace = closeCalls w.trace := by
  unfold clearHeartbeat
  cases h : w.client.heartbeatInterval <;>
    simp [h, emissions, handedToSend, timersSet, handlesOpened, closeCalls, Obs.emission,
      Obs.handed, Obs.timer, Obs.opened, Obs.closing]

/-- C6: whatever the value of `reconnectAttempts`, `onClose` with code 1000 sets no
reconnect timer and leaves the counter unchanged; it marks the client disconnected,
clears the heartbeat interval, emits `disconnected` with the code and the reason, and
leaves the handle, the queue, the handles and the transport untouched. -/
theorem onClose_normal (env : Env) (reason : String) (w : World) :
    (onClose env 1000 reason w).timeouts = w.timeouts ∧
    timersSet (onClose env 1000 reason w).trace = timersSet w.trace ∧
    (onClose env 1000 reason w).client.reconnectAttempts = w.client.reconnectAttempts ∧
    (onClose env 1000 reason w).client.isConnected = false ∧
    (onClose env 1000 reason w).client.heartbeatInterval = none ∧
    (onClose env 1000 reason w).intervals =
      (match w.client.heartbeatInterval with
        | none => w.intervals
        | some id => w.intervals.filter (fun i => i != id)) ∧
    emissions (onClose env 1000 reason w).trace =
      emissions w.trace ++
        [("disconnected", JVal.obj [("code", JVal.num 1000), ("reason", JVal.str reason)])] ∧
    (onClose env 1000 reason w).client.ws = w.client.ws ∧
    (onClose env 1000 reason w).client.messageQueue = w.client.messageQueue ∧
    (onClose env 1000 reason w).handles = w.handles ∧
    handedToSend (onClose env 1000 reason w).trace = handedToSend w.trace ∧
    handlesOpened (onClose env 1000 reason w).trace = handlesOpened w.trace ∧
    closeCalls (onClose env 1000 reason w).trace = closeCalls w.trace := by
  have hf := emit_fields env "disconnected"
    (JVal.obj [("code", JVal.num (1000 : Nat)), ("reason", JVal.str reason)])
    (clearHeartbeat { w with client := { w.client with isConnected := false } })
  have ht := emit_trace env "disconnected"
    (JVal.obj [("code", JVal.num (1000 : Nat)), ("reason", JVal.str reason)])
    (clearHeartbeat { w with client := { w.client with isConnected := false } })
  have hc := clearHeartbeat_fields { w with client := { w.client with isConnected := false } }
  have hct := clearHeartbeat_trace { w with client := { w.client with isConnected := false } }
  simp only [onClose, ne_eq, not_true_eq_false, false_and, if_false]
  simp only [hf, ht, hc, hct]
  simp

/-- After `onClose` with the counter at its maximum no timer has been set, whatever
the code. -/
theorem onClose_exhausted (env : Env) (code : Nat) (reason : String) (w : World)
    (h : w.client.maxReconnectAttempts ≤ w.client.reconnectAttempts) :
    (onClose env code reason w).timeouts = w.timeouts ∧
    timersSet (onClose env code reason w).trace = timersSet w.trace ∧
    handlesOpened (onClose env code reason w).trace = handlesOpened w.trace := by
  have hf := emit_fields env "disconnected"
    (JVal.obj [("code", JVal.num code), ("reason", JVal.str reason)])
    (clearHeartbeat { w with client := { w.client with isConnected := false } })
  have ht := emit_trace env "disconnected"
    (JVal.obj [("code", JVal.num code), ("reason", JVal.str reason)])
    (clearHeartbeat { w with client := { w.client with isConnected := false } })
  have hc := clearHeartbeat_fields { w with client := { w.client with isConnected := false } }
  have hct := clearHeartbeat_trace { w with client := { w.client with isConnected := false } }
  have hlt : ¬ (code ≠ 1000 ∧
      (emit env "disconnected" (JVal.obj [("code", JVal.num code), ("reason", JVal.str reason)])
        (clearHeartbeat { w with client := { w.client with isConnected := false } })
        ).client.reconnectAttempts <
      (emit env "disconnected" (JVal.obj [("code", JVal.num code), ("reason", JVal.str reason)])
        (clearHeartbeat { w with client := { w.client with isConnected := false } })
        ).client.maxReconnectAttempts) := by
    simp only [hf, hc]
    intro hcon
    exact absurd hcon.2 (Nat.not_lt.mpr h)
  simp only [onClose, hlt, if_false]
  simp only [hf, ht, hc, hct]
  simp

/-- C7: after `disconnect()` the client is marked disconnected; the handle it held, if
any, has received `close(1000, 'User disconnect')` and the field is cleared; the
heartbeat interval is cleared; `disconnected` has been emitted; the counter equals
`maxReconnectAttempts`; and a close event that follows, with any code and reason and
whatever the ready states of the handles, sets no reconnect timer. -/
theorem disconnect_terminal (env : Env) (w : World) (code : Nat) (reason : String)
    (hs : List ReadyState) :
    (disconnect env w).client.isConnected = false ∧
    (disconnect env w).client.ws = none ∧
    (disconnect env w).handles =
      (match w.client.ws with
        | none => w.handles
        | some h => closeHandle w.handles h) ∧
    closeCalls (disconnect env w).trace =
      closeCalls w.trace ++
        (match w.client.ws with
          | none => []
          | some h => [(h, 1000, "User disconnect")]) ∧
    (disconnect env w).client.heartbeatInterval = none ∧
    (disconnect env w).intervals =
      (match w.client.heartbeatInterval with
        | none => w.intervals
        | some id => w.intervals.filter (fun i => i != id)) ∧
    emissions (disconnect env w).trace = emissions w.trace ++ [("disconnected", JVal.undefined)] ∧
    (disconnect env w).client.reconnectAttempts = w.client.maxReconnectAttempts ∧
    (disconnect env w).client.maxReconnectAttempts = w.client.maxReconnectAttempts ∧
    (onClose env code reason { disconnect env w with handles := hs }).timeouts =
      (disconnect env w).timeouts ∧
    timersSet (onClose env code reason { disconnect env w with handles := hs }).trace =
      timersSet (disconnect env w).trace := by
  have key : (disconnect env w).client.isConnected = false ∧
      (disconnect env w).client.ws = none ∧
      (disconnect env w).handles =
        (match w.client.ws with
          | none => w.handles
          | some h => closeHandle w.handles h) ∧
      closeCalls (disconnect env w).trace =
        closeCalls w.trace ++
          (match w.client.ws with
            | none => []
            | some h => [(h, 1000, "User disconnect")]) ∧
      (disconnect env w).client.heartbeatInterval = none ∧
      (disconnect env w).intervals =
        (match w.client.heartbeatInterval with
          | none => w.intervals
          | some id => w.intervals.filter (fun i => i != id)) ∧
      emissions (disconnect env w).trace =
        emissions w.trace ++ [("disconnected", JVal.undefined)] ∧
      (disconnect env w).client.reconnectAttempts = w.client.maxReconnectAttempts ∧
      (disconnect env w).client.maxReconnectAttempts = w.client.maxReconnectAttempts := by
    unfold disconnect
    cases hws : w.client.ws with
    | none =>
      simp [emit_fields, emit_trace, clearHeartbeat_fields, clearHeartbeat_trace, hws]
    | some h =>
      simp only [emit_fields, emit_trace, clearHeartbeat_fields, clearHeartbeat_trace, hws,
        closeCalls_append, emissions_append]
      simp [closeCalls, emissions, Obs.closing, Obs.emission]
  obtain ⟨k1, k2, k3, k4, k5, k6, k7, k8, k9⟩ := key
  refine ⟨k1, k2, k3, k4, k5, k6, k7, k8, k9, ?_⟩
  have hex := onClose_exhausted env code reason { disconnect env w with handles := hs }
    (by simp [k8, k9])
  exact ⟨hex.1, hex.2.1⟩

/-! ## Sending -/

/-- The branch of `sendMessage` taken when the guard on the connection fails. -/
theorem sendMessage_queues (env : Env) (message : JVal) (w : World)
    (hcond : (!w.client.isConnected || !w.wsOpen) = true) :
    (sendMessage env message w).1 = false ∧
    handedToSend (sendMessage env message w).2.trace = handedToSend w.trace ∧
    emissions (sendMessage env message w).2.trace =
      emissions w.trace ++ [("error", errorData "Not connected to chat server")] ∧
    (sendMessage env message w).2.client.messageQueue = w.client.messageQueue ++ [message] ∧
    (sendMessage env message w).2.client.isConnected = w.client.isConnected ∧
    (sendMessage env message w).2.client.ws = w.client.ws ∧
    (sendMessage env message w).2.handles = w.handles := by
  simp only [sendMessage, hcond, if_true]
  simp [emit_fields, emit_trace]

/-- C10: if `isConnected` is false, or there is no handle, or the handle is not in the
state OPEN, then `sendMessage` returns false, hands nothing to the transport, emits one
`error` event, and appends exactly the message to the end of the queue. -/
theorem sendMessage_not_connected (env : Env) (message : JVal) (w : World)
    (h : w.client.isConnected = false ∨ w.client.ws = none ∨
      w.wsState ≠ some ReadyState.OPEN) :
    (sendMessage env message w).1 = false ∧
    handedToSend (sendMessage env message w).2.trace = handedToSend w.trace ∧
    emissions (sendMessage env message w).2.trace =
      emissions w.trace ++ [("error", errorData "Not connected to chat server")] ∧
    (sendMessage env message w).2.client.messageQueue = w.client.messageQueue ++ [message] ∧
    (sendMessage env message w).2.client.isConnected = w.client.isConnected ∧
    (sendMessage env message w).2.client.ws = w.client.ws ∧
    (sendMessage env message w).2.handles = w.handles := by
  have hcond : (!w.client.isConnected || !w.wsOpen) = true := by
    rcases h with h | h | h
    · simp [h]
    · simp [World.wsOpen, World.wsState, h]
    · simp only [World.wsOpen, Bool.or_eq_true, Bool.not_eq_true']
      right
      simpa using h
  exact sendMessage_queues env message w hcond

/-- A send while the handle is still connecting: the message is queued. -/
theorem sendMessage_not_connected_witness :
    (sendMessage Env.sample (JVal.str "hi") (connect Env.sample World.new).2).1 = false ∧
    (sendMessage Env.sample (JVal.str "hi")
      (connect Env.sample World.new).2).2.client.messageQueue = [JVal.str "hi"] :=
  have h := sendMessage_not_connected Env.sample (JVal.str "hi") (connect Env.sample World.new).2
    (Or.inr (Or.inr (by decide)))
  ⟨h.1, h.2.2.2.1⟩

/-! ## Reconnection -/

/-- C2: evaluation at the failing input.  From an open connection, five closes with
code 1006, each reconnect timer coming due in between: `reconnectFailed` has not been
emitted, the fifth close has set a fifth timer (16000 ms) which is pending; when that
timer comes due it emits `reconnecting` and constructs a sixth handle, and the close
of that handle sets no timer and still emits no `reconnectFailed`. -/
theorem reconnectFailed_not_emitted_after_five_closes :
    (run Env.sample 0 fiveAbnormalCloses World.new).map
        (fun w => ((emittedNames w.trace).count "reconnectFailed", w.timeouts,
          timersSet w.trace, w.client.reconnectAttempts, w.client.maxReconnectAttempts)) =
      some (0, [16000], [1000, 2000, 4000, 8000, 16000], 5, 5) ∧
    (run Env.sample 0 (fiveAbnormalCloses ++ [Event.timeoutFired 0, Event.wsClosed 5 1006 ""])
        World.new).map
        (fun w => ((emittedNames w.trace).count "reconnectFailed",
          (emittedNames w.trace).count "reconnecting", w.timeouts, timersSet w.trace,
          handlesOpened w.trace)) =
      some (0, 5, [], [1000, 2000, 4000, 8000, 16000], [0, 1, 2, 3, 4, 5]) := by
  decide

/-- C3: evaluation at the failing input.  An abnormal close sets a reconnect timer and
the page calls `disconnect()`: the timer is still pending and the counter is 5.  When
the timer comes due the client emits `reconnecting` and `connect()` constructs a new
transport handle, which the client holds in the state CONNECTING. -/
theorem disconnect_leaves_reconnect_timer :
    (run Env.sample 0 (disconnectWhileTimerPending.take 4) World.new).map
        (fun w => (w.timeouts, w.client.ws, w.client.reconnectAttempts, w.handles)) =
      some ([1000], none, 5, [ReadyState.CLOSED]) ∧
    (run Env.sample 0 (disconnectWhileTimerPending.take 4) World.new).map
        (fun w => (emittedNames w.trace, handlesOpened w.trace)) =
      some (["connected", "disconnected", "disconnected"], [0]) ∧
    (run Env.sample 0 disconnectWhileTimerPending World.new).map
        (fun w => (w.timeouts, w.client.ws, w.client.reconnectAttempts, w.handles)) =
      some ([], some 1, 5, [ReadyState.CLOSED, ReadyState.CONNECTING]) ∧
    (run Env.sample 0 disconnectWhileTimerPending World.new).map
        (fun w => (emittedNames w.trace, handlesOpened w.trace)) =
      some (["connected", "disconnected", "disconnected", "reconnecting"], [0, 1]) := by
  decide

/-! ## Connecting -/

/-- C4, as stated, fails for a handle that is still connecting: `connect()` on the
world left by a first `connect()` returns true and constructs a second handle, so that
two handles are connecting at once. -/
theorem connect_while_connecting_constructs_second_handle :
    (connect Env.sample World.new).2.wsState = some ReadyState.CONNECTING ∧
    (connect Env.sample World.new).2.handles = [ReadyState.CONNECTING] ∧
    (connect Env.sample (connect Env.sample World.new).2).1 = true ∧
    (connect Env.sample (connect Env.sample World.new).2).2.handles =
      [ReadyState.CONNECTING, ReadyState.CONNECTING] ∧
    handlesOpened (connect Env.sample (connect Env.sample World.new).2).2.trace = [0, 1] ∧
    liveHandles (connect Env.sample (connect Env.sample World.new).2).2.handles = 2 := by
  decide

/-- C4, amended: in every state in which the client holds a handle in the state OPEN,
`connect()` returns true and changes nothing; no handle is constructed. -/
theorem connect_when_open (env : Env) (w : World) (h : w.wsState = some ReadyState.OPEN) :
    connect env w = (true, w) := by
  have ho : w.wsOpen = true := by simp [World.wsOpen, h]
  simp [connect, ho]

/-- A second `connect()` on an open connection. -/
theorem connect_when_open_witness :
    World.sampleOpen.wsState = some ReadyState.OPEN ∧
    connect Env.sample World.sampleOpen = (true, World.sampleOpen) :=
  ⟨by decide, connect_when_open Env.sample World.sampleOpen (by decide)⟩

/-! ## Emission with listeners that subscribe and unsubscribe -/

/-- A call that is not `off` for `event` keeps the array of `event` as a front part of
the array it leaves. -/
theorem runAction_keeps (c : Client) (a : CbAction) (event : String) (arr : List Nat)
    (hreg : getListeners c.eventListeners event = some arr)
    (hno : ∀ cb1, a ≠ CbAction.off event cb1) :
    ∃ added, getListeners (runAction c a).eventListeners event = some (arr ++ added) := by
  match a with
  | CbAction.on e cb =>
    by_cases he : e = event
    · subst he
      refine ⟨[cb], ?_⟩
      simp [runAction, Client.on, readSlot_some _ _ _ hreg, getListeners_setListeners]
    · refine ⟨[], ?_⟩
      cases hs : readSlot c.eventListeners e <;>
        simp [runAction, Client.on, hs, getListeners_setListeners, he, hreg]
  | CbAction.off e cb =>
    have he : e ≠ event := by
      intro h
      exact hno cb (by rw [h])
    refine ⟨[], ?_⟩
    cases hs : readSlot c.eventListeners e with
    | undefined => simp [runAction, Client.off, hs, hreg]
    | inherited => simp [runAction, Client.off, hs, hreg]
    | array arr1 =>
      by_cases hi : arr1.indexOf cb < arr1.length
      · simp [runAction, Client.off, hs, hi, getListeners_setListeners, he, hreg]
      · simp [runAction, Client.off, hs, hi, hreg]

theorem runActions_keeps (actions : List CbAction) (c : Client) (event : String)
    (arr : List Nat) (hreg : getListeners c.eventListeners event = some arr)
    (hno : ∀ a ∈ actions, ∀ cb1, a ≠ CbAction.off event cb1) :
    ∃ added, getListeners (runActions c actions).1.eventListeners event =
      some (arr ++ added) := by
  induction actions generalizing c arr with
  | nil => exact ⟨[], by simpa [runActions] using hreg⟩
  | cons a rest ih =>
    by_cases ht : actionThrows c a = true
    · exact ⟨[], by simpa [runActions, ht] using hreg⟩
    · obtain ⟨added1, h1⟩ := runAction_keeps c a event arr hreg
        (hno a (List.mem_cons_self a rest))
      obtain ⟨added2, h2⟩ := ih (runAction c a) (arr ++ added1) h1
        (fun x hx => hno x (List.mem_cons_of_mem a hx))
      refine ⟨added1 ++ added2, ?_⟩
      simp only [runActions, ht, Bool.false_eq_true, if_false]
      simpa [List.append_assoc] using h2

theorem invoke_client (env : Env) (callback : Nat) (data : JVal) (w : World) :
    (invoke env callback data w).client =
      (runActions w.client (env.bodies callback).actions).1 := by
  by_cases ht : ((runActions w.client (env.bodies callback).actions).2 ||
      (env.bodies callback).throws) = true
  · simp only [invoke, World.log, ht, if_true]
  · simp only [invoke, World.log, ht, Bool.false_eq_true, if_false]

/-- Invoking a callback records one invocation, whether or not the callback throws. -/
theorem invoke_invocations (env : Env) (callback : Nat) (data : JVal) (w : World) :
    invocations (invoke env callback data w).trace = invocations w.trace ++ [(callback, data)] := by
  by_cases ht : ((runActions w.client (env.bodies callback).actions).2 ||
      (env.bodies callback).throws) = true
  · simp only [invoke, World.log, ht, if_true]
    simp [invocations, Obs.invocation]
  · simp only [invoke, World.log, ht, Bool.false_eq_true, if_false]
    simp [invocations, Obs.invocation]

/-- The loop of `emit` when the listeners still to be called do not unsubscribe anything
from the event: with `done` already called, `todo` to be called and `extra` subscribed
since the start, it calls exactly `todo`, in order, and leaves an array that starts
with the one it found. -/
theorem forEachFrom_keeps (env : Env) (event : String) (data : JVal)
    (todo done extra : List Nat) (w : World)
    (hreg : getListeners w.client.eventListeners event = some (done ++ todo ++ extra))
    (hno : ∀ cb ∈ todo, ∀ a ∈ (env.bodies cb).actions, ∀ cb1, a ≠ CbAction.off event cb1) :
    invocations (forEachFrom env event data todo.length done.length w).trace =
      invocations w.trace ++ todo.map (fun cb => (cb, data)) ∧
    ∃ added,
      getListeners (forEachFrom env event data todo.length done.length w).client.eventListeners
        event = some (done ++ todo ++ extra ++ added) := by
  induction todo generalizing done extra w with
  | nil =>
    refine ⟨by simp [forEachFrom], [], ?_⟩
    simpa [forEachFrom] using hreg
  | cons cb rest ih =>
    have hget : (getListeners w.client.eventListeners event).bind
        (fun arr => arr.get? done.length) = some cb := by
      rw [hreg]
      simp only [Option.some_bind, List.append_assoc, List.get?_eq_getElem?]
      rw [List.getElem?_append_right (Nat.le_refl _)]
      simp
    have hstep : forEachFrom env event data (cb :: rest).length done.length w =
        forEachFrom env event data rest.length (done ++ [cb]).length
          (invoke env cb data w) := by
      simp only [List.length_cons, forEachFrom, hget, List.length_append, List.length_nil,
        Nat.zero_add]
    obtain ⟨added1, h1⟩ := runActions_keeps (env.bodies cb).actions w.client event
      (done ++ (cb :: rest) ++ extra) hreg (hno cb (List.mem_cons_self cb rest))
    have hreg1 : getListeners (invoke env cb data w).client.eventListeners event =
        some ((done ++ [cb]) ++ rest ++ (extra ++ added1)) := by
      rw [invoke_client, h1]
      simp [List.append_assoc]
    obtain ⟨htr, added2, h2⟩ := ih (done ++ [cb]) (extra ++ added1) (invoke env cb data w) hreg1
      (fun x hx => hno x (List.mem_cons_of_mem cb hx))
    rw [hstep]
    refine ⟨?_, added1 ++ added2, ?_⟩
    · rw [htr, invoke_invocations, List.append_assoc]
      rfl
    · rw [h2]
      simp [List.append_assoc]

theorem removesFrom_false (a : CbAction) (event : String)
    (h : a.removesFrom event = false) : ∀ cb1, a ≠ CbAction.off event cb1 := by
  intro cb1 heq
  subst heq
  simp [CbAction.removesFrom] at h

/-- The listeners of an emission when none of them unsubscribes from the event: the
invocations grow by the calls of the listeners registered at the start, in order; the
array of the event keeps them at its front. -/
theorem emit_keeps (env : Env) (event : String) (data : JVal) (w : World) (arr : List Nat)
    (hreg : getListeners w.client.eventListeners event = some arr)
    (hno : ∀ cb ∈ arr, ∀ a ∈ (env.bodies cb).actions, a.removesFrom event = false) :
    invocations (emit env event data w).trace =
      invocations w.trace ++ arr.map (fun cb => (cb, data)) ∧
    ∃ added, getListeners (emit env event data w).client.eventListeners event =
      some (arr ++ added) := by
  have he : emit env event data w =
      forEachFrom env event data arr.length ([] : List Nat).length
        (w.log (Obs.emitted event data)) := by
    simp [emit, World.log, readSlot_some _ _ _ hreg]
  have hreg1 : getListeners (w.log (Obs.emitted event data)).client.eventListeners event =
      some ([] ++ arr ++ []) := by
    simpa [World.log] using hreg
  obtain ⟨htr, added, hls⟩ := forEachFrom_keeps env event data arr [] [] _ hreg1
    (fun cb hcb a ha => removesFrom_false a event (hno cb hcb a ha))
  rw [he]
  refine ⟨?_, added, ?_⟩
  · rw [htr]
    simp [World.log, invocations, Obs.invocation]
  · rw [hls]
    simp

/-- C8, as stated, fails when a listener unsubscribes.  With `[1, 2]` registered for
`x` and callback 1 unsubscribing itself, `emit` calls 1 and skips 2.  With `[2, 6, 7]`
registered and callback 6 unsubscribing 2 and subscribing itself again, `emit` calls 6
twice and skips 7. -/
theorem emit_skips_and_repeats_after_removal :
    getListeners ((Client.new.on "x" 1).on "x" 2).eventListeners "x" = some [1, 2] ∧
    (invocations (emit Env.sample "x" JVal.null
      { World.new with client := (Client.new.on "x" 1).on "x" 2 }).trace).map Prod.fst = [1] ∧
    getListeners (((Client.new.on "x" 2).on "x" 6).on "x" 7).eventListeners "x" =
      some [2, 6, 7] ∧
    (invocations (emit Env.sample "x" JVal.null
      { World.new with client := ((Client.new.on "x" 2).on "x" 6).on "x" 7 }).trace).map
        Prod.fst = [2, 6, 6] := by
  decide

/-- C8, amended: if no listener registered for the event when `emit` starts unsubscribes
a callback from that event while it runs (subscribing is allowed, as is any call for
other events), then every listener registered at the start is invoked exactly once, in
registration order, and the callbacks subscribed during the emission stay in the array
behind them without being invoked by this emission. -/
theorem emit_with_subscribing_listeners (env : Env) (event : String) (data : JVal) (w : World)
    (arr : List Nat) (hreg : getListeners w.client.eventListeners event = some arr)
    (hno : ∀ cb ∈ arr, ∀ a ∈ (env.bodies cb).actions, a.removesFrom event = false) :
    invocations (emit env event data w).trace =
      invocations w.trace ++ arr.map (fun cb => (cb, data)) ∧
    ∃ added, getListeners (emit env event data w).client.eventListeners event =
      some (arr ++ added) := by
  exact emit_keeps env event data w arr hreg hno

/-- Callback 3 subscribes callback 4 to `x` while `x` is emitted to `[3, 5]`: 3 and 5
are invoked once each, 4 is not. -/
theorem emit_with_subscribing_listeners_witness :
    getListeners ((Client.new.on "x" 3).on "x" 5).eventListeners "x" = some [3, 5] ∧
    invocations (emit Env.sample "x" JVal.null
      { World.new with client := (Client.new.on "x" 3).on "x" 5 }).trace =
        [(3, JVal.null), (5, JVal.null)] :=
  ⟨by decide,
    (emit_with_subscribing_listeners Env.sample "x" JVal.null
      { World.new with client := (Client.new.on "x" 3).on "x" 5 } [3, 5]
      (by decide) (by decide)).1⟩

/-- Whether listeners throw at their end has no effect on the loop of `emit`: two
environments whose callbacks make the same calls lead to the same client and the same
invocations. -/
theorem forEachFrom_throw_irrelevant (env env1 : Env) (event : String) (data : JVal)
    (hsame : ∀ cb, (env1.bodies cb).actions = (env.bodies cb).actions)
    (n k : Nat) (w w1 : World) (hc : w1.client = w.client)
    (hi : invocations w1.trace = invocations w.trace) :
    (forEachFrom env1 event data n k w1).client = (forEachFrom env event data n k w).client ∧
    invocations (forEachFrom env1 event data n k w1).trace =
      invocations (forEachFrom env event data n k w).trace := by
  induction n generalizing k w w1 with
  | zero => exact ⟨by simpa [forEachFrom] using hc, by simpa [forEachFrom] using hi⟩
  | succ n ih =>
    unfold forEachFrom
    rw [hc]
    cases (getListeners w.client.eventListeners event).bind (fun arr => arr.get? k) with
    | none => exact ih (k + 1) w w1 hc hi
    | some callback =>
      apply ih (k + 1) (invoke env callback data w) (invoke env1 callback data w1)
      · rw [invoke_client, invoke_client, hsame, hc]
      · rw [invoke_invocations, invoke_invocations, hi]

/-- Whether listeners throw at their end changes neither the client that an emission
leaves nor the invocations it makes. -/
theorem emit_throw_irrelevant (env env1 : Env) (event : String) (data : JVal) (w : World)
    (hsame : ∀ cb, (env1.bodies cb).actions = (env.bodies cb).actions) :
    (emit env1 event data w).client = (emit env event data w).client ∧
    invocations (emit env1 event data w).trace = invocations (emit env event data w).trace := by
  cases hs : readSlot w.client.eventListeners event with
  | undefined => simp [emit, World.log, hs]
  | inherited => simp [emit, World.log, hs]
  | array arr =>
    have h1 : emit env1 event data w =
        forEachFrom env1 event data arr.length 0 (w.log (Obs.emitted event data)) := by
      simp [emit, World.log, hs]
    have h2 : emit env event data w =
        forEachFrom env event data arr.length 0 (w.log (Obs.emitted event data)) := by
      simp [emit, World.log, hs]
    rw [h1, h2]
    exact forEachFrom_throw_irrelevant env env1 event data hsame arr.length 0 _ _ rfl rfl

/-- C9, as stated, fails in two ways.  For a name that a plain object inherits, such as
`constructor`, a fresh client has a truthy value that is not an array, and `emit`
throws without a listener being registered.  And with `[1, 5, 2]` registered for `x`,
callback 1 unsubscribing itself, `emit` invokes 1 and 2 and never invokes 5. -/
theorem emit_throws_for_inherited_name_and_skips_listener :
    getListeners World.new.client.eventListeners "constructor" = none ∧
    emitThrows "constructor" World.new = true ∧
    (invocations (emit Env.sample "constructor" JVal.null World.new).trace).map Prod.fst = [] ∧
    getListeners (((Client.new.on "x" 1).on "x" 5).on "x" 2).eventListeners "x" =
      some [1, 5, 2] ∧
    (invocations (emit Env.sample "x" JVal.null
      { World.new with client := ((Client.new.on "x" 1).on "x" 5).on "x" 2 }).trace).map
        Prod.fst = [1, 2] := by
  decide

/-- C9, amended: for an event name that is not a member inherited by a plain object,
`emit` does not throw, every listener being called inside its own `try`.  With no array
for the event, or an empty one, it calls nothing and leaves the world as it is but for
the record of the emission.  When no listener registered for the event unsubscribes a
callback from that event while it runs, `emit` calls each listener registered for the
event once, in registration order, with `data`, whether or not listeners throw.  Whether
listeners throw at their end changes neither which listeners are called nor the
client. -/
theorem emit_isolates_listeners (env : Env) (event : String) (data : JVal) (w : World)
    (hname : event ∉ inheritedNames)
    (hno : ∀ cb ∈ (getListeners w.client.eventListeners event).getD [],
      ∀ a ∈ (env.bodies cb).actions, a.removesFrom event = false) :
    emitThrows event w = false ∧
    invocations (emit env event data w).trace =
      invocations w.trace ++
        ((getListeners w.client.eventListeners event).getD []).map (fun cb => (cb, data)) ∧
    ((getListeners w.client.eventListeners event).getD [] = [] →
      emit env event data w = w.log (Obs.emitted event data)) ∧
    (∀ env1 : Env, (∀ cb, (env1.bodies cb).actions = (env.bodies cb).actions) →
      (emit env1 event data w).client = (emit env event data w).client ∧
      invocations (emit env1 event data w).trace = invocations (emit env event data w).trace) := by
  have hquiet : emitThrows event w = false := by
    cases hq : emitThrows event w with
    | false => rfl
    | true => exact absurd ((tableThrows_iff _ _).mp hq).1 hname
  refine ⟨hquiet, ?_, ?_, fun env1 hsame => emit_throw_irrelevant env env1 event data w hsame⟩
  · cases hreg : getListeners w.client.eventListeners event with
    | none =>
      simp [emit, World.log, readSlot_none _ _ hreg hname, invocations, Obs.invocation]
    | some arr =>
      rw [hreg] at hno
      simpa using (emit_keeps env event data w arr hreg hno).1
  · intro hempty
    cases hreg : getListeners w.client.eventListeners event with
    | none => simp [emit, World.log, readSlot_none _ _ hreg hname]
    | some arr =>
      have harr : arr = [] := by simpa [hreg] using hempty
      subst harr
      simp [emit, World.log, readSlot_some _ _ _ hreg, forEachFrom]

/-- Callback 5 throws while `y` is emitted to `[5, 2]`: the error is caught and 2 is
still invoked. -/
theorem emit_isolates_listeners_witness :
    caughtErrors (emit Env.sample "y" JVal.null
      { World.new with client := (Client.new.on "y" 5).on "y" 2 }).trace = [5] ∧
    emitThrows "y" { World.new with client := (Client.new.on "y" 5).on "y" 2 } = false ∧
    invocations (emit Env.sample "y" JVal.null
      { World.new with client := (Client.new.on "y" 5).on "y" 2 }).trace =
        [(5, JVal.null), (2, JVal.null)] :=
  ⟨by decide,
    (emit_isolates_listeners Env.sample "y" JVal.null
      { World.new with client := (Client.new.on "y" 5).on "y" 2 } (by decide) (by decide)).1,
    (emit_isolates_listeners Env.sample "y" JVal.null
      { World.new with client := (Client.new.on "y" 5).on "y" 2 } (by decide) (by decide)).2.1⟩

/-! ## The flush of the queue -/

theorem sendAll_queues (env : Env) (messages : List JVal) (w : World)
    (hcond : (!w.client.isConnected || !w.wsOpen) = true) :
    (sendAll env messages w).client.messageQueue = w.client.messageQueue ++ messages := by
  induction messages generalizing w with
  | nil => simp [sendAll]
  | cons m rest ih =>
    obtain ⟨_, _, _, hq, hc, hws, hh⟩ := sendMessage_queues env m w hcond
    have hcond1 : (!(sendMessage env m w).2.client.isConnected ||
        !(sendMessage env m w).2.wsOpen) = true := by
      simpa [World.wsOpen, World.wsState, hc, hws, hh] using hcond
    have := ih (sendMessage env m w).2 hcond1
    simp only [sendAll, List.foldl_cons] at this ⊢
    rw [this, hq]
    simp

/-- The branch of `sendMessage` taken on an open connection: exactly one frame is
handed to the transport, and the only event that can be emitted is `error`. -/
theorem sendMessage_open (env : Env) (message : JVal) (w : World)
    (hc : w.client.isConnected = true) (ho : w.wsOpen = true) :
    ∃ tr, (sendMessage env message w).2.trace = w.trace ++ tr ∧
      handedToSend tr = [messageStr env message] ∧
      (∀ n ∈ emittedNames tr, n = "error") ∧
      (sendMessage env message w).2.client.messageQueue = w.client.messageQueue ∧
      (sendMessage env message w).2.client.isConnected = w.client.isConnected ∧
      (sendMessage env message w).2.client.ws = w.client.ws ∧
      (sendMessage env message w).2.handles = w.handles := by
  have hcond : (!w.client.isConnected || !w.wsOpen) = false := by simp [hc, ho]
  by_cases hthrow : env.sendThrows (messageStr env message) = true
  · obtain ⟨ls, tr, hb, he⟩ := emit_frame env "error" (errorData "Failed to send message")
      (w.log (Obs.wsSendThrew (w.client.ws.getD 0) (messageStr env message)))
    obtain ⟨h1, h2, _⟩ := byListener_readers tr hb
    refine ⟨Obs.wsSendThrew (w.client.ws.getD 0) (messageStr env message) ::
      Obs.emitted "error" (errorData "Failed to send message") :: tr, ?_⟩
    simp only [sendMessage, hcond, hthrow, if_true, he]
    refine ⟨by simp [World.listenersRan, World.log], ?_, ?_, ?_⟩
    · have : handedToSend (Obs.wsSendThrew (w.client.ws.getD 0) (messageStr env message) ::
          Obs.emitted "error" (errorData "Failed to send message") :: tr) =
          messageStr env message :: handedToSend tr := by
        simp [handedToSend, Obs.handed]
      rw [this, h2]
    · intro n hn
      have : emittedNames (Obs.wsSendThrew (w.client.ws.getD 0) (messageStr env message) ::
          Obs.emitted "error" (errorData "Failed to send message") :: tr) =
          "error" :: (emissions tr).map Prod.fst := by
        simp [emittedNames, emissions, Obs.emission]
      rw [this, h1] at hn
      simpa using hn
    · simp [World.listenersRan, World.log]
  · refine ⟨[Obs.wsSend (w.client.ws.getD 0) (messageStr env message)], ?_⟩
    simp [sendMessage, hcond, hthrow, World.log, handedToSend, Obs.handed, emittedNames,
      emissions, Obs.emission]

/-- The flush loop on an open connection: with at least as much fuel as queued
messages it ends, having handed the queued messages to the transport in queue order. -/
theorem flushQueue_open (env : Env) (queue : List JVal) (fuel : Nat) (w : World)
    (hq : w.client.messageQueue = queue)
    (hc : w.client.isConnected = true) (ho : w.wsOpen = true)
    (hfuel : queue.length ≤ fuel) :
    ∃ w1 tr, flushQueue env fuel w = some w1 ∧ w1.trace = w.trace ++ tr ∧
      handedToSend tr = queue.map (messageStr env) ∧
      (∀ n ∈ emittedNames tr, n = "error") ∧
      w1.client.messageQueue = [] := by
  induction queue generalizing fuel w with
  | nil =>
    refine ⟨w, [], ?_, by simp, by simp [handedToSend], by simp [emittedNames, emissions], hq⟩
    cases fuel <;> simp [flushQueue, hq]
  | cons m rest ih =>
    cases fuel with
    | zero => simp at hfuel
    | succ fuel =>
      have hfuel1 : rest.length ≤ fuel := by simpa using hfuel
      have hc0 : ({ w with client := { w.client with messageQueue := rest } } : World
          ).client.isConnected = true := hc
      have ho0 : ({ w with client := { w.client with messageQueue := rest } } : World
          ).wsOpen = true := ho
      obtain ⟨tr1, ht1, hh1, he1, hq1, hc1, hws1, hhs1⟩ := sendMessage_open env m
        { w with client := { w.client with messageQueue := rest } } hc0 ho0
      have ho1 : (sendMessage env m
          { w with client := { w.client with messageQueue := rest } }).2.wsOpen = true := by
        simpa [World.wsOpen, World.wsState, hws1, hhs1] using ho
      obtain ⟨w1, tr2, hf, ht2, hh2, he2, hq2⟩ := ih fuel
        (sendMessage env m { w with client := { w.client with messageQueue := rest } }).2
        hq1 (by rw [hc1]; exact hc) ho1 hfuel1
      refine ⟨w1, tr1 ++ tr2, ?_, ?_, ?_, ?_, hq2⟩
      · simp only [flushQueue, hq]
        exact hf
      · rw [ht2, ht1]
        simp [List.append_assoc]
      · rw [handedToSend_append, hh1, hh2]
        simp
      · intro n hn
        have : emittedNames (tr1 ++ tr2) = emittedNames tr1 ++ emittedNames tr2 := by
          simp [emittedNames, emissions_append]
        rw [this] at hn
        rcases List.mem_append.mp hn with h | h
        · exact he1 n h
        · exact he2 n h

/-- C5: let the messages `m1..mn` be passed to `sendMessage` while the client is not
connected, the queue being empty before: the queue then holds `m1..mn`.  For every
world with that queue in which the client holds an open handle, `onOpen` returns (the
flush loop ends within `n` iterations) and has handed the frames of `m1..mn` to the
transport in that order, all of them before it emits `connected`; between the start of
`onOpen` and that emission only `error` can be emitted, after it only listeners run,
and the queue is empty at the end. -/
theorem queued_messages_flushed_in_order (env : Env) (messages : List JVal) (w w2 : World)
    (fuel : Nat)
    (hempty : w.client.messageQueue = [])
    (hdisc : w.client.isConnected = false ∨ w.wsOpen = false)
    (hqueue : w2.client.messageQueue = (sendAll env messages w).client.messageQueue)
    (hopen : w2.wsOpen = true)
    (hfuel : messages.length ≤ fuel) :
    (sendAll env messages w).client.messageQueue = messages ∧
    ∃ w3 pre post, onOpen env fuel w2 = some w3 ∧
      w3.trace = w2.trace ++ pre ++ Obs.emitted "connected" JVal.undefined :: post ∧
      handedToSend pre = messages.map (messageStr env) ∧
      (∀ n ∈ emittedNames pre, n = "error") ∧
      (∀ o ∈ post, Obs.byListener o = true) ∧
      handedToSend post = [] ∧
      w3.client.messageQueue = [] := by
  have hcond : (!w.client.isConnected || !w.wsOpen) = true := by
    rcases hdisc with h | h <;> simp [h]
  have hsent : (sendAll env messages w).client.messageQueue = messages := by
    rw [sendAll_queues env messages w hcond, hempty]
    simp
  refine ⟨hsent, ?_⟩
  rw [hsent] at hqueue
  have ho1 : (startHeartbeat { w2 with client := { w2.client with
      isConnected := true, reconnectAttempts := 0, reconnectDelay := 1000 } }).wsOpen = true := by
    simpa [startHeartbeat, World.wsOpen, World.wsState] using hopen
  obtain ⟨w1, tr, hf, ht, hh, he, hq⟩ := flushQueue_open env messages fuel
    (startHeartbeat { w2 with client := { w2.client with
      isConnected := true, reconnectAttempts := 0, reconnectDelay := 1000 } })
    (by simpa [startHeartbeat] using hqueue) (by simp [startHeartbeat]) ho1 hfuel
  obtain ⟨ls, post, hb, hemit⟩ := emit_frame env "connected" JVal.undefined w1
  refine ⟨emit env "connected" JVal.undefined w1,
    Obs.intervalSet w2.nextInterval 30000 :: tr, post, ?_, ?_, ?_, ?_, hb, ?_, ?_⟩
  · simp only [onOpen, hf]
  · rw [hemit]
    simp [World.listenersRan, ht, startHeartbeat]
  · have : handedToSend (Obs.intervalSet w2.nextInterval 30000 :: tr) = handedToSend tr := by
      simp [handedToSend, Obs.handed]
    rw [this, hh]
  · have : emittedNames (Obs.intervalSet w2.nextInterval 30000 :: tr) = emittedNames tr := by
      simp [emittedNames, emissions, Obs.emission]
    rw [this]
    exact he
  · exact (byListener_readers post hb).2.1
  · rw [(emit_fields env "connected" JVal.undefined w1).2.2.2.2.2.2.2.1]
    exact hq

/-- Two messages queued before the connection opens are handed over in order. -/
theorem queued_messages_flushed_in_order_witness :
    (sendAll Env.sample [JVal.str "a", JVal.obj [("type", JVal.str "ping")]]
      World.new).client.messageQueue = [JVal.str "a", JVal.obj [("type", JVal.str "ping")]] ∧
    ∃ w3 pre post, onOpen Env.sample 2 World.sampleQueued = some w3 ∧
      w3.trace = World.sampleQueued.trace ++ pre ++
        Obs.emitted "connected" JVal.undefined :: post ∧
      handedToSend pre = ["a", "{}"] ∧
      (∀ n ∈ emittedNames pre, n = "error") ∧
      (∀ o ∈ post, Obs.byListener o = true) ∧
      handedToSend post = [] ∧
      w3.client.messageQueue = [] :=
  queued_messages_flushed_in_order Env.sample
    [JVal.str "a", JVal.obj [("type", JVal.str "ping")]] World.new World.sampleQueued 2
    rfl (Or.inl rfl) rfl (by decide) (by decide)

/-! ## Sending on an open connection -/

theorem transmitted_append (a b : List Obs) :
    transmitted (a ++ b) = transmitted a ++ transmitted b := by
  simp [transmitted]

theorem transmitted_byListener (tr : List Obs) (h : ∀ o ∈ tr, Obs.byListener o = true) :
    transmitted tr = [] := by
  induction tr with
  | nil => rfl
  | cons o rest ih =>
    have ho := h o (List.mem_cons_self o rest)
    have hr := ih (fun x hx => h x (List.mem_cons_of_mem o hx))
    simp only [transmitted] at hr ⊢
    cases o <;> simp_all [Obs.byListener, Obs.sent]

theorem emit_transmitted (env : Env) (event : String) (data : JVal) (w : World) :
    transmitted (emit env event data w).trace = transmitted w.trace := by
  obtain ⟨ls, tr, hb, he⟩ := emit_frame env event data w
  have ht : (emit env event data w).trace = w.trace ++ ([Obs.emitted event data] ++ tr) := by
    rw [he]; rfl
  rw [ht, transmitted_append, transmitted_append, transmitted_byListener tr hb]
  simp [transmitted, Obs.sent]

/-- C11: on a connected client whose handle is OPEN, `sendMessage` hands exactly one
frame to the transport: the message itself when it is a string, its serialization
otherwise.  When `send` returns, `sendMessage` returns true, the frame is transmitted
and nothing is emitted; when `send` throws, `sendMessage` returns false, nothing is
transmitted and one `error` event is emitted.  The queue is unchanged either way. -/
theorem sendMessage_connected (env : Env) (message : JVal) (w : World)
    (hc : w.client.isConnected = true) (ho : w.wsState = some ReadyState.OPEN) :
    handedToSend (sendMessage env message w).2.trace =
      handedToSend w.trace ++ [messageStr env message] ∧
    (∀ s, message = JVal.str s → messageStr env message = s) ∧
    ((∀ s, message ≠ JVal.str s) → messageStr env message = env.stringify message) ∧
    (sendMessage env message w).2.client.messageQueue = w.client.messageQueue ∧
    (env.sendThrows (messageStr env message) = false →
      (sendMessage env message w).1 = true ∧
      transmitted (sendMessage env message w).2.trace =
        transmitted w.trace ++ [messageStr env message] ∧
      emissions (sendMessage env message w).2.trace = emissions w.trace) ∧
    (env.sendThrows (messageStr env message) = true →
      (sendMessage env message w).1 = false ∧
      transmitted (sendMessage env message w).2.trace = transmitted w.trace ∧
      emissions (sendMessage env message w).2.trace =
        emissions w.trace ++ [("error", errorData "Failed to send message")]) := by
  have hopen : w.wsOpen = true := by simp [World.wsOpen, ho]
  have hcond : (!w.client.isConnected || !w.wsOpen) = false := by simp [hc, hopen]
  refine ⟨?_, ?_, ?_, ?_, ?_, ?_⟩
  · by_cases hthrow : env.sendThrows (messageStr env message) = true
    · simp only [sendMessage, hcond, hthrow, if_true, Bool.false_eq_true, if_false, emit_trace,
        World.log]
      simp [handedToSend, Obs.handed]
    · simp [sendMessage, hcond, hthrow, World.log, handedToSend, Obs.handed]
  · intro s hs
    subst hs
    rfl
  · intro hns
    cases message with
    | str s => exact absurd rfl (hns s)
    | _ => rfl
  · by_cases hthrow : env.sendThrows (messageStr env message) = true
    · simp only [sendMessage, hcond, hthrow, if_true]
      simp [emit_fields, World.log]
    · simp [sendMessage, hcond, hthrow, World.log]
  · intro hthrow
    simp [sendMessage, hcond, hthrow, World.log, transmitted, Obs.sent, emissions, Obs.emission]
  · intro hthrow
    simp only [sendMessage, hcond, hthrow, if_true, Bool.false_eq_true, if_false, emit_trace,
      emit_transmitted, World.log]
    simp [transmitted, Obs.sent, emissions, Obs.emission]

/-- A string sent on the open connection of the examples goes out as it is. -/
theorem sendMessage_connected_witness :
    handedToSend (sendMessage Env.sample (JVal.str "hi") World.sampleOpen).2.trace =
      handedToSend World.sampleOpen.trace ++ ["hi"] ∧
    (sendMessage Env.sample (JVal.str "hi") World.sampleOpen).2.client.messageQueue =
      World.sampleOpen.client.messageQueue :=
  have h := sendMessage_connected Env.sample (JVal.str "hi") World.sampleOpen
    (by decide) (by decide)
  ⟨h.1, h.2.2.2.1⟩

/-! ## Connecting without authentication data -/

/-- C12, as stated, fails when the client already holds an open handle: with the auth
store empty, `connect()` on the open connection of the examples returns true and emits
nothing. -/
theorem connect_open_without_auth_returns_true :
    Env.loggedOut.userData.truthy = false ∧ Env.loggedOut.token = none ∧
    (connect Env.loggedOut World.sampleOpen).1 = true ∧
    emittedNames (connect Env.loggedOut World.sampleOpen).2.trace =
      emittedNames World.sampleOpen.trace := by
  decide

/-- C12, amended: if the auth store holds no user data or no token and the client
does not hold a handle in the state OPEN, `connect()` emits exactly one `error` event,
returns false, constructs no transport handle and leaves the `ws` field, the queue and
the reconnect counter unchanged. -/
theorem connect_without_auth (env : Env) (w : World)
    (hauth : env.userData.truthy = false ∨ env.token = none ∨ env.token = some "")
    (hnot : w.wsOpen = false) :
    (connect env w).1 = false ∧
    emissions (connect env w).2.trace =
      emissions w.trace ++ [("error", errorData "No authentication data")] ∧
    (connect env w).2.handles = w.handles ∧
    handlesOpened (connect env w).2.trace = handlesOpened w.trace ∧
    (connect env w).2.client.ws = w.client.ws ∧
    (connect env w).2.client.messageQueue = w.client.messageQueue ∧
    (connect env w).2.client.reconnectAttempts = w.client.reconnectAttempts := by
  have hcond : (!env.userData.truthy || !(env.token.getD "" != "")) = true := by
    rcases hauth with h | h | h <;> simp [h]
  simp only [connect, hnot, hcond, if_true, Bool.false_eq_true, if_false]
  simp [emit_fields, emit_trace]

/-- A fresh client and an empty auth store. -/
theorem connect_without_auth_witness :
    (connect Env.loggedOut World.new).1 = false ∧
    emissions (connect Env.loggedOut World.new).2.trace =
      [("error", errorData "No authentication data")] ∧
    (connect Env.loggedOut World.new).2.handles = [] :=
  have h := connect_without_auth Env.loggedOut World.new (Or.inl rfl) rfl
  ⟨h.1, h.2.1, h.2.2.1⟩

/-! ## The typed send helpers -/

/-- A parameter with a default keeps an argument that is not `undefined`. -/
theorem defaultArg_given (arg fallback : JVal) (h : arg ≠ JVal.undefined) :
    defaultArg arg fallback = arg := by
  cases arg <;> first | rfl | exact absurd rfl h

/-- C16: each typed send helper is `sendMessage` applied to the record of the outbound
wire table, so that it returns the result of `sendMessage`.  The history request sends
`with_user`, `limit` and `offset`, where each of `limit` and `offset` on its own is the
argument when one is given and the default, 50 for `limit` and 0 for `offset`, when it
is omitted: both omitted, both given, `offset` alone omitted, `limit` alone omitted. -/
theorem typed_helpers_records (env : Env) (w : World) (c u l o s : JVal) :
    sendUserMessage env c w =
      sendMessage env (JVal.obj [("type", JVal.str "user_to_admin"), ("message", c)]) w ∧
    sendAdminMessage env c u w =
      sendMessage env
        (JVal.obj [("type", JVal.str "admin_to_user"), ("to_user", u), ("message", c)]) w ∧
    sendBroadcast env c w =
      sendMessage env (JVal.obj [("type", JVal.str "broadcast"), ("message", c)]) w ∧
    requestConversationHistory env u JVal.undefined JVal.undefined w =
      sendMessage env
        (JVal.obj [("type", JVal.str "get_conversation_history"), ("with_user", u),
          ("limit", JVal.num 50), ("offset", JVal.num 0)]) w ∧
    (l ≠ JVal.undefined → o ≠ JVal.undefined →
      requestConversationHistory env u l o w =
        sendMessage env
          (JVal.obj [("type", JVal.str "get_conversation_history"), ("with_user", u),
            ("limit", l), ("offset", o)]) w) ∧
    (l ≠ JVal.undefined →
      requestConversationHistory env u l JVal.undefined w =
        sendMessage env
          (JVal.obj [("type", JVal.str "get_conversation_history"), ("with_user", u),
            ("limit", l), ("offset", JVal.num 0)]) w) ∧
    (o ≠ JVal.undefined →
      requestConversationHistory env u JVal.undefined o w =
        sendMessage env
          (JVal.obj [("type", JVal.str "get_conversation_history"), ("with_user", u),
            ("limit", JVal.num 50), ("offset", o)]) w) ∧
    requestConversations env w =
      sendMessage env (JVal.obj [("type", JVal.str "get_conversations")]) w ∧
    markAsRead env s w =
      sendMessage env (JVal.obj [("type", JVal.str "mark_as_read"), ("sender_id", s)]) w ∧
    requestConnectedUsers env w =
      sendMessage env (JVal.obj [("type", JVal.str "get_connected_users")]) w ∧
    ping env w = sendMessage env (JVal.obj [("type", JVal.str "ping")]) w := by
  refine ⟨rfl, rfl, rfl, rfl, ?_, ?_, ?_, rfl, rfl, rfl, rfl⟩
  · intro hl ho
    simp [requestConversationHistory, defaultArg_given l _ hl, defaultArg_given o _ ho]
  · intro hl
    simp [requestConversationHistory, defaultArg_given l _ hl, defaultArg]
  · intro ho
    simp [requestConversationHistory, defaultArg_given o _ ho, defaultArg]

/-- History requests for `bob`: with limit 10 and offset 20; with limit 10 alone, which
sends offset 0; with offset 20 alone, which sends limit 50. -/
theorem typed_helpers_records_witness :
    requestConversationHistory Env.sample (JVal.str "bob") (JVal.num 10) (JVal.num 20)
        World.new =
      sendMessage Env.sample
        (JVal.obj [("type", JVal.str "get_conversation_history"),
          ("with_user", JVal.str "bob"), ("limit", JVal.num 10), ("offset", JVal.num 20)])
        World.new ∧
    requestConversationHistory Env.sample (JVal.str "bob") (JVal.num 10) JVal.undefined
        World.new =
      sendMessage Env.sample
        (JVal.obj [("type", JVal.str "get_conversation_history"),
          ("with_user", JVal.str "bob"), ("limit", JVal.num 10), ("offset", JVal.num 0)])
        World.new ∧
    requestConversationHistory Env.sample (JVal.str "bob") JVal.undefined (JVal.num 20)
        World.new =
      sendMessage Env.sample
        (JVal.obj [("type", JVal.str "get_conversation_history"),
          ("with_user", JVal.str "bob"), ("limit", JVal.num 50), ("offset", JVal.num 20)])
        World.new :=
  ⟨(typed_helpers_records Env.sample World.new JVal.null (JVal.str "bob") (JVal.num 10)
      (JVal.num 20) JVal.null).2.2.2.2.1 (fun h => JVal.noConfusion h)
      (fun h => JVal.noConfusion h),
    (typed_helpers_records Env.sample World.new JVal.null (JVal.str "bob") (JVal.num 10)
      (JVal.num 20) JVal.null).2.2.2.2.2.1 (fun h => JVal.noConfusion h),
    (typed_helpers_records Env.sample World.new JVal.null (JVal.str "bob") (JVal.num 10)
      (JVal.num 20) JVal.null).2.2.2.2.2.2.1 (fun h => JVal.noConfusion h)⟩

/-! ## Inbound dispatch -/

/-- The default branch of the `switch` in `handleMessage`. -/
theorem eventFor_other (s : String)
    (h0 : ¬ s = "welcome")
    (h1 : ¬ s = "user_message")
    (h2 : ¬ s = "admin_message")
    (h3 : ¬ s = "admin_sent")
    (h4 : ¬ s = "broadcast")
    (h5 : ¬ s = "user_connected")
    (h6 : ¬ s = "connected_users")
    (h7 : ¬ s = "conversation_history")
    (h8 : ¬ s = "conversations_list")
    (h9 : ¬ s = "offline_message")
    (h10 : ¬ s = "offline_messages_summary")
    (h11 : ¬ s = "pong")
    (h12 : ¬ s = "error") :
    eventFor (JVal.str s) = some "message" := by
  delta eventFor eventFor.match_1
  dsimp only
  rw [dif_neg h0, dif_neg h1, dif_neg h2, dif_neg h3, dif_neg h4, dif_neg h5, dif_neg h6, dif_neg h7, dif_neg h8, dif_neg h9, dif_neg h10, dif_neg h11, dif_neg h12]

theorem tableEvent_other (s : String)
    (h0 : ¬ s = "welcome")
    (h1 : ¬ s = "user_message")
    (h2 : ¬ s = "admin_message")
    (h3 : ¬ s = "admin_sent")
    (h4 : ¬ s = "broadcast")
    (h5 : ¬ s = "user_connected")
    (h6 : ¬ s = "connected_users")
    (h7 : ¬ s = "conversation_history")
    (h8 : ¬ s = "conversations_list")
    (h9 : ¬ s = "offline_message")
    (h10 : ¬ s = "offline_messages_summary")
    (h11 : ¬ s = "pong")
    (h12 : ¬ s = "error") :
    tableEvent (JVal.str s) = some "message" := by
  have b0 : (s == "welcome") = false := by simpa using h0
  have b1 : (s == "user_message") = false := by simpa using h1
  have b2 : (s == "admin_message") = false := by simpa using h2
  have b3 : (s == "admin_sent") = false := by simpa using h3
  have b4 : (s == "broadcast") = false := by simpa using h4
  have b5 : (s == "user_connected") = false := by simpa using h5
  have b6 : (s == "connected_users") = false := by simpa using h6
  have b7 : (s == "conversation_history") = false := by simpa using h7
  have b8 : (s == "conversations_list") = false := by simpa using h8
  have b9 : (s == "offline_message") = false := by simpa using h9
  have b10 : (s == "offline_messages_summary") = false := by simpa using h10
  have b11 : (s == "pong") = false := by simpa using h11
  have b12 : (s == "error") = false := by simpa using h12
  simp [tableEvent, inboundTable, List.lookup, h11, b0, b1, b2, b3, b4, b5, b6, b7, b8, b9, b10, b11, b12]

/-- The `switch` of `handleMessage` and the table of the specification agree on every
tag. -/
theorem eventFor_table (t : JVal) : eventFor t = tableEvent t := by
  match t with
  | JVal.undefined => rfl
  | JVal.null => rfl
  | JVal.bool _ => rfl
  | JVal.num _ => rfl
  | JVal.arr _ => rfl
  | JVal.obj _ => rfl
  | JVal.str s =>
    by_cases h0 : s = "welcome"
    · subst h0; rfl
    by_cases h1 : s = "user_message"
    · subst h1; rfl
    by_cases h2 : s = "admin_message"
    · subst h2; rfl
    by_cases h3 : s = "admin_sent"
    · subst h3; rfl
    by_cases h4 : s = "broadcast"
    · subst h4; rfl
    by_cases h5 : s = "user_connected"
    · subst h5; rfl
    by_cases h6 : s = "connected_users"
    · subst h6; rfl
    by_cases h7 : s = "conversation_history"
    · subst h7; rfl
    by_cases h8 : s = "conversations_list"
    · subst h8; rfl
    by_cases h9 : s = "offline_message"
    · subst h9; rfl
    by_cases h10 : s = "offline_messages_summary"
    · subst h10; rfl
    by_cases h11 : s = "pong"
    · subst h11; rfl
    by_cases h12 : s = "error"
    · subst h12; rfl
    rw [eventFor_other s h0 h1 h2 h3 h4 h5 h6 h7 h8 h9 h10 h11 h12, tableEvent_other s h0 h1 h2 h3 h4 h5 h6 h7 h8 h9 h10 h11 h12]

/-- What `handleMessage` does with a value other than `null` and `undefined`, in terms
of the table. -/
theorem handleMessage_emits (env : Env) (d : JVal) (w : World)
    (hval : d ≠ JVal.null ∧ d ≠ JVal.undefined) :
    ∃ w1, handleMessage env d w = some w1 ∧
      emissions w1.trace = emissions w.trace ++
        (match tableEvent (d.getProp "type") with
          | none => []
          | some event => [(event, d)]) := by
  have hm : handleMessage env d w =
      (match eventFor (d.getProp "type") with
        | none => some w
        | some event => some (emit env event d w)) := by
    cases d with
    | null => exact absurd rfl hval.1
    | undefined => exact absurd rfl hval.2
    | _ => rfl
  rw [hm, eventFor_table]
  cases tableEvent (d.getProp "type") with
  | none => exact ⟨w, rfl, by simp⟩
  | some event => exact ⟨emit env event d w, rfl, (emit_trace env event d w).1⟩

/-- C13: for every decoded record `d`, `handleMessage(d)` returns and emits exactly the
event that the table assigns to `d.type`, with `d` itself as the payload: the table
entry for the thirteen listed tags except `pong`, nothing for `pong`, and `message` for
every other tag.  The `switch` of the source and the table agree on all values. -/
theorem handleMessage_dispatch (env : Env) (fields : List (String × JVal)) (w : World) :
    (∀ t, eventFor t = tableEvent t) ∧
    inboundTable.map (fun entry => tableEvent (JVal.str entry.1)) =
      inboundTable.map (fun entry => some entry.2) ∧
    tableEvent (JVal.str "pong") = none ∧
    ∃ w1, handleMessage env (JVal.obj fields) w = some w1 ∧
      emissions w1.trace = emissions w.trace ++
        (match tableEvent ((JVal.obj fields).getProp "type") with
          | none => []
          | some event => [(event, JVal.obj fields)]) := by
  refine ⟨eventFor_table, by decide, by decide, ?_⟩
  exact handleMessage_emits env (JVal.obj fields) w
    ⟨fun h => JVal.noConfusion h, fun h => JVal.noConfusion h⟩

/-- C14: for a frame whose data is not valid JSON, `onMessage` emits exactly one event,
`message`, with the payload `{type: 'text', content: <the frame data>}`. -/
theorem onMessage_invalid_json (env : Env) (frame : String) (w : World)
    (h : env.parse frame = none) :
    emissions (onMessage env frame w).trace =
      emissions w.trace ++
        [("message", JVal.obj [("type", JVal.str "text"), ("content", JVal.str frame)])] := by
  simp only [onMessage, h]
  exact (emit_trace env "message" _ w).1

/-- A frame that is not JSON, on the open connection of the examples. -/
theorem onMessage_invalid_json_witness :
    emissions (onMessage Env.sample "hello" World.sampleOpen).trace =
      emissions World.sampleOpen.trace ++
        [("message", JVal.obj [("type", JVal.str "text"), ("content", JVal.str "hello")])] :=
  onMessage_invalid_json Env.sample "hello" World.sampleOpen rfl

theorem tableEvent_none (t : JVal) (h : tableEvent t = none) : t = JVal.str "pong" := by
  cases t with
  | str s =>
    by_cases hp : s = "pong"
    · rw [hp]
    · simp [tableEvent, hp] at h
  | _ => simp [tableEvent] at h

/-- C15: `onMessage` is a total function of the frame and the world, whatever the frame
decodes to and whatever the bodies of the listeners are; it emits no event when the
frame decodes to a record whose `type` is `pong`, and exactly one event otherwise. -/
theorem onMessage_one_event (env : Env) (frame : String) (w : World) :
    ∃ extra, emissions (onMessage env frame w).trace = emissions w.trace ++ extra ∧
      extra.length = (if pongFrame env frame = true then 0 else 1) := by
  have hfallback : ∀ hp : pongFrame env frame = false,
      ∃ extra, emissions (emit env "message"
          (JVal.obj [("type", JVal.str "text"), ("content", JVal.str frame)]) w).trace =
            emissions w.trace ++ extra ∧
        extra.length = (if pongFrame env frame = true then 0 else 1) := by
    intro hp
    exact ⟨_, (emit_trace env "message" _ w).1, by simp [hp]⟩
  cases hparse : env.parse frame with
  | none =>
    have hp : pongFrame env frame = false := by simp [pongFrame, hparse]
    simpa [onMessage, hparse] using hfallback hp
  | some d =>
    by_cases hval : d ≠ JVal.null ∧ d ≠ JVal.undefined
    · obtain ⟨w1, hw1, hem⟩ := handleMessage_emits env d w hval
      have hon : onMessage env frame w = w1 := by simp [onMessage, hparse, hw1]
      rw [hon, hem]
      refine ⟨_, rfl, ?_⟩
      cases htab : tableEvent (d.getProp "type") with
      | none =>
        have htype := tableEvent_none _ htab
        have hp : pongFrame env frame = true := by
          cases d <;> simp_all [pongFrame, JVal.isPong, JVal.getProp]
        simp [hp]
      | some event =>
        have hp : pongFrame env frame = false := by
          cases d with
          | obj fields =>
            cases hty : (JVal.obj fields).getProp "type" with
            | str s =>
              have : s ≠ "pong" := by
                intro hs
                rw [hty, hs] at htab
                simp [tableEvent] at htab
              simp [pongFrame, hparse, JVal.isPong, hty, this]
            | _ => simp [pongFrame, hparse, JVal.isPong, hty]
          | _ => simp [pongFrame, hparse, JVal.isPong]
        simp [hp]
    · have hp : pongFrame env frame = false := by
        by_cases h1 : d = JVal.null
        · simp [pongFrame, hparse, h1, JVal.isPong]
        · have h2 : d = JVal.undefined := by
            by_contra h2
            exact hval ⟨h1, h2⟩
          simp [pongFrame, hparse, h2, JVal.isPong]
      have hnone : handleMessage env d w = none := by
        by_cases h1 : d = JVal.null
        · subst h1; rfl
        · have h2 : d = JVal.undefined := by
            by_contra h2
            exact hval ⟨h1, h2⟩
          subst h2; rfl
      simpa [onMessage, hparse, hnone] using hfallback hp

/-! ## Subscribing and unsubscribing -/

/-- Removing the element at the index that `indexOf` returns removes the first
occurrence and nothing else. -/
theorem eraseIdx_indexOf (pre post : List Nat) (cb : Nat) (hpre : cb ∉ pre) :
    (pre ++ cb :: post).eraseIdx ((pre ++ cb :: post).indexOf cb) = pre ++ post := by
  induction pre with
  | nil => simp
  | cons x rest ih =>
    have hx : x ≠ cb := fun h => hpre (by simp [h])
    have hrest : cb ∉ rest := fun h => hpre (List.mem_cons_of_mem x h)
    simp only [List.cons_append, List.indexOf_cons_ne _ hx, List.eraseIdx_cons_succ, ih hrest]

/-- C18, as stated, fails for a name that a plain object inherits.  On a fresh client
the value under `constructor` is truthy and not an array: `on("constructor", 1)` throws
at `push` and registers nothing, so that 1 is not appended, and `off("toString", 1)`,
for a name without listeners, throws at `indexOf`. -/
theorem on_off_throw_for_inherited_name :
    Client.new.onThrows "constructor" = true ∧
    getListeners (Client.new.on "constructor" 1).eventListeners "constructor" = none ∧
    (Client.new.on "constructor" 1).eventListeners = [] ∧
    getListeners Client.new.eventListeners "toString" = none ∧
    Client.new.offThrows "toString" = true := by
  decide

/-- C18, amended: for an event name that is not a member inherited by a plain object,
neither `on` nor `off` throws.  `off(name, cb)` removes exactly the first occurrence of
`cb` from the array of `name`: an array `pre ++ cb :: post` with `cb` not in `pre`
becomes `pre ++ post`, so that every other entry, later occurrences of `cb` included,
keeps its place in the order; when `cb` is not in the array, or `name` has no array, the
client is unchanged.  `on(name, cb)` appends `cb` at the end of the array of `name`,
whether or not `cb` is already in it.  Neither touches the array of another name. -/
theorem on_off_listeners (c : Client) (event other : String) (cb : Nat) (pre post : List Nat)
    (hname : event ∉ inheritedNames) :
    c.onThrows event = false ∧ c.offThrows event = false ∧
    getListeners (c.on event cb).eventListeners event =
      some ((getListeners c.eventListeners event).getD [] ++ [cb]) ∧
    (other ≠ event →
      getListeners (c.on event cb).eventListeners other = getListeners c.eventListeners other) ∧
    (getListeners c.eventListeners event = some (pre ++ cb :: post) → cb ∉ pre →
      getListeners (c.off event cb).eventListeners event = some (pre ++ post)) ∧
    (other ≠ event →
      getListeners (c.off event cb).eventListeners other = getListeners c.eventListeners other) ∧
    (getListeners c.eventListeners event = none → c.off event cb = c) ∧
    (∀ arr, getListeners c.eventListeners event = some arr → cb ∉ arr → c.off event cb = c) := by
  have hquiet : tableThrows c.eventListeners event = false := by
    cases hq : tableThrows c.eventListeners event with
    | false => rfl
    | true => exact absurd ((tableThrows_iff _ _).mp hq).1 hname
  have hslot : readSlot c.eventListeners event =
      match getListeners c.eventListeners event with
      | some arr => Slot.array arr
      | none => Slot.undefined := by
    cases hg : getListeners c.eventListeners event with
    | none => exact readSlot_none _ _ hg hname
    | some arr => exact readSlot_some _ _ _ hg
  refine ⟨hquiet, hquiet, ?_, ?_, ?_, ?_, ?_, ?_⟩
  · cases hg : getListeners c.eventListeners event <;>
      simp [Client.on, hslot, hg, getListeners_setListeners]
  · intro hne
    have hne1 : ¬ event = other := fun h => hne h.symm
    cases hg : getListeners c.eventListeners event <;>
      simp [Client.on, hslot, hg, getListeners_setListeners, hne1]
  · intro hreg hpre
    have hlt : (pre ++ cb :: post).indexOf cb < (pre ++ cb :: post).length :=
      List.indexOf_lt_length.mpr (by simp)
    simp only [Client.off, hslot, hreg, hlt, if_true, getListeners_setListeners,
      eraseIdx_indexOf pre post cb hpre]
  · intro hne
    have hne1 : ¬ event = other := fun h => hne h.symm
    cases hg : getListeners c.eventListeners event with
    | none => simp [Client.off, hslot, hg]
    | some arr =>
      by_cases hi : arr.indexOf cb < arr.length
      · simp [Client.off, hslot, hg, hi, getListeners_setListeners, hne1]
      · simp [Client.off, hslot, hg, hi]
  · intro hg
    simp [Client.off, hslot, hg]
  · intro arr hg hnot
    have hi : ¬ arr.indexOf cb < arr.length := fun h => hnot (List.indexOf_lt_length.mp h)
    simp [Client.off, hslot, hg, hi]

/-- The array `[7, 8, 7]` of `x`: neither call throws, `on` appends a third entry although
7 is present, and `off` removes the first 7 and keeps the second. -/
theorem on_off_listeners_witness :
    "x" ∉ inheritedNames ∧
    getListeners (((Client.new.on "x" 7).on "x" 8).on "x" 7).eventListeners "x" =
      some [7, 8, 7] ∧
    (((Client.new.on "x" 7).on "x" 8).on "x" 7).offThrows "x" = false ∧
    getListeners ((((Client.new.on "x" 7).on "x" 8).on "x" 7).off "x" 7).eventListeners "x" =
      some [8, 7] :=
  ⟨by decide, by decide,
    (on_off_listeners (((Client.new.on "x" 7).on "x" 8).on "x" 7) "x" "y" 7 [] [8, 7]
      (by decide)).2.1,
    (on_off_listeners (((Client.new.on "x" 7).on "x" 8).on "x" 7) "x" "y" 7 [] [8, 7]
      (by decide)).2.2.2.2.1 (by decide) (by decide)⟩

/-! ## The open handler -/

/-- Whatever branch `sendMessage` takes, it leaves the connection fields, the handles
and the timers as they are. -/
theorem sendMessage_fields (env : Env) (message : JVal) (w : World) :
    (sendMessage env message w).2.client.ws = w.client.ws ∧
    (sendMessage env message w).2.client.isConnected = w.client.isConnected ∧
    (sendMessage env message w).2.client.reconnectAttempts = w.client.reconnectAttempts ∧
    (sendMessage env message w).2.client.reconnectDelay = w.client.reconnectDelay ∧
    (sendMessage env message w).2.client.heartbeatInterval = w.client.heartbeatInterval ∧
    (sendMessage env message w).2.handles = w.handles ∧
    (sendMessage env message w).2.intervals = w.intervals := by
  by_cases hcond : (!w.client.isConnected || !w.wsOpen) = true
  · simp only [sendMessage, hcond, if_true]
    simp [emit_fields]
  · by_cases hthrow : env.sendThrows (messageStr env message) = true
    · simp only [sendMessage, hcond, hthrow, if_true, if_false]
      simp [emit_fields, World.log]
    · simp [sendMessage, hcond, hthrow, World.log]

theorem flushQueue_fields (env : Env) (fuel : Nat) (w w1 : World)
    (h : flushQueue env fuel w = some w1) :
    w1.client.ws = w.client.ws ∧
    w1.client.isConnected = w.client.isConnected ∧
    w1.client.reconnectAttempts = w.client.reconnectAttempts ∧
    w1.client.reconnectDelay = w.client.reconnectDelay ∧
    w1.client.heartbeatInterval = w.client.heartbeatInterval ∧
    w1.handles = w.handles ∧
    w1.intervals = w.intervals := by
  induction fuel generalizing w with
  | zero =>
    by_cases hq : w.client.messageQueue.isEmpty = true
    · simp [flushQueue, hq] at h
      subst h
      simp
    · simp [flushQueue, hq] at h
  | succ fuel ih =>
    cases hq : w.client.messageQueue with
    | nil =>
      simp [flushQueue, hq] at h
      subst h
      simp
    | cons m rest =>
      simp only [flushQueue, hq] at h
      have h1 := ih _ h
      have h2 := sendMessage_fields env m
        { w with client := { w.client with messageQueue := rest } }
      simp only [h2] at h1
      exact h1

/-- C17: whatever the state before, after `onOpen` on a client whose handle is OPEN
the client is connected, the counter is 0 and the delay 1000; a new interval of 30000
ms has been set and is the stored heartbeat; `connected` has been emitted exactly once,
after every queued message was handed to the transport.  A tick of the heartbeat does
nothing on a client that is not connected, calls `ping()` on one that is, and in the
state left by `onOpen` that hands exactly one frame, the ping, to the transport. -/
theorem onOpen_establishes (env : Env) (fuel : Nat) (w : World)
    (ho : w.wsOpen = true) (hfuel : w.client.messageQueue.length ≤ fuel) :
    (∀ v : World, v.client.isConnected = false → heartbeatTick env v = v) ∧
    (∀ v : World, v.client.isConnected = true → heartbeatTick env v = (ping env v).2) ∧
    ∃ w3 pre post, onOpen env fuel w = some w3 ∧
      w3.client.isConnected = true ∧
      w3.client.reconnectAttempts = 0 ∧
      w3.client.reconnectDelay = 1000 ∧
      w3.client.heartbeatInterval = some w.nextInterval ∧
      w3.intervals = w.intervals ++ [w.nextInterval] ∧
      w3.trace = w.trace ++ Obs.intervalSet w.nextInterval 30000 :: pre ++
        Obs.emitted "connected" JVal.undefined :: post ∧
      handedToSend pre = w.client.messageQueue.map (messageStr env) ∧
      (∀ n ∈ emittedNames pre, n = "error") ∧
      emittedNames post = [] ∧
      handedToSend post = [] ∧
      handedToSend (heartbeatTick env w3).trace =
        handedToSend w3.trace ++ [env.stringify (JVal.obj [("type", JVal.str "ping")])] := by
  refine ⟨fun v hv => by simp [heartbeatTick, hv], fun v hv => by simp [heartbeatTick, hv], ?_⟩
  have ho1 : (startHeartbeat { w with client := { w.client with
      isConnected := true, reconnectAttempts := 0, reconnectDelay := 1000 } }).wsOpen = true := by
    simpa [startHeartbeat, World.wsOpen, World.wsState] using ho
  obtain ⟨w1, tr, hf, ht, hh, he, _⟩ := flushQueue_open env w.client.messageQueue fuel
    (startHeartbeat { w with client := { w.client with
      isConnected := true, reconnectAttempts := 0, reconnectDelay := 1000 } })
    (by simp [startHeartbeat]) (by simp [startHeartbeat]) ho1 hfuel
  obtain ⟨f1, f2, f3, f4, f5, f6, f7⟩ := flushQueue_fields env fuel _ w1 hf
  obtain ⟨ls, post, hb, hemit⟩ := emit_frame env "connected" JVal.undefined w1
  obtain ⟨e1, e2, e3, _, e5, _, e7, _, e9, _, e11, _⟩ :=
    emit_fields env "connected" JVal.undefined w1
  have hopen3 : (emit env "connected" JVal.undefined w1).wsOpen = true := by
    simp only [World.wsOpen, World.wsState, e1, e9, f1, f6]
    simpa [startHeartbeat, World.wsOpen, World.wsState] using ho
  have hconn3 : (emit env "connected" JVal.undefined w1).client.isConnected = true := by
    rw [e2, f2]; simp [startHeartbeat]
  refine ⟨emit env "connected" JVal.undefined w1, tr, post, ?_, hconn3, ?_, ?_, ?_, ?_, ?_,
    hh, he, ?_, (byListener_readers post hb).2.1, ?_⟩
  · simp only [onOpen, hf]
  · rw [e3, f3]; simp [startHeartbeat]
  · rw [e5, f4]; simp [startHeartbeat]
  · rw [e7, f5]; simp [startHeartbeat]
  · rw [e11, f7]; simp [startHeartbeat]
  · rw [hemit]
    simp [World.listenersRan, ht, startHeartbeat]
  · simp [emittedNames, (byListener_readers post hb).1]
  · obtain ⟨tr3, ht3, hh3, _⟩ := sendMessage_open env (JVal.obj [("type", JVal.str "ping")])
      (emit env "connected" JVal.undefined w1) hconn3 hopen3
    simp only [heartbeatTick, hconn3, if_true, ping, ht3, handedToSend_append, hh3]
    rfl

/-- The open event on the page with two queued messages. -/
theorem onOpen_establishes_witness :
    ∃ w3 pre post, onOpen Env.sample 2 World.sampleQueued = some w3 ∧
      w3.client.isConnected = true ∧
      w3.client.reconnectAttempts = 0 ∧
      w3.client.reconnectDelay = 1000 ∧
      w3.client.heartbeatInterval = some World.sampleQueued.nextInterval ∧
      w3.intervals = World.sampleQueued.intervals ++ [World.sampleQueued.nextInterval] ∧
      w3.trace = World.sampleQueued.trace ++
        Obs.intervalSet World.sampleQueued.nextInterval 30000 :: pre ++
        Obs.emitted "connected" JVal.undefined :: post ∧
      handedToSend pre = World.sampleQueued.client.messageQueue.map (messageStr Env.sample) ∧
      (∀ n ∈ emittedNames pre, n = "error") ∧
      emittedNames post = [] ∧
      handedToSend post = [] ∧
      handedToSend (heartbeatTick Env.sample w3).trace =
        handedToSend w3.trace ++
          [Env.sample.stringify (JVal.obj [("type", JVal.str "ping")])] :=
  (onOpen_establishes Env.sample 2 World.sampleQueued (by decide) (by decide)).2.2

/-! ## The reconnect counter in reachable states -/

theorem emittedNames_append (a b : List Obs) :
    emittedNames (a ++ b) = emittedNames a ++ emittedNames b := by
  simp [emittedNames, emissions_append]

theorem emit_names (env : Env) (event : String) (data : JVal) (w : World) :
    emittedNames (emit env event data w).trace = emittedNames w.trace ++ [event] := by
  simp [emittedNames, (emit_trace env event data w).1]

/-- A world that agrees with a world within budget on the two counters and on the
emitted names is within budget. -/
theorem WithinBudget.of_same (w w1 : World) (h : WithinBudget w)
    (hmax : w1.client.maxReconnectAttempts = w.client.maxReconnectAttempts)
    (hatt : w1.client.reconnectAttempts = w.client.reconnectAttempts)
    (hnames : emittedNames w1.trace = emittedNames w.trace) : WithinBudget w1 := by
  obtain ⟨h1, h2, h3⟩ := h
  exact ⟨by rw [hmax, h1], by rw [hatt]; exact h2, by rw [hnames]; exact h3⟩

theorem emit_withinBudget (env : Env) (event : String) (data : JVal) (w : World)
    (hne : event ≠ "reconnectFailed") (h : WithinBudget w) :
    WithinBudget (emit env event data w) := by
  obtain ⟨h1, h2, h3⟩ := h
  obtain ⟨_, _, f3, f4, _⟩ := emit_fields env event data w
  refine ⟨by rw [f4, h1], by rw [f3]; exact h2, ?_⟩
  rw [emit_names]
  intro hmem
  rcases List.mem_append.mp hmem with hm | hm
  · exact h3 hm
  · simp only [List.mem_singleton] at hm
    exact hne hm.symm

theorem clearHeartbeat_names (w : World) :
    emittedNames (clearHeartbeat w).trace = emittedNames w.trace := by
  unfold emittedNames
  rw [(clearHeartbeat_trace w).1]

theorem clearHeartbeat_withinBudget (w : World) (h : WithinBudget w) :
    WithinBudget (clearHeartbeat w) := by
  obtain ⟨_, _, _, f4, f5, _⟩ := clearHeartbeat_fields w
  exact WithinBudget.of_same w _ h f5 f4 (clearHeartbeat_names w)

theorem connect_withinBudget (env : Env) (w : World) (h : WithinBudget w) :
    WithinBudget (connect env w).2 := by
  unfold connect
  by_cases ho : w.wsOpen = true
  · simpa [ho] using h
  · by_cases ha : (!env.userData.truthy || !(env.token.getD "" != "")) = true
    · simp only [ho, ha, if_true, Bool.false_eq_true, if_false]
      exact emit_withinBudget env "error" _ w (by decide) h
    · cases henc : env.encodeURIComponent (env.token.getD "") with
      | none =>
        simp only [ho, ha, henc, Bool.false_eq_true, if_false]
        exact emit_withinBudget env "error" _ w (by decide) h
      | some encoded =>
        simp only [ho, ha, henc, Bool.false_eq_true, if_false]
        split <;> split <;>
          first
          | exact emit_withinBudget env "error" _ w (by decide) h
          | exact WithinBudget.of_same w _ h rfl rfl
              (by simp [emittedNames_append, emittedNames, emissions, Obs.emission])

theorem disconnect_withinBudget (env : Env) (w : World) (h : WithinBudget w) :
    WithinBudget (disconnect env w) := by
  obtain ⟨h1, _, h3⟩ := h
  have hw1 : WithinBudget
      { w with client := { w.client with reconnectAttempts := w.client.maxReconnectAttempts } } :=
    ⟨h1, by simp [h1], h3⟩
  have hw2 := clearHeartbeat_withinBudget _ hw1
  unfold disconnect
  apply emit_withinBudget env "disconnected" _ _ (by decide)
  cases hws : (clearHeartbeat { w with client :=
      { w.client with reconnectAttempts := w.client.maxReconnectAttempts } }).client.ws with
  | none =>
    simp only [hws]
    exact WithinBudget.of_same _ _ hw2 rfl rfl rfl
  | some hd =>
    simp only [hws]
    refine WithinBudget.of_same _ _ hw2 rfl rfl ?_
    rw [emittedNames_append]
    simp [emittedNames, emissions, Obs.emission]

theorem sendMessage_withinBudget (env : Env) (message : JVal) (w : World)
    (h : WithinBudget w) : WithinBudget (sendMessage env message w).2 := by
  unfold sendMessage
  by_cases hcond : (!w.client.isConnected || !w.wsOpen) = true
  · simp only [hcond, if_true]
    exact emit_withinBudget env "error" _ _ (by decide) (WithinBudget.of_same w _ h rfl rfl rfl)
  · by_cases hthrow : env.sendThrows (messageStr env message) = true
    · simp only [hcond, hthrow, if_true, Bool.false_eq_true, if_false]
      apply emit_withinBudget env "error" _ _ (by decide)
      exact WithinBudget.of_same w _ h rfl rfl
        (by simp [World.log, emittedNames_append, emittedNames, emissions, Obs.emission])
    · simp only [hcond, hthrow, Bool.false_eq_true, if_false]
      exact WithinBudget.of_same w _ h rfl rfl
        (by simp [World.log, emittedNames_append, emittedNames, emissions, Obs.emission])

theorem flushQueue_withinBudget (env : Env) (fuel : Nat) (w w1 : World)
    (hf : flushQueue env fuel w = some w1) (h : WithinBudget w) : WithinBudget w1 := by
  induction fuel generalizing w with
  | zero =>
    by_cases hq : w.client.messageQueue.isEmpty = true
    · simp [flushQueue, hq] at hf
      subst hf
      exact h
    · simp [flushQueue, hq] at hf
  | succ fuel ih =>
    cases hq : w.client.messageQueue with
    | nil =>
      simp [flushQueue, hq] at hf
      subst hf
      exact h
    | cons m rest =>
      simp only [flushQueue, hq] at hf
      exact ih _ hf (sendMessage_withinBudget env m _ (WithinBudget.of_same w _ h rfl rfl rfl))

theorem onOpen_withinBudget (env : Env) (fuel : Nat) (w w1 : World)
    (hf : onOpen env fuel w = some w1) (h : WithinBudget w) : WithinBudget w1 := by
  obtain ⟨h1, _, h3⟩ := h
  have hstart : WithinBudget (startHeartbeat { w with client := { w.client with
      isConnected := true, reconnectAttempts := 0, reconnectDelay := 1000 } }) := by
    refine ⟨h1, by simp [startHeartbeat], ?_⟩
    simp only [startHeartbeat]
    rw [emittedNames_append]
    simpa [emittedNames, emissions, Obs.emission] using h3
  unfold onOpen at hf
  cases hflush : flushQueue env fuel (startHeartbeat { w with client := { w.client with
      isConnected := true, reconnectAttempts := 0, reconnectDelay := 1000 } }) with
  | none => simp [hflush] at hf
  | some w3 =>
    simp only [hflush, Option.some.injEq] at hf
    rw [← hf]
    exact emit_withinBudget env "connected" _ _ (by decide)
      (flushQueue_withinBudget env fuel _ w3 hflush hstart)

theorem onClose_withinBudget (env : Env) (code : Nat) (reason : String) (w : World)
    (h : WithinBudget w) : WithinBudget (onClose env code reason w) := by
  have hw1 : WithinBudget { w with client := { w.client with isConnected := false } } :=
    WithinBudget.of_same w _ h rfl rfl rfl
  have hw3 := emit_withinBudget env "disconnected"
    (JVal.obj [("code", JVal.num code), ("reason", JVal.str reason)]) _ (by decide)
    (clearHeartbeat_withinBudget _ hw1)
  unfold onClose
  simp only []
  split
  · rename_i hcond
    obtain ⟨k1, _, k3⟩ := hw3
    refine ⟨k1, ?_, ?_⟩
    · have hlt := hcond.2
      rw [k1] at hlt
      simp only [scheduleReconnect]
      omega
    · simp only [scheduleReconnect]
      rw [emittedNames_append]
      simpa [emittedNames, emissions, Obs.emission] using k3
  · exact hw3

theorem onError_withinBudget (env : Env) (w : World) (h : WithinBudget w) :
    WithinBudget (onError env w) :=
  emit_withinBudget env "error" _ w (by decide) h

theorem lookup_getD_mem (table : List (String × String)) (key fallback : String) :
    (table.lookup key).getD fallback ∈ fallback :: table.map Prod.snd := by
  induction table with
  | nil => simp [List.lookup]
  | cons kv rest ih =>
    obtain ⟨k, v⟩ := kv
    by_cases hk : (key == k) = true
    · simp [List.lookup, hk]
    · have hk1 : (key == k) = false := by simpa using hk
      simp only [List.lookup, hk1, List.map_cons, List.mem_cons] at ih ⊢
      rcases ih with h | h
      · exact Or.inl h
      · exact Or.inr (Or.inr h)

/-- No tag is dispatched to `reconnectFailed`. -/
theorem eventFor_ne_reconnectFailed (t : JVal) (event : String)
    (h : eventFor t = some event) : event ≠ "reconnectFailed" := by
  rw [eventFor_table] at h
  have hall : ∀ v ∈ "message" :: inboundTable.map Prod.snd, v ≠ "reconnectFailed" := by
    decide
  cases t with
  | str s =>
    by_cases hp : s = "pong"
    · simp [tableEvent, hp] at h
    · simp only [tableEvent, hp, if_false, Option.some.injEq] at h
      rw [← h]
      exact hall _ (lookup_getD_mem inboundTable s "message")
  | _ =>
    simp only [tableEvent, Option.some.injEq] at h
    rw [← h]
    decide

/-- No tag is dispatched to a name that a plain object inherits. -/
theorem eventFor_not_inherited (t : JVal) (event : String)
    (h : eventFor t = some event) : event ∉ inheritedNames := by
  rw [eventFor_table] at h
  have hall : ∀ v ∈ "message" :: inboundTable.map Prod.snd, v ∉ inheritedNames := by
    decide
  cases t with
  | str s =>
    by_cases hp : s = "pong"
    · simp [tableEvent, hp] at h
    · simp only [tableEvent, hp, if_false, Option.some.injEq] at h
      rw [← h]
      exact hall _ (lookup_getD_mem inboundTable s "message")
  | _ =>
    simp only [tableEvent, Option.some.injEq] at h
    rw [← h]
    decide

/-- An emission under a name that is not inherited does not throw. -/
theorem emitThrows_of_not_inherited (event : String) (w : World)
    (hname : event ∉ inheritedNames) : emitThrows event w = false := by
  cases hq : emitThrows event w with
  | false => rfl
  | true => exact absurd ((tableThrows_iff _ _).mp hq).1 hname

/-- None of the calls of `emit` that the class makes itself throws, whatever the
listener table: the names of its literal calls and the names that `handleMessage`
dispatches to are not inherited.  The methods that call `emit` therefore go on with
the statement after the call. -/
theorem own_emissions_do_not_throw (w : World) :
    emitThrows "error" w = false ∧ emitThrows "connected" w = false ∧
    emitThrows "disconnected" w = false ∧ emitThrows "reconnecting" w = false ∧
    emitThrows "reconnectFailed" w = false ∧ emitThrows "message" w = false ∧
    ∀ t event, eventFor t = some event → emitThrows event w = false :=
  ⟨emitThrows_of_not_inherited _ w (by decide), emitThrows_of_not_inherited _ w (by decide),
    emitThrows_of_not_inherited _ w (by decide), emitThrows_of_not_inherited _ w (by decide),
    emitThrows_of_not_inherited _ w (by decide), emitThrows_of_not_inherited _ w (by decide),
    fun t event h => emitThrows_of_not_inherited event w (eventFor_not_inherited t event h)⟩

theorem onMessage_withinBudget (env : Env) (frame : String) (w : World)
    (h : WithinBudget w) : WithinBudget (onMessage env frame w) := by
  have hfallback := emit_withinBudget env "message"
    (JVal.obj [("type", JVal.str "text"), ("content", JVal.str frame)]) w (by decide) h
  unfold onMessage
  cases hparse : env.parse frame with
  | none => simpa [hparse] using hfallback
  | some d =>
    simp only [hparse]
    cases hh : handleMessage env d w with
    | none => simpa [hh] using hfallback
    | some w1 =>
      simp only [hh]
      by_cases hval : d ≠ JVal.null ∧ d ≠ JVal.undefined
      · have hm : handleMessage env d w =
            (match eventFor (d.getProp "type") with
              | none => some w
              | some event => some (emit env event d w)) := by
          cases d with
          | null => exact absurd rfl hval.1
          | undefined => exact absurd rfl hval.2
          | _ => rfl
        rw [hm] at hh
        cases hev : eventFor (d.getProp "type") with
        | none =>
          simp only [hev, Option.some.injEq] at hh
          rw [← hh]
          exact h
        | some event =>
          simp only [hev, Option.some.injEq] at hh
          rw [← hh]
          exact emit_withinBudget env event d w (eventFor_ne_reconnectFailed _ _ hev) h
      · have hnone : handleMessage env d w = none := by
          by_cases h1 : d = JVal.null
          · subst h1; rfl
          · have h2 : d = JVal.undefined := by
              by_contra h2
              exact hval ⟨h1, h2⟩
            subst h2; rfl
        rw [hnone] at hh
        cases hh

/-- Within the budget the timer callback takes its first branch. -/
theorem reconnectTimer_first_branch (env : Env) (w : World) (h : WithinBudget w) :
    reconnectTimer env w =
      (connect env
        (emit env "reconnecting"
          (JVal.obj [("attempt", JVal.num w.client.reconnectAttempts)]) w)).2 := by
  obtain ⟨h1, h2, _⟩ := h
  have hle : w.client.reconnectAttempts ≤ w.client.maxReconnectAttempts := by
    rw [h1]; exact h2
  simp [reconnectTimer, hle]

theorem reconnectTimer_withinBudget (env : Env) (w : World) (h : WithinBudget w) :
    WithinBudget (reconnectTimer env w) := by
  rw [reconnectTimer_first_branch env w h]
  exact connect_withinBudget env _ (emit_withinBudget env "reconnecting" _ w (by decide) h)

theorem heartbeatTick_withinBudget (env : Env) (w : World) (h : WithinBudget w) :
    WithinBudget (heartbeatTick env w) := by
  unfold heartbeatTick
  split
  · exact sendMessage_withinBudget env _ w h
  · exact h

/-- Every event keeps the counter within the budget. -/
theorem step_withinBudget (env : Env) (fuel : Nat) (ev : Event) (w w1 : World)
    (hs : step env fuel ev w = some w1) (h : WithinBudget w) : WithinBudget w1 := by
  match ev with
  | Event.callConnect =>
    simp only [step, Option.some.injEq] at hs
    rw [← hs]; exact connect_withinBudget env w h
  | Event.callDisconnect =>
    simp only [step, Option.some.injEq] at hs
    rw [← hs]; exact disconnect_withinBudget env w h
  | Event.callSend message =>
    simp only [step, Option.some.injEq] at hs
    rw [← hs]; exact sendMessage_withinBudget env message w h
  | Event.callOn event callback =>
    simp only [step, Option.some.injEq] at hs
    obtain ⟨ls, hls⟩ := Client.on_frame w.client event callback
    rw [← hs]
    exact WithinBudget.of_same w _ h (by simp [hls]) (by simp [hls]) rfl
  | Event.callOff event callback =>
    simp only [step, Option.some.injEq] at hs
    obtain ⟨ls, hls⟩ := Client.off_frame w.client event callback
    rw [← hs]
    exact WithinBudget.of_same w _ h (by simp [hls]) (by simp [hls]) rfl
  | Event.wsOpened hd =>
    simp only [step] at hs
    split at hs
    · exact onOpen_withinBudget env fuel _ w1 hs (WithinBudget.of_same w _ h rfl rfl rfl)
    · cases hs
  | Event.wsMessage hd frame =>
    simp only [step] at hs
    split at hs
    · simp only [Option.some.injEq] at hs
      rw [← hs]; exact onMessage_withinBudget env frame w h
    · cases hs
  | Event.wsClosed hd code reason =>
    simp only [step] at hs
    split at hs
    · simp only [Option.some.injEq] at hs
      rw [← hs]
      exact onClose_withinBudget env code reason _ (WithinBudget.of_same w _ h rfl rfl rfl)
    · cases hs
  | Event.wsErrored hd =>
    simp only [step] at hs
    split at hs
    · simp only [Option.some.injEq] at hs
      rw [← hs]; exact onError_withinBudget env w h
    · cases hs
  | Event.timeoutFired i =>
    simp only [step] at hs
    split at hs
    · simp only [Option.some.injEq] at hs
      rw [← hs]
      exact reconnectTimer_withinBudget env _ (WithinBudget.of_same w _ h rfl rfl rfl)
    · cases hs
  | Event.heartbeat id =>
    simp only [step] at hs
    split at hs
    · simp only [Option.some.injEq] at hs
      rw [← hs]; exact heartbeatTick_withinBudget env w h
    · cases hs

theorem reachable_withinBudget (w : World) (h : Reachable w) : WithinBudget w := by
  induction h with
  | fresh => exact ⟨rfl, by decide, by decide⟩
  | next env fuel ev w w1 _ hs ih => exact step_withinBudget env fuel ev w w1 hs ih

theorem reachable_run (env : Env) (fuel : Nat) (events : List Event) (w w1 : World)
    (h : Reachable w) (hr : run env fuel events w = some w1) : Reachable w1 := by
  induction events generalizing w with
  | nil =>
    simp only [run, Option.some.injEq] at hr
    rw [← hr]; exact h
  | cons ev rest ih =>
    simp only [run] at hr
    cases hs : step env fuel ev w with
    | none => simp [hs] at hr
    | some w2 =>
      simp only [hs] at hr
      exact ih w2 (Reachable.next env fuel ev w w2 h hs) hr

theorem eq_some_getD (o : Option World) (d : World) (h : o.isSome = true) :
    o = some (o.getD d) := by
  cases o with
  | none => simp at h
  | some v => rfl

/-- C27: in every state that a freshly constructed client reaches by any sequence of
calls of `connect`, `disconnect`, `sendMessage`, `on` and `off`, of open, message,
close and error events of its handles and of timers coming due, the counter satisfies
`0 ≤ reconnectAttempts ≤ maxReconnectAttempts = 5`; hence `reconnectFailed` has never
been emitted, and a reconnect timer that comes due in that state takes the branch that
emits `reconnecting` and calls `connect()`, not the one that emits `reconnectFailed`. -/
theorem reconnect_counter_within_budget (w : World) (h : Reachable w) (env : Env) :
    0 ≤ w.client.reconnectAttempts ∧
    w.client.reconnectAttempts ≤ w.client.maxReconnectAttempts ∧
    w.client.maxReconnectAttempts = 5 ∧
    "reconnectFailed" ∉ emittedNames w.trace ∧
    reconnectTimer env w =
      (connect env
        (emit env "reconnecting"
          (JVal.obj [("attempt", JVal.num w.client.reconnectAttempts)]) w)).2 ∧
    "reconnectFailed" ∉ emittedNames (reconnectTimer env w).trace := by
  have hb := reachable_withinBudget w h
  have hb1 := reconnectTimer_withinBudget env w hb
  obtain ⟨h1, h2, h3⟩ := hb
  exact ⟨Nat.zero_le _, by rw [h1]; exact h2, h1, h3,
    reconnectTimer_first_branch env w ⟨h1, h2, h3⟩, hb1.2.2⟩

/-- The state after five abnormal closes is reachable: the counter is 5 and the pending
timer will reconnect. -/
theorem reconnect_counter_within_budget_witness :
    World.afterFiveCloses.client.reconnectAttempts = 5 ∧
    World.afterFiveCloses.client.reconnectAttempts ≤
      World.afterFiveCloses.client.maxReconnectAttempts ∧
    "reconnectFailed" ∉ emittedNames (reconnectTimer Env.sample World.afterFiveCloses).trace :=
  have h := reconnect_counter_within_budget World.afterFiveCloses
    (reachable_run Env.sample 0 fiveAbnormalCloses World.new World.afterFiveCloses
      Reachable.fresh (eq_some_getD _ World.new (by decide))) Env.sample
  ⟨by decide, h.2.1, h.2.2.2.2.2⟩

/-! ## The flush loop when the handle of the client is not open -/

/-- While the guard of `sendMessage` fails, the flush loop puts every message it takes
from the queue back at its end: with a message queued it does not end within any
number of iterations. -/
theorem flushQueue_never_ends (env : Env) (fuel : Nat) (w : World)
    (hcond : (!w.client.isConnected || !w.wsOpen) = true)
    (hq : w.client.messageQueue ≠ []) : flushQueue env fuel w = none := by
  induction fuel generalizing w with
  | zero =>
    cases hqueue : w.client.messageQueue with
    | nil => exact absurd hqueue hq
    | cons m rest => simp [flushQueue, hqueue]
  | succ fuel ih =>
    cases hqueue : w.client.messageQueue with
    | nil => exact absurd hqueue hq
    | cons m rest =>
      simp only [flushQueue, hqueue]
      have hcond0 : (!({ w with client := { w.client with messageQueue := rest } } : World
          ).client.isConnected ||
          !({ w with client := { w.client with messageQueue := rest } } : World).wsOpen) =
          true := hcond
      obtain ⟨_, _, _, k4, k5, k6, k7⟩ := sendMessage_queues env m
        { w with client := { w.client with messageQueue := rest } } hcond0
      apply ih
      · simpa [World.wsOpen, World.wsState, k5, k6, k7] using hcond
      · rw [k4]
        simp

/-- The open handler with a message queued and a handle of the client that is not
open does not return. -/
theorem onOpen_never_returns (env : Env) (fuel : Nat) (w : World)
    (hopen : w.wsOpen = false) (hq : w.client.messageQueue ≠ []) :
    onOpen env fuel w = none := by
  have hflush := flushQueue_never_ends env fuel
    (startHeartbeat { w with client := { w.client with
      isConnected := true, reconnectAttempts := 0, reconnectDelay := 1000 } })
    (by simpa [startHeartbeat, World.wsOpen, World.wsState] using hopen)
    (by simpa [startHeartbeat] using hq)
  simp [onOpen, hflush]

/-- C28: evaluation at the failing input.  A message is sent before the connection
exists and `connect()` is called twice in a row: the client holds the second handle,
which is connecting, the first handle is connecting too, and the message is queued.
When the first handle opens, the open handler runs and its flush loop does not end
within any number of iterations: every `sendMessage` finds the handle of the client
not open and puts the message back in the queue. -/
theorem flush_loop_diverges_on_replaced_handle (fuel : Nat) :
    (run Env.sample fuel sendThenConnectTwice World.new).isSome = true ∧
    World.secondConnect.client.ws = some 1 ∧
    World.secondConnect.handles = [ReadyState.CONNECTING, ReadyState.CONNECTING] ∧
    World.secondConnect.client.messageQueue.length = 1 ∧
    step Env.sample fuel (Event.wsOpened 0) World.secondConnect = none := by
  refine ⟨by rfl, by decide, by decide, by decide, ?_⟩
  have hget : World.secondConnect.handles.get? 0 = some ReadyState.CONNECTING := by decide
  simp only [step, hget, if_true]
  apply onOpen_never_returns
  · decide
  · intro h
    have hlen : ({ World.secondConnect with
        handles := World.secondConnect.handles.set 0 ReadyState.OPEN } : World
        ).client.messageQueue.length = 1 := by decide
    rw [h] at hlen
    simp at hlen

end ChatWS

/-! # Properties of the message caches -/

namespace History

theorem sameTriple_iff (a b : Message) : sameTriple a b = true ↔ triple a = triple b := by
  simp [sameTriple, triple, and_assoc]

theorem any_sameTriple_iff (history : List Message) (m : Message) :
    history.any (fun existing => sameTriple existing m) = true ↔
      triple m ∈ history.map triple := by
  simp only [List.any_eq_true, sameTriple_iff, List.mem_map]

/-- Pushing a record unless its triple is present keeps the triples distinct. -/
theorem pushIfNew_noDuplicates (history : List Message) (m : Message)
    (h : NoDuplicates history) : NoDuplicates (pushIfNew history m) := by
  unfold pushIfNew
  by_cases hany : history.any (fun existing => sameTriple existing m) = true
  · rw [if_pos hany]
    exact h
  · rw [if_neg hany]
    have hnot : triple m ∉ history.map triple := fun hm =>
      hany ((any_sameTriple_iff history m).mpr hm)
    unfold NoDuplicates at h ⊢
    rw [List.map_append, List.nodup_append]
    refine ⟨h, by simp, ?_⟩
    intro x hx hx1
    simp only [List.map_cons, List.map_nil, List.mem_singleton] at hx1
    exact hnot (hx1 ▸ hx)

/-- Pushing the same record a second time changes nothing. -/
theorem pushIfNew_twice (history : List Message) (m : Message) :
    pushIfNew (pushIfNew history m) m = pushIfNew history m := by
  by_cases hany : history.any (fun existing => sameTriple existing m) = true
  · simp [pushIfNew, hany]
  · have hself : sameTriple m m = true := (sameTriple_iff m m).mpr rfl
    have h1 : pushIfNew history m = history ++ [m] := by simp [pushIfNew, hany]
    rw [h1]
    simp [pushIfNew, hself]

theorem foldl_pushIfNew_noDuplicates (incoming history : List Message)
    (h : NoDuplicates history) : NoDuplicates (incoming.foldl pushIfNew history) := by
  induction incoming generalizing history with
  | nil => exact h
  | cons m rest ih => exact ih (pushIfNew history m) (pushIfNew_noDuplicates history m h)

theorem insertSorted_perm (dateValue : String → Option Int) (x : Message) (l : List Message) :
    (insertSorted dateValue x l).Perm (x :: l) := by
  induction l with
  | nil => exact List.Perm.refl _
  | cons y rest ih =>
    unfold insertSorted
    by_cases hle : notAfter dateValue x y = true
    · simp only [hle, if_true]
      exact List.Perm.refl _
    · simp only [hle, if_false]
      exact ((List.Perm.cons y ih).trans (List.Perm.swap x y rest))

/-- The sort rearranges the history and neither drops nor adds a record. -/
theorem sortByTime_perm (dateValue : String → Option Int) (l : List Message) :
    (sortByTime dateValue l).Perm l := by
  induction l with
  | nil => exact List.Perm.refl _
  | cons x rest ih =>
    unfold sortByTime
    exact (insertSorted_perm dateValue x _).trans (List.Perm.cons x ih)

theorem sortByTime_noDuplicates (dateValue : String → Option Int) (l : List Message)
    (h : NoDuplicates l) : NoDuplicates (sortByTime dateValue l) := by
  unfold NoDuplicates at h ⊢
  exact ((sortByTime_perm dateValue l).map triple).nodup_iff.mpr h

end History

namespace ChatView

open History

/-- C19: evaluation at the failing input.  On the chat page `addMessage` pushes without
looking at the history: the same offline message delivered twice is stored twice.
`displayMessageHistory` pushes the server messages without comparing them with each
other: a server list that holds a message twice leaves two records with one triple.
In both cases the history before had no duplicates. -/
theorem chat_history_admits_duplicates :
    NoDuplicates Page.sample.messageHistory ∧
    NoDuplicates (addMessage sampleDate Message.sample Page.sample).1.messageHistory ∧
    (addMessage sampleDate Message.sample
      (addMessage sampleDate Message.sample Page.sample).1).1.messageHistory =
        [Message.sample, Message.sample] ∧
    ¬ NoDuplicates (addMessage sampleDate Message.sample
      (addMessage sampleDate Message.sample Page.sample).1).1.messageHistory ∧
    (displayMessageHistory sampleDate
      [{ content := "hi", sender_id := "admin", timestamp := "2024-01-01T00:00:00Z" },
        { content := "hi", sender_id := "admin", timestamp := "2024-01-01T00:00:00Z" }]
      Page.sample).1.messageHistory.map triple =
        [("hi", "2024-01-01T00:00:00Z", "admin"), ("hi", "2024-01-01T00:00:00Z", "admin")] ∧
    ¬ NoDuplicates (displayMessageHistory sampleDate
      [{ content := "hi", sender_id := "admin", timestamp := "2024-01-01T00:00:00Z" },
        { content := "hi", sender_id := "admin", timestamp := "2024-01-01T00:00:00Z" }]
      Page.sample).1.messageHistory := by
  decide

/-- What the merge of `displayMessageHistory` does achieve: when the container is
present and the server messages have distinct triples among themselves, the history it
leaves has no duplicates, whatever the history before. -/
theorem displayMessageHistory_distinct_server_list (dateValue : String → Option Int)
    (messages : List ServerMessage) (p : Page) (hc : p.hasContainer = true)
    (hdistinct : NoDuplicates (messages.map (fromServer p.currentUser))) :
    NoDuplicates (displayMessageHistory dateValue messages p).1.messageHistory := by
  simp only [displayMessageHistory, hc, Bool.not_true, Bool.false_eq_true, if_false]
  exact sortByTime_noDuplicates dateValue _
    (foldl_pushIfNew_noDuplicates p.messageHistory _ hdistinct)

end ChatView

namespace AdminView

open History

theorem getHistory_setHistory (table : List (String × List Message)) (u u1 : String)
    (history : List Message) :
    getHistory (setHistory table u history) u1 =
      if u = u1 then some history else getHistory table u1 := by
  induction table with
  | nil => simp [setHistory, getHistory]
  | cons kv rest ih =>
    obtain ⟨k, v⟩ := kv
    by_cases hk : k = u
    · subst hk
      by_cases h1 : k = u1 <;> simp [setHistory, getHistory, h1]
    · by_cases h1 : k = u1
      · subst h1
        have : ¬ u = k := fun h => hk h.symm
        simp [setHistory, getHistory, hk, this]
      · simp [setHistory, getHistory, hk, h1, ih]

theorem setHistory_twice (table : List (String × List Message)) (u : String)
    (a b : List Message) :
    setHistory (setHistory table u a) u b = setHistory table u b := by
  induction table with
  | nil => simp [setHistory]
  | cons kv rest ih =>
    obtain ⟨k, v⟩ := kv
    by_cases hk : k = u
    · simp [setHistory, hk]
    · simp [setHistory, hk, ih]

/-- C20: on the admin page, for every user id `u`, if the history of `u` has no two
records with the same (content, timestamp, sender), then it has none after
`addMessageToChat` and none after `displayConversationHistory`, whichever user these
are called for and whatever the message or the server list; and `addMessageToChat` is
idempotent: a second call with the same message leaves the page as the first did. -/
theorem admin_history_no_duplicates (dateValue : String → Option Int) (userId u : String)
    (message : Message) (messages : List ServerMessage) (p : Page)
    (h : NoDuplicates (p.historyOf u)) :
    NoDuplicates ((addMessageToChat userId message p).historyOf u) ∧
    NoDuplicates ((displayConversationHistory dateValue userId messages p).historyOf u) ∧
    addMessageToChat userId message (addMessageToChat userId message p) =
      addMessageToChat userId message p := by
  refine ⟨?_, ?_, ?_⟩
  · by_cases hu : userId = u
    · subst hu
      simp only [Page.historyOf, addMessageToChat, getHistory_setHistory, if_true,
        Option.getD_some]
      exact pushIfNew_noDuplicates _ message h
    · simpa [Page.historyOf, addMessageToChat, getHistory_setHistory, hu] using h
  · by_cases hu : userId = u
    · subst hu
      simp only [Page.historyOf, displayConversationHistory, getHistory_setHistory, if_true,
        Option.getD_some]
      exact sortByTime_noDuplicates dateValue _ (foldl_pushIfNew_noDuplicates _ _ h)
    · simpa [Page.historyOf, displayConversationHistory, getHistory_setHistory, hu] using h
  · simp only [addMessageToChat, getHistory_setHistory, if_true, Option.getD_some,
      pushIfNew_twice, setHistory_twice]

/-- The same message added twice to the history of `bob`. -/
theorem admin_history_no_duplicates_witness :
    NoDuplicates ((addMessageToChat "bob" ChatView.Message.sample
      (addMessageToChat "bob" ChatView.Message.sample Page.sample)).historyOf "bob") ∧
    (addMessageToChat "bob" ChatView.Message.sample
      (addMessageToChat "bob" ChatView.Message.sample Page.sample)).historyOf "bob" =
        [ChatView.Message.sample] :=
  ⟨(admin_history_no_duplicates ChatView.sampleDate "bob" "bob" ChatView.Message.sample []
      (addMessageToChat "bob" ChatView.Message.sample Page.sample) (by decide)).1,
    by decide⟩

end AdminView

/-! # The order of a history after a bulk load -/

namespace History

theorem mem_foldl_pushIfNew (incoming history : List Message) (m : Message)
    (h : m ∈ incoming.foldl pushIfNew history) : m ∈ history ∨ m ∈ incoming := by
  induction incoming generalizing history with
  | nil => exact Or.inl h
  | cons x rest ih =>
    rcases ih (pushIfNew history x) h with h1 | h1
    · unfold pushIfNew at h1
      by_cases hany : history.any (fun existing => sameTriple existing x) = true
      · rw [if_pos hany] at h1
        exact Or.inl h1
      · rw [if_neg hany] at h1
        rcases List.mem_append.mp h1 with h2 | h2
        · exact Or.inl h2
        · right
          simp only [List.mem_singleton] at h2
          rw [h2]
          exact List.mem_cons_self x rest
    · exact Or.inr (List.mem_cons_of_mem x h1)

theorem mem_insertSorted (dateValue : String → Option Int) (x m : Message) (l : List Message)
    (h : m ∈ insertSorted dateValue x l) : m = x ∨ m ∈ l := by
  have hp := (insertSorted_perm dateValue x l).mem_iff.mp h
  simpa using hp

/-- Inserting a record with a valid date into an ordered history of valid dates leaves
it ordered. -/
theorem insertSorted_inTimeOrder (dateValue : String → Option Int) (x : Message)
    (l : List Message) (hx : ∃ t, dateValue x.timestamp = some t)
    (hl : Parseable dateValue l) (hs : InTimeOrder dateValue l) :
    InTimeOrder dateValue (insertSorted dateValue x l) := by
  obtain ⟨tx, htx⟩ := hx
  induction l with
  | nil => simp [insertSorted, InTimeOrder]
  | cons y rest ih =>
    obtain ⟨ty, hty⟩ := hl y (List.mem_cons_self y rest)
    have hrest : Parseable dateValue rest := fun m hm => hl m (List.mem_cons_of_mem y hm)
    have hs' := List.pairwise_cons.mp hs
    unfold insertSorted
    by_cases hle : notAfter dateValue x y = true
    · rw [if_pos hle]
      have hxy : tx ≤ ty := by simpa [notAfter, htx, hty] using hle
      refine List.pairwise_cons.mpr ⟨?_, hs⟩
      intro z hz
      rcases List.mem_cons.mp hz with hzy | hzr
      · rw [hzy]
        exact ⟨tx, ty, htx, hty, hxy⟩
      · obtain ⟨a, b, ha, hb, hab⟩ := hs'.1 z hzr
        have hay : a = ty := by
          rw [hty] at ha
          exact (Option.some.inj ha).symm
        exact ⟨tx, b, htx, hb, le_trans hxy (hay ▸ hab)⟩
    · rw [if_neg hle]
      have hyx : ty ≤ tx := by
        have : ¬ tx ≤ ty := by simpa [notAfter, htx, hty] using hle
        omega
      refine List.pairwise_cons.mpr ⟨?_, ih hrest hs'.2⟩
      intro z hz
      rcases mem_insertSorted dateValue x z rest hz with hzx | hzr
      · rw [hzx]
        exact ⟨ty, tx, hty, htx, hyx⟩
      · exact hs'.1 z hzr

/-- The sort puts a history of valid dates in non-decreasing order of time. -/
theorem sortByTime_inTimeOrder (dateValue : String → Option Int) (l : List Message)
    (hl : Parseable dateValue l) : InTimeOrder dateValue (sortByTime dateValue l) := by
  induction l with
  | nil => simp [sortByTime, InTimeOrder]
  | cons x rest ih =>
    have hrest : Parseable dateValue rest := fun m hm => hl m (List.mem_cons_of_mem x hm)
    have hsorted : Parseable dateValue (sortByTime dateValue rest) := fun m hm =>
      hrest m ((sortByTime_perm dateValue rest).mem_iff.mp hm)
    unfold sortByTime
    exact insertSorted_inTimeOrder dateValue x _ (hl x (List.mem_cons_self x rest)) hsorted
      (ih hrest)

/-- The merge keeps every record that the history already holds. -/
theorem mem_foldl_pushIfNew_of_mem (incoming history : List Message) (m : Message)
    (h : m ∈ history) : m ∈ incoming.foldl pushIfNew history := by
  induction incoming generalizing history with
  | nil => exact h
  | cons x rest ih =>
    apply ih (pushIfNew history x)
    unfold pushIfNew
    by_cases hany : history.any (fun existing => sameTriple existing x) = true
    · rw [if_pos hany]
      exact h
    · rw [if_neg hany]
      exact List.mem_append_left _ h

/-- The merge leaves a record with the triple of every record it is given. -/
theorem triple_mem_foldl_pushIfNew (incoming history : List Message) (m : Message)
    (h : m ∈ incoming) : triple m ∈ (incoming.foldl pushIfNew history).map triple := by
  induction incoming generalizing history with
  | nil => cases h
  | cons x rest ih =>
    rcases List.mem_cons.mp h with hx | hrest
    · subst hx
      have hpushed : triple m ∈ (pushIfNew history m).map triple := by
        unfold pushIfNew
        by_cases hany : history.any (fun existing => sameTriple existing m) = true
        · rw [if_pos hany]
          exact (any_sameTriple_iff history m).mp hany
        · rw [if_neg hany]
          simp
      obtain ⟨r, hr, hrt⟩ := List.mem_map.mp hpushed
      exact List.mem_map.mpr ⟨r, mem_foldl_pushIfNew_of_mem rest _ r hr, hrt⟩
    · exact ih (pushIfNew history x) hrest

/-- C21: after a bulk history load, for every list of server messages in any order and
every prior cache, all timestamps being valid dates, the resulting history is in
non-decreasing order of time, and it is the merged history rearranged: on the chat page
after `displayMessageHistory` (which loads only when the message container is on the
page), on the admin page after `displayConversationHistory` for the user whose history
was loaded.  On the chat page the result holds every record built from a server message,
a record with the (content, timestamp, sender) of every cached record, and nothing
else; on the admin page it holds every cached record, a record with the (content,
timestamp, sender) of every server message, and nothing else. -/
theorem bulk_load_in_time_order (dateValue : String → Option Int)
    (messages : List ServerMessage) (chat : ChatView.Page) (admin : AdminView.Page)
    (userId : String)
    (hserver : ∀ s ∈ messages, ∃ x, dateValue s.timestamp = some x)
    (hcontainer : chat.hasContainer = true)
    (hchat : Parseable dateValue chat.messageHistory)
    (hadmin : Parseable dateValue (admin.historyOf userId)) :
    (InTimeOrder dateValue
        (ChatView.displayMessageHistory dateValue messages chat).1.messageHistory ∧
      (ChatView.displayMessageHistory dateValue messages chat).1.messageHistory.Perm
        (chat.messageHistory.foldl pushIfNew
          (messages.map (ChatView.fromServer chat.currentUser))) ∧
      (∀ s ∈ messages, ChatView.fromServer chat.currentUser s ∈
        (ChatView.displayMessageHistory dateValue messages chat).1.messageHistory) ∧
      (∀ m ∈ chat.messageHistory, triple m ∈
        (ChatView.displayMessageHistory dateValue messages chat).1.messageHistory.map triple) ∧
      (∀ m ∈ (ChatView.displayMessageHistory dateValue messages chat).1.messageHistory,
        m ∈ messages.map (ChatView.fromServer chat.currentUser) ∨ m ∈ chat.messageHistory)) ∧
    (InTimeOrder dateValue
        ((AdminView.displayConversationHistory dateValue userId messages admin).historyOf
          userId) ∧
      ((AdminView.displayConversationHistory dateValue userId messages admin).historyOf
        userId).Perm
          ((messages.map (AdminView.fromServer admin)).foldl pushIfNew
            (admin.historyOf userId)) ∧
      (∀ m ∈ admin.historyOf userId, m ∈
        (AdminView.displayConversationHistory dateValue userId messages admin).historyOf
          userId) ∧
      (∀ s ∈ messages, triple (AdminView.fromServer admin s) ∈
        ((AdminView.displayConversationHistory dateValue userId messages admin).historyOf
          userId).map triple) ∧
      (∀ m ∈ (AdminView.displayConversationHistory dateValue userId messages admin).historyOf
          userId,
        m ∈ admin.historyOf userId ∨ m ∈ messages.map (AdminView.fromServer admin))) := by
  have hc : (ChatView.displayMessageHistory dateValue messages chat).1.messageHistory =
      sortByTime dateValue (chat.messageHistory.foldl pushIfNew
        (messages.map (ChatView.fromServer chat.currentUser))) := by
    simp only [ChatView.displayMessageHistory, hcontainer, Bool.not_true, Bool.false_eq_true,
      if_false]
  have ha : (AdminView.displayConversationHistory dateValue userId messages admin).historyOf
      userId = sortByTime dateValue ((messages.map (AdminView.fromServer admin)).foldl pushIfNew
        (admin.historyOf userId)) := by
    simp only [AdminView.Page.historyOf, AdminView.displayConversationHistory,
      AdminView.getHistory_setHistory, if_true, Option.getD_some]
  rw [hc, ha]
  refine ⟨⟨?_, sortByTime_perm dateValue _, ?_, ?_, ?_⟩,
    ⟨?_, sortByTime_perm dateValue _, ?_, ?_, ?_⟩⟩
  · apply sortByTime_inTimeOrder
    intro m hm
    rcases mem_foldl_pushIfNew _ _ m hm with h1 | h1
    · obtain ⟨srv, hsrv, rfl⟩ := List.mem_map.mp h1
      exact hserver srv hsrv
    · exact hchat m h1
  · intro srv hsrv
    exact (sortByTime_perm dateValue _).mem_iff.mpr
      (mem_foldl_pushIfNew_of_mem _ _ _ (List.mem_map.mpr ⟨srv, hsrv, rfl⟩))
  · intro m hm
    exact (((sortByTime_perm dateValue _).map triple).mem_iff).mpr
      (triple_mem_foldl_pushIfNew _ _ m hm)
  · intro m hm
    exact mem_foldl_pushIfNew _ _ m ((sortByTime_perm dateValue _).mem_iff.mp hm)
  · apply sortByTime_inTimeOrder
    intro m hm
    rcases mem_foldl_pushIfNew _ _ m hm with h1 | h1
    · exact hadmin m h1
    · obtain ⟨srv, hsrv, rfl⟩ := List.mem_map.mp h1
      exact hserver srv hsrv
  · intro m hm
    exact (sortByTime_perm dateValue _).mem_iff.mpr (mem_foldl_pushIfNew_of_mem _ _ _ hm)
  · intro srv hsrv
    exact (((sortByTime_perm dateValue _).map triple).mem_iff).mpr
      (triple_mem_foldl_pushIfNew _ _ _ (List.mem_map.mpr ⟨srv, hsrv, rfl⟩))
  · intro m hm
    exact mem_foldl_pushIfNew _ _ m ((sortByTime_perm dateValue _).mem_iff.mp hm)

/-- A server list that arrives newest first, loaded over a cache that holds one later
record, is put oldest first on both pages, the cached record last. -/
theorem bulk_load_in_time_order_witness :
    (ChatView.displayMessageHistory lengthDate
      [{ content := "two", sender_id := "admin", timestamp := "bb" },
        { content := "one", sender_id := "admin", timestamp := "a" }]
      { ChatView.Page.sample with messageHistory := [ChatView.Message.sample] }).1.messageHistory.map
        triple =
      [("one", "a", "admin"), ("two", "bb", "admin"), ("hello", "2024-01-01T00:00:00Z", "admin")] ∧
    ((AdminView.displayConversationHistory lengthDate "bob"
      [{ content := "two", sender_id := "admin", timestamp := "bb" },
        { content := "one", sender_id := "admin", timestamp := "a" }]
      (AdminView.addMessageToChat "bob" ChatView.Message.sample
        AdminView.Page.sample)).historyOf "bob").map triple =
      [("one", "a", "admin"), ("two", "bb", "admin"), ("hello", "2024-01-01T00:00:00Z", "admin")] ∧
    InTimeOrder lengthDate
      (ChatView.displayMessageHistory lengthDate
        [{ content := "two", sender_id := "admin", timestamp := "bb" },
          { content := "one", sender_id := "admin", timestamp := "a" }]
        { ChatView.Page.sample with messageHistory := [ChatView.Message.sample] }).1.messageHistory ∧
    InTimeOrder lengthDate
      ((AdminView.displayConversationHistory lengthDate "bob"
        [{ content := "two", sender_id := "admin", timestamp := "bb" },
          { content := "one", sender_id := "admin", timestamp := "a" }]
        (AdminView.addMessageToChat "bob" ChatView.Message.sample
          AdminView.Page.sample)).historyOf "bob") :=
  ⟨by decide, by decide,
    (bulk_load_in_time_order lengthDate
      [{ content := "two", sender_id := "admin", timestamp := "bb" },
        { content := "one", sender_id := "admin", timestamp := "a" }]
      { ChatView.Page.sample with messageHistory := [ChatView.Message.sample] }
      (AdminView.addMessageToChat "bob" ChatView.Message.sample AdminView.Page.sample) "bob"
      (fun _ _ => ⟨_, rfl⟩) rfl (fun _ _ => ⟨_, rfl⟩) (fun _ _ => ⟨_, rfl⟩)).1.1,
    (bulk_load_in_time_order lengthDate
      [{ content := "two", sender_id := "admin", timestamp := "bb" },
        { content := "one", sender_id := "admin", timestamp := "a" }]
      { ChatView.Page.sample with messageHistory := [ChatView.Message.sample] }
      (AdminView.addMessageToChat "bob" ChatView.Message.sample AdminView.Page.sample) "bob"
      (fun _ _ => ⟨_, rfl⟩) rfl (fun _ _ => ⟨_, rfl⟩) (fun _ _ => ⟨_, rfl⟩)).2.1⟩

end History

/-! # Properties of the auth store -/

namespace Auth

open ChatWS

/-- A response with status 401 or 403 to `authenticatedFetch` removes the token and the
user record. -/
theorem authenticatedFetch_unauthorized (r : Response) (s : Store)
    (htoken : missing s.authToken = false) (hstatus : r.status = 401 ∨ r.status = 403) :
    authenticatedFetch (some r) s = (FetchResult.undefined, logout s) ∧
    (logout s).authToken = none ∧ (logout s).userData = none := by
  simp [authenticatedFetch, htoken, hstatus, logout]

/-- C24, as stated, fails in two places.  Without a stored user record `checkAuth`
returns false before it looks at the token, so that an expired token stays in the
store; and a token whose `exp` is 0, earlier than the time 1000, is accepted, because
the test `payload.exp && ...` takes 0 for an absent value. -/
theorem checkAuth_expired_token_kept :
    tokenParts "h.exp5.s" = ["h", "exp5", "s"] ∧
    checkAuth Platform.sample { Store.sample with userData := none } =
      (false, { Store.sample with userData := none }) ∧
    ({ Store.sample with userData := none } : Store).authToken = some "h.exp5.s" ∧
    checkAuth Platform.sample { Store.sample with authToken := some "h.exp0.s" } =
      (true, { Store.sample with authToken := some "h.exp0.s" }) := by
  decide

/-- C24, amended: let a token and a user record be stored, the token having three
parts of which the middle one decodes to a record.  If the record carries a numeric
`exp` that is not 0 and is earlier than the current time, `checkAuth` returns false and
logs the user out.  If `exp` is a number not earlier than the current time, or is
absent, `checkAuth` returns true and leaves the store unchanged. -/
theorem checkAuth_expiry (plat : Platform) (s : Store) (token user a b c : String)
    (fields : List (String × JVal))
    (htoken : s.authToken = some token) (hnonempty : token ≠ "")
    (huser : s.userData = some user) (hrecord : user ≠ "")
    (hparts : tokenParts token = [a, b, c])
    (hdecode : plat.decodePayload b = some (JVal.obj fields)) :
    (∀ n : Int, (JVal.obj fields).getProp "exp" = JVal.num n → n ≠ 0 → n < plat.now →
      checkAuth plat s = (false, logout s)) ∧
    (∀ n : Int, (JVal.obj fields).getProp "exp" = JVal.num n → plat.now ≤ n →
      checkAuth plat s = (true, s)) ∧
    ((JVal.obj fields).getProp "exp" = JVal.undefined → checkAuth plat s = (true, s)) := by
  have hguard : (missing s.authToken || missing s.userData) = false := by
    simp [missing, htoken, huser, hnonempty, hrecord]
  have hcheck : checkAuth plat s =
      (if ((JVal.obj fields).getProp "exp").truthy &&
          lessThanNow plat ((JVal.obj fields).getProp "exp") then (false, logout s)
        else (true, s)) := by
    simp only [checkAuth, hguard, Bool.false_eq_true, if_false]
    simp [htoken, hparts, hdecode]
  refine ⟨?_, ?_, ?_⟩
  · intro n hexp hzero hlt
    rw [hcheck, hexp]
    simp [JVal.truthy, lessThanNow, hzero, hlt]
  · intro n hexp hle
    rw [hcheck, hexp]
    have : ¬ n < plat.now := not_lt.mpr hle
    simp [lessThanNow, this]
  · intro hexp
    rw [hcheck, hexp]
    simp [JVal.truthy]

/-- The stored token of the examples expired at 5 and the time is 1000. -/
theorem checkAuth_expiry_witness :
    checkAuth Platform.sample Store.sample = (false, logout Store.sample) :=
  (checkAuth_expiry Platform.sample Store.sample "h.exp5.s" "ann" "h" "exp5" "s"
    [("exp", JVal.num 5)] rfl (by decide) rfl (by decide) (by decide) rfl).1 5 rfl
      (by decide) (by decide)

/-- C25: evaluation at the failing input.  With a user record stored, a token of one,
two or four parts makes `checkAuth` return false and leave both entries in the store;
a token of three parts whose middle part does not decode makes it return false and
remove both. -/
theorem checkAuth_wrong_part_count_keeps_store :
    checkAuth Platform.sample { Store.sample with authToken := some "abc" } =
      (false, { Store.sample with authToken := some "abc" }) ∧
    checkAuth Platform.sample { Store.sample with authToken := some "a.b" } =
      (false, { Store.sample with authToken := some "a.b" }) ∧
    checkAuth Platform.sample { Store.sample with authToken := some "a.b.c.d" } =
      (false, { Store.sample with authToken := some "a.b.c.d" }) ∧
    ({ Store.sample with authToken := some "abc" } : Store).userData = some "ann" ∧
    checkAuth Platform.sample { Store.sample with authToken := some "h.garbage.s" } =
      (false, { authToken := none, userData := none, location := "/static/login.html" }) := by
  decide

end Auth

namespace AdminView

open Auth

/-- No bearer call of the admin page writes to the store, whatever the response. -/
theorem admin_calls_keep_store (selectedUser : Option String) (archived hasModal : Bool)
    (response : Option Response) (s : Store) :
    (archiveConversation selectedUser archived response s).2 = s ∧
    (unarchiveConversation response s).2 = s ∧
    (clearUserCache response s).2 = s ∧
    (showUserInfo hasModal response s).2 = s ∧
    (fetchArchivedConversations response s).2 = s := by
  have hb : (bearerCall response s).2 = s := by
    unfold bearerCall
    split
    · rfl
    · cases response with
      | none => rfl
      | some r => simp only []; split <;> rfl
  refine ⟨?_, hb, hb, ?_, ?_⟩
  · unfold archiveConversation unarchiveConversation
    split
    · rfl
    · split <;> exact hb
  · unfold showUserInfo
    split
    · rfl
    · split
      · rfl
      · cases response with
        | none => rfl
        | some r =>
          simp only []
          split
          · rfl
          · split <;> rfl
  · unfold fetchArchivedConversations
    split
    · rfl
    · cases response with
      | none => rfl
      | some r =>
        simp only []
        split
        · split <;> rfl
        · rfl

/-- C22: evaluation at the failing input.  With a token and a user record stored, a
response with status 401 makes `authenticatedFetch` remove both; the same response, and
one with status 403, to the archive, unarchive, clear-cache, user-info and
archived-list calls of the admin page leaves both in the store: these calls show an
error, or ignore the response, and do not log out. -/
theorem admin_calls_do_not_log_out :
    (authenticatedFetch (some { status := 401, jsonOk := true }) Store.sample).2 =
      { authToken := none, userData := none, location := "/static/login.html" } ∧
    archiveConversation (some "bob") false (some { status := 401, jsonOk := true })
      Store.sample = (CallOutcome.failed, Store.sample) ∧
    unarchiveConversation (some { status := 401, jsonOk := true }) Store.sample =
      (CallOutcome.failed, Store.sample) ∧
    clearUserCache (some { status := 403, jsonOk := true }) Store.sample =
      (CallOutcome.failed, Store.sample) ∧
    showUserInfo true (some { status := 401, jsonOk := true }) Store.sample =
      (CallOutcome.failed, Store.sample) ∧
    fetchArchivedConversations (some { status := 403, jsonOk := true }) Store.sample =
      (CallOutcome.skipped, Store.sample) ∧
    Store.sample.authToken = some "h.exp5.s" ∧ Store.sample.userData = some "ann" := by
  decide

/-- After a reset the text of the badge is what it was: on a platform that parses the
numbers it prints, the next increment starts from the count before the reset. -/
theorem unread_count_resumes (plat : BadgePlatform) (k : Int) (hk : 0 < k)
    (hparse : plat.parseInt (plat.numberText k) = some k) (hidden : Bool) :
    updateUserUnreadCount plat (some { textContent := plat.numberText k, hidden := hidden }) 0
        true = some { textContent := plat.numberText k, hidden := true } ∧
    updateUserUnreadCount plat (some { textContent := plat.numberText k, hidden := true }) 1
        false = some { textContent := plat.numberText (k + 1), hidden := false } := by
  constructor
  · simp [updateUserUnreadCount]
  · have hpos : 0 < k + 1 := by omega
    simp [updateUserUnreadCount, hparse, hpos]

/-- C29: evaluation at the failing input.  A badge that shows 3 is reset, as
`selectUser` does: it is hidden and its text stays 3.  The next increment by 1 shows 4,
not 1.  From a badge without text the first increment shows 1. -/
theorem unread_count_after_reset :
    updateUserUnreadCount BadgePlatform.sample (some { textContent := "3", hidden := false }) 0
        true = some { textContent := "3", hidden := true } ∧
    updateUserUnreadCount BadgePlatform.sample
        (updateUserUnreadCount BadgePlatform.sample
          (some { textContent := "3", hidden := false }) 0 true) 1 false =
      some { textContent := "4", hidden := false } ∧
    updateUserUnreadCount BadgePlatform.sample (some { textContent := "", hidden := true }) 1
        false = some { textContent := "1", hidden := false } := by
  decide

end AdminView

/-! # Properties of the notification sink -/

namespace Notify

/-- When the constructor of the system notification does not throw, or is not called,
`show` completes: the toast is rendered, and with the sound enabled the sound is
attempted, whether or not an audio context can be made. -/
theorem show_completes (m : Manager) (page : Page) (title : String) (body : Option String)
    (h : ¬ (m.permission = "granted" ∧ page.hidden = true ∧ page.notificationThrows = true)) :
    (m.show page title body).2 = false ∧
    Effect.toast (toastMarkup title body) ∈ (m.show page title body).1 ∧
    (m.soundEnabled = true → playNotificationSound page ∈ (m.show page title body).1) := by
  refine ⟨?_, ?_, ?_⟩
  · simp only [Manager.show, h, if_false]
  · simp only [Manager.show, h, if_false]
    simp
  · intro hs
    simp only [Manager.show, h, if_false, hs, if_true]
    simp

set_option maxRecDepth 8000 in
/-- C23: evaluation at the failing input.  With the permission granted and the page
hidden, a constructor of the system notification that throws makes `show` throw: no
toast is rendered and no sound is attempted, although the sound is enabled and
available.  On the same page an audio API that is not available does not stop `show`:
the notification and the toast are made and the failure of the sound is only warned
about. -/
theorem show_throws_when_notification_throws :
    Manager.show { soundEnabled := true, permission := "granted" }
        { hidden := true, notificationThrows := true, audioAvailable := true }
        "New message" (some "hi") = ([], true) ∧
    Manager.show { soundEnabled := true, permission := "granted" }
        { hidden := true, notificationThrows := false, audioAvailable := false }
        "New message" (some "hi") =
      ([Effect.systemNotification "New message" (some "hi"),
        Effect.toast (toastMarkup "New message" (some "hi")), Effect.soundWarning], false) := by
  decide

/-- The toast holds the title and the body as they are passed. -/
theorem toastMarkup_verbatim (title text : String) (h : text ≠ "") :
    toastMarkup title (some text) =
      "\n            <div class=\"notification-content\">\n                " ++
      "<div class=\"notification-title\">" ++ title ++ "</div>\n                " ++
      ("<div class=\"notification-body\">" ++ text ++ "</div>") ++
      "\n            </div>\n            " ++
      "<button class=\"notification-close\">&times;</button>\n        " := by
  simp [toastMarkup, h]

set_option maxRecDepth 8000 in
/-- C30: evaluation at the failing input.  A message whose sender name and text hold
markup: `escapeHtml`, which the bubbles use, turns the angle brackets into entities,
and the toast that `show` renders for the title and body built by the `userMessage`
listener holds both strings as they came, tags included. -/
theorem toast_markup_not_escaped :
    userMessageNotification "<i>Eve</i>" "eve" "<img src=x onerror=alert(1)>" =
      ("Сообщение от <i>Eve</i>", some "<img src=x onerror=alert(1)>") ∧
    escapeHtml "<img src=x onerror=alert(1)>" = "&lt;img src=x onerror=alert(1)&gt;" ∧
    bubbleMarkup "<img src=x onerror=alert(1)>" =
      "<div class=\"message-bubble\">\n            &lt;img src=x onerror=alert(1)&gt;" ++
        "\n        </div>" ∧
    (Manager.show { soundEnabled := false, permission := "default" }
        { hidden := false, notificationThrows := false, audioAvailable := true }
        "Сообщение от <i>Eve</i>" (some "<img src=x onerror=alert(1)>")).1 =
      [Effect.toast
        ("\n            <div class=\"notification-content\">\n                " ++
          "<div class=\"notification-title\">Сообщение от <i>Eve</i></div>\n                " ++
          "<div class=\"notification-body\"><img src=x onerror=alert(1)></div>" ++
          "\n            </div>\n            " ++
          "<button class=\"notification-close\">&times;</button>\n        ")] := by
  decide

end Notify

/-! # Properties of the time formatter -/

namespace Timezone

/-- A timestamp that holds a `+` or a `Z` is formatted from the parsed instant, without
the shift of `toMoscowTime`. -/
theorem formatChatTime_marked (plat : Platform) (timestamp : String)
    (h : timestamp.toList.contains '+' = true ∨ timestamp.toList.contains 'Z' = true) :
    formatChatTime plat timestamp =
      some (plat.timeText (plat.dateValue timestamp), plat.dateText (plat.dateValue timestamp)) := by
  rcases h with h | h <;>
    simp only [formatChatTime, h, Bool.not_true, Bool.false_and, Bool.and_false,
      Bool.false_eq_true, if_false]

/-- C26: evaluation at the failing input.  The timestamp `2024-01-01T10:00:00-05:00`
carries a negative offset and holds neither `+` nor `Z`: on every platform
`formatChatTime` formats the result of `toMoscowTime`, not the parsed instant.  On the
platform of the examples the texts are those of the instant three hours later, whereas
the same instant written with `+03:00` or with `Z` is formatted as it is. -/
theorem formatChatTime_shifts_negative_offset (plat : Platform) :
    formatChatTime plat "2024-01-01T10:00:00-05:00" =
      (match toMoscowTime plat (plat.dateValue "2024-01-01T10:00:00-05:00") with
        | none => none
        | some shifted => some (plat.timeText shifted, plat.dateText shifted)) ∧
    formatChatTime Platform.sample "2024-01-01T10:00:00-05:00" =
      some ("10800000", "10800000") ∧
    formatChatTime Platform.sample "2024-01-01T18:00:00+03:00" = some ("0", "0") ∧
    formatChatTime Platform.sample "2024-01-01T15:00:00Z" = some ("0", "0") := by
  have h1 : "2024-01-01T10:00:00-05:00".toList.contains '+' = false := by decide
  have h2 : "2024-01-01T10:00:00-05:00".toList.contains 'Z' = false := by decide
  refine ⟨?_, by decide, by decide, by decide⟩
  simp [formatChatTime, h1, h2]

end Timezone
